import Mathlib

/-!
# cpu-memory-simulation: a shallow embedding of `cpu_mem_sim.c`

The C program forks two processes joined by two pipes: the memory process
(`memoryProcess`, owner of `int memoryArray[2000]`) and the CPU process
(`cpuProcess`, owner of the registers).  The embedding keeps both halves in one
`State` record:

* the CPU's local variables `PC SP IR AC X Y kernelMode timer`;
* the memory process's `memoryArray`, as a total function on `Int` whose legal
  index range `0..1999` is enforced separately by `writeToCPU` / `storeCell`
  (an index outside the array is an `outOfBounds` outcome, never a value);
* `cpuToMemory`, the log of every call that writes on the CPU-to-memory pipe;
* `stdout`, the bytes `showAC` handed to `printf`, in order; which of them are
  written out is decided when the process ends (`cpuProcessEnd`).

C `int` is a 32-bit two's-complement integer: every `+`/`-` of the source is
followed by `wrap32`.  `timer % interrupt` with an undefined result (division
by zero, or `INT_MIN % -1`) is a `divideFault` outcome.

The memory process answers each command before the CPU goes on: a READ round
trip blocks the CPU until the reply arrives, and a WRITE is consumed before any
later READ because the pipe is first-in first-out.  Host failures of `read` and
`write` on the pipes are outside the model, with one exception: the last `write`
of the exit call of case 50 is made after the word that lets the memory process
exit, so it can raise SIGPIPE; `ExitWrite` and `cpuProcessEnd` describe both
ways the CPU process can end.  `rand()` is an input: the caller supplies the
value it returns.

`main` is embedded up to the point where the two processes start (`Startup`),
and the loader `processFileInput` runs on the text of the image file, a list of
characters (`LoadResult`).  The C library's `atoi` and `fgets` follow the C
standard.  An `atoi` value that fits no `int`, a scan of `preprocessLine` that
runs past the stored text, and a store outside the array are outcomes of their
own, never values.
-/

namespace CpuMemSim

/-! ## Machine integers -/

/-- Reduction of a mathematical integer to the C `int` range `-2^31 .. 2^31-1`. -/
def wrap32 (x : Int) : Int := (x + 2147483648) % 4294967296 - 2147483648

/-- The least C `int`. -/
def intMin : Int := -2147483648

/-! ## Constants (lines 805-828) -/

/-- Source: `getMaxSystemCodeEntry`, line 805. -/
def getMaxSystemCodeEntry : Int := 1999

/-- Source: `getMaxUserProgramEntry`, line 812. -/
def getMaxUserProgramEntry : Int := 999

/-- Source: `getReadStatus`, line 819. -/
def getReadStatus : Int := 82

/-- Source: `getWriteStatus`, line 826. -/
def getWriteStatus : Int := 87

/-- Source: `exitStatus` in `memoryProcess`, line 82, and the literal of line 762. -/
def exitStatus : Int := 99

/-! ## The two validators (lines 778-800) -/

/-- Source: `validateAddressAccess`, lines 778-784. -/
def validateAddressAccess (ptr : Int) (kernelMode : Bool) : Bool :=
  if (kernelMode == false && (decide (ptr ≥ 0) && decide (ptr ≤ 999))) ||
     (kernelMode == true && (decide (ptr ≥ 1000) && decide (ptr ≤ 1999)))
  then true
  else false

/-- Source: `validateTimerInterrupt`, lines 795-800.  `%` is C's truncating
remainder; it is evaluated before the mode is looked at, so an undefined
remainder is reached in either mode and yields `none`. -/
def validateTimerInterrupt (interrupt timer : Int) (kernelMode : Bool) : Option Bool :=
  if interrupt = 0 ∨ (timer = intMin ∧ interrupt = -1) then none
  else if (decide (Int.tmod timer interrupt = 0)) && (kernelMode == false) then some true
  else some false

/-! ## State, pipe log and outcomes -/

/-- One call that writes on the CPU-to-memory pipe.  `kernel` is the value of the
CPU's `kernelMode` variable when the call was made; it is not transmitted. -/
inductive Event where
  /-- A call `pipeReadStatusAndPTR(cpuToMemory, ptr, status)`: two cells. -/
  | statusPtr (status ptr : Int) (kernel : Bool)
  /-- A call `pipeAddressToStack(cpuToMemory, status, ptr, value)`: three cells. -/
  | statusPtrValue (status ptr value : Int) (kernel : Bool)
  deriving DecidableEq

namespace Event

/-- The cells the call writes on the pipe, in order (lines 931-956). -/
def cells : Event → List Int
  | statusPtr status ptr _ => [status, ptr]
  | statusPtrValue status ptr value _ => [status, ptr, value]

/-- First cell written: the command word. -/
def status : Event → Int
  | statusPtr st _ _ => st
  | statusPtrValue st _ _ _ => st

/-- Second cell written: the address. -/
def ptr : Event → Int
  | statusPtr _ p _ => p
  | statusPtrValue _ p _ _ => p

/-- The CPU mode in force when the call was made. -/
def kernel : Event → Bool
  | statusPtr _ _ k => k
  | statusPtrValue _ _ _ k => k

/-- The event is a READ or a WRITE command (as opposed to the exit word). -/
def isAccess (e : Event) : Bool :=
  e.status == getReadStatus || e.status == getWriteStatus

end Event

/-- CPU registers, the memory process's array, the pipe log and standard output. -/
structure State where
  PC : Int
  SP : Int
  IR : Int
  AC : Int
  X : Int
  Y : Int
  kernelMode : Bool
  timer : Int
  memoryArray : Int → Int
  cpuToMemory : List Event
  stdout : List Nat

/-- Ways a run stops abnormally. -/
inductive Fault where
  /-- `errorExit("Memory violation: accessing address in wrong mode")`. -/
  | memoryViolation
  /-- `errorExit("No case!")`, line 766. -/
  | noCase
  /-- `timer % interrupt` has no defined value. -/
  | divideFault
  /-- The memory process indexes `memoryArray` outside `0..1999`. -/
  | outOfBounds
  deriving DecidableEq

/-- Result of a piece of CPU code: it ran through (`ok`), or the run stopped
with the given fault in the given state. -/
inductive Outcome where
  | ok (s : State)
  | fault (e : Fault) (s : State)

namespace Outcome

/-- The state in which the piece of code ended. -/
def state : Outcome → State
  | ok s => s
  | fault _ s => s

/-- Sequencing: continue with `f` unless the run has stopped. -/
def andThen (o : Outcome) (f : State → Outcome) : Outcome :=
  match o with
  | ok s => f s
  | fault e s => fault e s

end Outcome

/-! ## Pipe primitives and the memory process's two array accesses -/

/-- Source: `pipeReadStatusAndPTR`, lines 931-937. -/
def pipeReadStatusAndPTR (s : State) (ptr readStatus : Int) : State :=
  { s with cpuToMemory := s.cpuToMemory ++ [Event.statusPtr readStatus ptr s.kernelMode] }

/-- Source: `pipeAddressToStack`, lines 947-956. -/
def pipeAddressToStack (s : State) (writeStatus ptr value : Int) : State :=
  { s with cpuToMemory :=
      s.cpuToMemory ++ [Event.statusPtrValue writeStatus ptr value s.kernelMode] }

/-- Source: `writeToCPU`, lines 1024-1027: the reply `memoryArray[ptr]`, defined
only inside the array. -/
def writeToCPU (memoryArray : Int → Int) (ptr : Int) : Option Int :=
  if 0 ≤ ptr ∧ ptr < 2000 then some (memoryArray ptr) else none

/-- Source: line 102, `memoryArray[ptr] = tempValue`, defined only inside the array. -/
def storeCell (memoryArray : Int → Int) (ptr tempValue : Int) : Option (Int → Int) :=
  if 0 ≤ ptr ∧ ptr < 2000 then some (fun a => if a = ptr then tempValue else memoryArray a)
  else none

/-- A READ round trip: `pipeReadStatusAndPTR(.., ptr, readStatus)` followed by
`readFromMemory`, the reply being produced by the memory process's READ branch
(lines 93-96). -/
def readRequest (s : State) (ptr : Int) (k : Int → State → Outcome) : Outcome :=
  let s1 := pipeReadStatusAndPTR s ptr getReadStatus
  match writeToCPU s1.memoryArray ptr with
  | some v => k v s1
  | none => Outcome.fault Fault.outOfBounds s1

/-- A WRITE: `pipeAddressToStack(.., writeStatus, ptr, value)`, consumed by the
memory process's WRITE branch (lines 99-103). -/
def writeRequest (s : State) (ptr value : Int) (k : State → Outcome) : Outcome :=
  let s1 := pipeAddressToStack s getWriteStatus ptr value
  match storeCell s1.memoryArray ptr value with
  | some m => k { s1 with memoryArray := m }
  | none => Outcome.fault Fault.outOfBounds s1

/-- The guarded read that the source repeats before every load:
`if (validateAddressAccess(ptr, kernelMode)) { pipeReadStatusAndPTR(..); v = readFromMemory(..); }
 else errorExit("Memory violation ...")`. -/
def checkedRead (s : State) (ptr : Int) (k : Int → State → Outcome) : Outcome :=
  if validateAddressAccess ptr s.kernelMode then readRequest s ptr k
  else Outcome.fault Fault.memoryViolation s

/-- The guarded write that the source repeats before every store:
`if (validateAddressAccess(ptr, kernelMode)) pipeAddressToStack(..); else errorExit(..)`. -/
def checkedWrite (s : State) (ptr value : Int) (k : State → Outcome) : Outcome :=
  if validateAddressAccess ptr s.kernelMode then writeRequest s ptr value k
  else Outcome.fault Fault.memoryViolation s

/-! ## Host helpers -/

/-- Source: `randomInteger`, lines 852-857: `rand() % max + 1` with `max = 100`;
`r` is the value `rand()` returns. -/
def randomInteger (r : Nat) : Int := ((r % 100 + 1 : Nat) : Int)

/-- The bytes `printf("%d", v)` writes. -/
def decimalBytes (v : Int) : List Nat := (toString v).toList.map Char.toNat

/-- Source: `showAC`, lines 991-999. -/
def showAC (s : State) (port AC : Int) : State :=
  let s := if port = 1 then { s with stdout := s.stdout ++ decimalBytes AC } else s
  if port = 2 then { s with stdout := s.stdout ++ [(AC % 256).toNat] } else s

/-! ## Timer interrupt (lines 894-901 and the tail shared by cases 1-30) -/

/-- Source: `timerInterrupt`, lines 894-901.  The two writes are not guarded by
`validateAddressAccess`; the return value `1000` is handed to the continuation. -/
def timerInterrupt (s : State) (SP PC tempSP : Int) (k : Int → State → Outcome) : Outcome :=
  writeRequest s tempSP PC fun s =>
  let tempSP := wrap32 (tempSP - 1)
  writeRequest s tempSP SP fun s =>
  k 1000 s

/-- The tail every one of the cases 1-30 ends with:
`timer += 1; if (validateTimerInterrupt(interrupt, timer, kernelMode)) { kernelMode = true;
 PC = timerInterrupt(cpuToMemory, SP, PC, getMaxSystemCodeEntry());
 SP = getMaxSystemCodeEntry() - 1; }`. -/
def timerCheck (interrupt : Int) (s : State) : Outcome :=
  let s := { s with timer := wrap32 (s.timer + 1) }
  match validateTimerInterrupt interrupt s.timer s.kernelMode with
  | none => Outcome.fault Fault.divideFault s
  | some true =>
    let s := { s with kernelMode := true }
    timerInterrupt s s.SP s.PC getMaxSystemCodeEntry fun pc s =>
    let s := { s with PC := pc }
    Outcome.ok { s with SP := wrap32 (getMaxSystemCodeEntry - 1) }
  | some false => Outcome.ok s

/-! ## The thirty instruction bodies (each case of the switch up to, and not
including, its `timer += 1`) -/

/-- Source: case 1, lines 157-168. -/
def case1 (s : State) : Outcome :=
  let s := { s with PC := wrap32 (s.PC + 1) }
  checkedRead s s.PC fun v s =>
  let s := { s with AC := v }
  Outcome.ok { s with PC := wrap32 (s.PC + 1) }

/-- Source: case 2, lines 177-196. -/
def case2 (s : State) : Outcome :=
  let s := { s with PC := wrap32 (s.PC + 1) }
  checkedRead s s.PC fun tempValue s =>
  checkedRead s tempValue fun v s =>
  let s := { s with AC := v }
  Outcome.ok { s with PC := wrap32 (s.PC + 1) }

/-- Source: case 3, lines 205-232. -/
def case3 (s : State) : Outcome :=
  let s := { s with PC := wrap32 (s.PC + 1) }
  checkedRead s s.PC fun tempValue s =>
  checkedRead s tempValue fun tempValue s =>
  checkedRead s tempValue fun v s =>
  let s := { s with AC := v }
  Outcome.ok { s with PC := wrap32 (s.PC + 1) }

/-- Source: case 4, lines 241-261. -/
def case4 (s : State) : Outcome :=
  let s := { s with PC := wrap32 (s.PC + 1) }
  checkedRead s s.PC fun tempValue s =>
  let tempValue := wrap32 (tempValue + s.X)
  checkedRead s tempValue fun v s =>
  let s := { s with AC := v }
  Outcome.ok { s with PC := wrap32 (s.PC + 1) }

/-- Source: case 5, lines 270-290. -/
def case5 (s : State) : Outcome :=
  let s := { s with PC := wrap32 (s.PC + 1) }
  checkedRead s s.PC fun tempValue s =>
  let tempValue := wrap32 (tempValue + s.Y)
  checkedRead s tempValue fun v s =>
  let s := { s with AC := v }
  Outcome.ok { s with PC := wrap32 (s.PC + 1) }

/-- Source: case 6, lines 299-309. -/
def case6 (s : State) : Outcome :=
  let s := { s with PC := wrap32 (s.PC + 1) }
  let tempAddr := wrap32 (s.SP + s.X)
  checkedRead s tempAddr fun v s =>
  Outcome.ok { s with AC := v }

/-- Source: case 7, lines 319-337. -/
def case7 (s : State) : Outcome :=
  let s := { s with PC := wrap32 (s.PC + 1) }
  checkedRead s s.PC fun tempValue s =>
  checkedWrite s tempValue s.AC fun s =>
  Outcome.ok { s with PC := wrap32 (s.PC + 1) }

/-- Source: case 8, lines 346-349; `r` is what `rand()` returns. -/
def case8 (r : Nat) (s : State) : Outcome :=
  let s := { s with PC := wrap32 (s.PC + 1) }
  Outcome.ok { s with AC := randomInteger r }

/-- Source: case 9, lines 359-375. -/
def case9 (s : State) : Outcome :=
  let s := { s with PC := wrap32 (s.PC + 1) }
  checkedRead s s.PC fun port s =>
  let s := showAC s port s.AC
  Outcome.ok { s with PC := wrap32 (s.PC + 1) }

/-- Source: case 10, lines 384-387. -/
def case10 (s : State) : Outcome :=
  let s := { s with PC := wrap32 (s.PC + 1) }
  Outcome.ok { s with AC := wrap32 (s.AC + s.X) }

/-- Source: case 11, lines 397-400. -/
def case11 (s : State) : Outcome :=
  let s := { s with PC := wrap32 (s.PC + 1) }
  Outcome.ok { s with AC := wrap32 (s.AC + s.Y) }

/-- Source: case 12, lines 410-413. -/
def case12 (s : State) : Outcome :=
  let s := { s with PC := wrap32 (s.PC + 1) }
  Outcome.ok { s with AC := wrap32 (s.AC - s.X) }

/-- Source: case 13, lines 423-426. -/
def case13 (s : State) : Outcome :=
  let s := { s with PC := wrap32 (s.PC + 1) }
  Outcome.ok { s with AC := wrap32 (s.AC - s.Y) }

/-- Source: case 14, lines 436-439. -/
def case14 (s : State) : Outcome :=
  let s := { s with PC := wrap32 (s.PC + 1) }
  Outcome.ok { s with X := s.AC }

/-- Source: case 15, lines 449-452. -/
def case15 (s : State) : Outcome :=
  let s := { s with PC := wrap32 (s.PC + 1) }
  Outcome.ok { s with AC := s.X }

/-- Source: case 16, lines 462-465. -/
def case16 (s : State) : Outcome :=
  let s := { s with PC := wrap32 (s.PC + 1) }
  Outcome.ok { s with Y := s.AC }

/-- Source: case 17, lines 475-478. -/
def case17 (s : State) : Outcome :=
  let s := { s with PC := wrap32 (s.PC + 1) }
  Outcome.ok { s with AC := s.Y }

/-- Source: case 18, lines 488-491. -/
def case18 (s : State) : Outcome :=
  let s := { s with PC := wrap32 (s.PC + 1) }
  Outcome.ok { s with SP := s.AC }

/-- Source: case 19, lines 501-504. -/
def case19 (s : State) : Outcome :=
  let s := { s with PC := wrap32 (s.PC + 1) }
  Outcome.ok { s with AC := s.SP }

/-- Source: case 20, lines 514-523. -/
def case20 (s : State) : Outcome :=
  let s := { s with PC := wrap32 (s.PC + 1) }
  checkedRead s s.PC fun v s =>
  Outcome.ok { s with PC := v }

/-- Source: case 21, lines 533-548. -/
def case21 (s : State) : Outcome :=
  let s := { s with PC := wrap32 (s.PC + 1) }
  if s.AC = 0 then
    checkedRead s s.PC fun v s =>
    Outcome.ok { s with PC := v }
  else
    Outcome.ok { s with PC := wrap32 (s.PC + 1) }

/-- Source: case 22, lines 558-573. -/
def case22 (s : State) : Outcome :=
  let s := { s with PC := wrap32 (s.PC + 1) }
  if s.AC ≠ 0 then
    checkedRead s s.PC fun v s =>
    Outcome.ok { s with PC := v }
  else
    Outcome.ok { s with PC := wrap32 (s.PC + 1) }

/-- Source: case 23, lines 583-601. -/
def case23 (s : State) : Outcome :=
  let s := { s with PC := wrap32 (s.PC + 1) }
  let s := { s with SP := wrap32 (s.SP - 1) }
  checkedWrite s s.SP s.PC fun s =>
  checkedRead s s.PC fun v s =>
  Outcome.ok { s with PC := v }

/-- Source: case 24, lines 611-623. -/
def case24 (s : State) : Outcome :=
  let s := { s with PC := s.SP }
  checkedRead s s.PC fun v s =>
  let s := { s with PC := v }
  let s := { s with SP := wrap32 (s.SP + 1) }
  Outcome.ok { s with PC := wrap32 (s.PC + 1) }

/-- Source: case 25, lines 633-636. -/
def case25 (s : State) : Outcome :=
  let s := { s with PC := wrap32 (s.PC + 1) }
  Outcome.ok { s with X := wrap32 (s.X + 1) }

/-- Source: case 26, lines 646-649. -/
def case26 (s : State) : Outcome :=
  let s := { s with PC := wrap32 (s.PC + 1) }
  Outcome.ok { s with X := wrap32 (s.X - 1) }

/-- Source: case 27, lines 659-669. -/
def case27 (s : State) : Outcome :=
  let s := { s with PC := wrap32 (s.PC + 1) }
  let s := { s with SP := wrap32 (s.SP - 1) }
  checkedWrite s s.SP s.AC fun s =>
  Outcome.ok s

/-- Source: case 28, lines 679-690. -/
def case28 (s : State) : Outcome :=
  let s := { s with PC := wrap32 (s.PC + 1) }
  checkedRead s s.SP fun v s =>
  let s := { s with AC := v }
  Outcome.ok { s with SP := wrap32 (s.SP + 1) }

/-- Source: case 29, lines 699-721. -/
def case29 (s : State) : Outcome :=
  let s := { s with kernelMode := true }
  let s := { s with PC := wrap32 (s.PC + 1) }
  let tempSP := getMaxSystemCodeEntry
  checkedWrite s tempSP s.PC fun s =>
  let tempSP := wrap32 (tempSP - 1)
  checkedWrite s tempSP s.SP fun s =>
  let s := { s with SP := tempSP }
  Outcome.ok { s with PC := 1500 }

/-- Source: case 30, lines 731-751. -/
def case30 (s : State) : Outcome :=
  checkedRead s s.SP fun tempSP s =>
  let s := { s with SP := wrap32 (s.SP + 1) }
  checkedRead s s.SP fun v s =>
  let s := { s with PC := v }
  let s := { s with kernelMode := false }
  Outcome.ok { s with SP := tempSP }

/-! ## Fetch, dispatch and the main loop (lines 117-768) -/

/-- The `switch (IR)` of line 156 for the cases that end with the timer tail:
the body selected by `IR`, without that tail; the `default` of line 765 for any
other value (case 50 is handled in `step`). -/
def execute (r : Nat) (s : State) : Outcome :=
  if s.IR = 1 then case1 s
  else if s.IR = 2 then case2 s
  else if s.IR = 3 then case3 s
  else if s.IR = 4 then case4 s
  else if s.IR = 5 then case5 s
  else if s.IR = 6 then case6 s
  else if s.IR = 7 then case7 s
  else if s.IR = 8 then case8 r s
  else if s.IR = 9 then case9 s
  else if s.IR = 10 then case10 s
  else if s.IR = 11 then case11 s
  else if s.IR = 12 then case12 s
  else if s.IR = 13 then case13 s
  else if s.IR = 14 then case14 s
  else if s.IR = 15 then case15 s
  else if s.IR = 16 then case16 s
  else if s.IR = 17 then case17 s
  else if s.IR = 18 then case18 s
  else if s.IR = 19 then case19 s
  else if s.IR = 20 then case20 s
  else if s.IR = 21 then case21 s
  else if s.IR = 22 then case22 s
  else if s.IR = 23 then case23 s
  else if s.IR = 24 then case24 s
  else if s.IR = 25 then case25 s
  else if s.IR = 26 then case26 s
  else if s.IR = 27 then case27 s
  else if s.IR = 28 then case28 s
  else if s.IR = 29 then case29 s
  else if s.IR = 30 then case30 s
  else Outcome.fault Fault.noCase s

/-- The instruction fetch of lines 137-143, ending with `IR` assigned. -/
def fetch (s : State) : Outcome :=
  checkedRead s s.PC fun v s => Outcome.ok { s with IR := v }

/-- Fetch followed by the instruction body: the state "the instruction left",
before the timer tail runs.  Only meaningful for `IR ≠ 50`. -/
def fetchExecute (r : Nat) (s : State) : Outcome :=
  (fetch s).andThen (execute r)

/-- One iteration of the `while` body, lines 137-767: fetch, then case 50
(line 762, no timer tail), or an instruction body followed by the timer tail.
For case 50 the result records that the exit call was made, with both its
cells on the log; whether the CPU process survives the second `write` of that
call is the subject of `cpuProcessEnd`. -/
def step (interrupt : Int) (r : Nat) (s : State) : Outcome :=
  (fetch s).andThen fun s =>
    if s.IR = 50 then Outcome.ok (pipeReadStatusAndPTR s 0 exitStatus)
    else (execute r s).andThen (timerCheck interrupt)

/-- The state of line 117-125 before the loop is entered; `AC X Y IR` are
uninitialised locals, so they are arbitrary. -/
def initialState (IR AC X Y : Int) (memoryArray : Int → Int) : State :=
  { PC := 0, SP := getMaxUserProgramEntry + 1, IR := IR, AC := AC, X := X, Y := Y,
    kernelMode := false, timer := 0, memoryArray := memoryArray,
    cpuToMemory := [], stdout := [] }

/-- The first `n` iterations of `while (IR != 50)`, line 132, started in `s`;
`rand i` is what `rand()` returns in iteration `i`.  Once `IR = 50` or a fault
has occurred nothing more happens. -/
def cpuLoop (interrupt : Int) (rand : Nat → Nat) : Nat → State → Outcome
  | 0, s => Outcome.ok s
  | n + 1, s =>
    (cpuLoop interrupt rand n s).andThen fun s1 =>
      if s1.IR = 50 then Outcome.ok s1 else step interrupt (rand n) s1

/-- Source: `cpuProcess`, lines 114-769, cut off after `n` loop iterations. -/
def cpuProcess (interrupt : Int) (rand : Nat → Nat) (n : Nat)
    (IR AC X Y : Int) (memoryArray : Int → Int) : Outcome :=
  cpuLoop interrupt rand n (initialState IR AC X Y memoryArray)

/-- Whether a piece of code ran through. -/
def Outcome.isOk : Outcome → Bool
  | Outcome.ok _ => true
  | Outcome.fault _ _ => false

/-- The timer tail takes its interrupt branch when started in `s`, the state
the instruction body left: the incremented timer passes `validateTimerInterrupt`. -/
def timerFires (interrupt : Int) (s : State) : Bool :=
  validateTimerInterrupt interrupt (wrap32 (s.timer + 1)) s.kernelMode == some true

/-- The state right after a successful fetch at `s.PC` (lines 138-139): the READ
is on the log and `IR` holds the addressed cell. -/
def fetched (s : State) : State :=
  { pipeReadStatusAndPTR s s.PC getReadStatus with IR := s.memoryArray s.PC }

/-- Every READ or WRITE command of the list carries an address that passes
`validateAddressAccess` under the mode in force when it was emitted. -/
def allChecked (l : List Event) : Bool :=
  l.all fun e => !e.isAccess || validateAddressAccess e.ptr e.kernel

/-- The outcome `o` of running some code from `s` has extended the pipe log of `s`
by mode-checked commands only, and is not an out-of-bounds stop of the memory
process. -/
def Emits (s : State) (o : Outcome) : Prop :=
  (∃ new, o.state.cpuToMemory = s.cpuToMemory ++ new ∧ allChecked new = true) ∧
  ∀ s1, o ≠ Outcome.fault Fault.outOfBounds s1

/-! ## The memory process's command loop (lines 80-105) -/

/-- How the command loop of the memory process ends on a finite stream of cells. -/
inductive ServerEnd where
  /-- The loop condition `currentStatus != exitStatus` became false. -/
  | exited
  /-- The stream ran out while the loop was waiting in `readFromCPU`. -/
  | starved
  /-- `memoryArray` was indexed outside `0..1999`. -/
  | outOfBounds
  deriving DecidableEq

/-- What the command loop leaves behind: the store, the cells written on the
memory-to-CPU pipe in order, and how the loop ended. -/
structure ServerResult where
  memoryArray : Int → Int
  memoryToCPU : List Int
  ending : ServerEnd

/-- Source: `memoryProcess`, lines 80-105, the loop started on the store the
loader produced and fed the cells of the CPU-to-memory pipe.  Each
`readFromCPU` takes the next cell.  The two `if`s of lines 93 and 99 and the
loop test of line 89 compare `currentStatus` with three different constants, so
at most one of them applies; a cell that is none of the three is dropped and the
loop reads the next one. -/
def memoryProcess (memoryArray : Int → Int) : List Int → ServerResult
  | [] => { memoryArray := memoryArray, memoryToCPU := [], ending := ServerEnd.starved }
  | currentStatus :: rest =>
    if currentStatus = getReadStatus then
      match rest with
      | [] => { memoryArray := memoryArray, memoryToCPU := [], ending := ServerEnd.starved }
      | ptr :: rest1 =>
        match writeToCPU memoryArray ptr with
        | none =>
          { memoryArray := memoryArray, memoryToCPU := [], ending := ServerEnd.outOfBounds }
        | some v =>
          let res := memoryProcess memoryArray rest1
          { res with memoryToCPU := v :: res.memoryToCPU }
    else if currentStatus = getWriteStatus then
      match rest with
      | ptr :: tempValue :: rest2 =>
        match storeCell memoryArray ptr tempValue with
        | none =>
          { memoryArray := memoryArray, memoryToCPU := [], ending := ServerEnd.outOfBounds }
        | some m => memoryProcess m rest2
      | _ => { memoryArray := memoryArray, memoryToCPU := [], ending := ServerEnd.starved }
    else if currentStatus = exitStatus then
      { memoryArray := memoryArray, memoryToCPU := [], ending := ServerEnd.exited }
    else memoryProcess memoryArray rest

/-! ## Reference semantics of the memory server, in the words of the specification -/

/-- A command of the channel protocol (specification, section 4.1). -/
inductive Command where
  | read (address : Int)
  | write (address value : Int)
  | exit
  deriving DecidableEq

/-- The cells of one command, opcode first: READ one further cell, WRITE two,
EXIT none (specification, section 4.4). -/
def Command.encode : Command → List Int
  | Command.read a => [getReadStatus, a]
  | Command.write a v => [getWriteStatus, a, v]
  | Command.exit => [exitStatus]

/-- The address of the command lies in the store, `0..1999`. -/
def Command.inRange : Command → Bool
  | Command.read a => decide (0 ≤ a) && decide (a < 2000)
  | Command.write a _ => decide (0 ≤ a) && decide (a < 2000)
  | Command.exit => true

/-- The cell stream of a command stream. -/
def encodeAll : List Command → List Int
  | [] => []
  | c :: cs => c.encode ++ encodeAll cs

/-- Reference for C19, in the claim's words: replaying the commands against the
store.  A READ yields one reply, the current cell, and changes no cell; a WRITE
`a v` changes cell `a` to `v` and no other cell and yields no reply; processing
stops at the first EXIT.  The result is the reply stream and the final store. -/
def replaySpec (store : Int → Int) : List Command → List Int × (Int → Int)
  | [] => ([], store)
  | Command.read a :: cs => (store a :: (replaySpec store cs).1, (replaySpec store cs).2)
  | Command.write a v :: cs => replaySpec (fun x => if x = a then v else store x) cs
  | Command.exit :: _ => ([], store)

/-- Reference for C19: the value most recently written to address `a` by the
commands of the list, if any. -/
def lastWrite (a : Int) : List Command → Option Int
  | [] => none
  | Command.write b v :: cs =>
    match lastWrite a cs with
    | some w => some w
    | none => if b = a then some v else none
  | _ :: cs => lastWrite a cs

/-- Reference for C19: the number of READ commands of the list. -/
def countReads : List Command → Nat
  | [] => 0
  | Command.read _ :: cs => countReads cs + 1
  | _ :: cs => countReads cs

/-! ## Observations on the pipe log -/

/-- The cells on the CPU-to-memory pipe, in the order the logged calls wrote
them. -/
def cellTrace : List Event → List Int
  | [] => []
  | e :: l => e.cells ++ cellTrace l

/-- The outcome `o` of running some code from `s` has extended the pipe log of
`s` by READ and WRITE commands only. -/
def OnlyAccess (s : State) (o : Outcome) : Prop :=
  ∃ new, o.state.cpuToMemory = s.cpuToMemory ++ new ∧ ∀ e ∈ new, e.isAccess = true

/-! ## The end of the CPU process (lines 53-62, 115, 762, 931-937)

Case 50 makes its exit call through `pipeReadStatusAndPTR`, which writes two
cells: the word 99 (line 932) and then the pointer 0 (line 935).  The memory
process leaves its loop on the word 99 and exits (lines 89, 53-54), and the CPU
closed its own read end of that pipe (line 115).  If the memory process has
exited when the second `write` is made, the pipe has no reader left and the
write raises SIGPIPE, which kills the CPU process.  Which of the two happens
first is decided by the scheduler, not by the program. -/

/-- What the second `write` of the exit call (line 935) meets. -/
inductive ExitWrite where
  /-- The memory process still held its end of the pipe: the cell is written,
  and never read. -/
  | delivered
  /-- The memory process had exited: the write raises SIGPIPE. -/
  | sigpipe
  deriving DecidableEq

/-- How the CPU process ends once the exit call of case 50 is made. -/
inductive ProcessEnd where
  /-- The loop ends, `cpuProcess` returns, `main` waits for the child and
  returns 0 (lines 58-62); the exit writes out what `printf` has buffered. -/
  | returned (output : List Nat)
  /-- Killed by SIGPIPE inside the exit call; what `printf` still held in its
  buffer is lost. -/
  | killed (output : List Nat)
  deriving DecidableEq

/-- The end of the CPU process whose exit call was made in state `s`, and the
bytes that reach standard output; `flushed` is the number of bytes of `printf`
output that had left the buffer before the exit call. -/
def cpuProcessEnd (exitWrite : ExitWrite) (flushed : Nat) (s : State) : ProcessEnd :=
  match exitWrite with
  | ExitWrite.delivered => ProcessEnd.returned s.stdout
  | ExitWrite.sigpipe => ProcessEnd.killed (s.stdout.take flushed)

/-! ## Startup: `atoi` and the argument handling of `main` (lines 20-48) -/

/-- The greatest C `int`. -/
def intMax : Int := 2147483647

/-- White space as the C library's `isspace` classifies it in the C locale:
space, tab, newline, vertical tab, form feed, carriage return. -/
def isspace (c : Char) : Bool :=
  c = ' ' || c = '\t' || c = '\n' || c = Char.ofNat 11 || c = Char.ofNat 12 || c = '\r'

/-- The digit loop of the C library's `atoi`: accumulate decimal digits up to
the first character that is not one. -/
def atoiDigits : List Char → Nat → Nat
  | [], acc => acc
  | c :: cs, acc => if c.isDigit then atoiDigits cs (acc * 10 + (c.toNat - 48)) else acc

/-- The sign and digits part of `atoi`: an optional sign, then the digit loop. -/
def atoiSigned : List Char → Int
  | '-' :: cs => -(atoiDigits cs 0 : Int)
  | '+' :: cs => (atoiDigits cs 0 : Int)
  | cs => (atoiDigits cs 0 : Int)

/-- The C library's `atoi`, called at lines 29 and 843, after the C standard:
skip leading white space, take an optional sign, then the longest run of
decimal digits; no digits gives 0.  `none` when the value is not representable
as an `int`, where the behaviour is undefined. -/
def atoi (s : List Char) : Option Int :=
  let v : Int := atoiSigned (s.dropWhile isspace)
  if intMin ≤ v ∧ v ≤ intMax then some v else none

/-- How `main` gets on up to the point where the two processes are started. -/
inductive Startup where
  /-- A call `errorExit(msg)`: the process exits with status 1 before any pipe
  exists. -/
  | errorExit (msg : String)
  /-- The period argument spells a value that does not fit an `int`. -/
  | undefined
  /-- Both pipes exist; the child runs `memoryProcess(.., fileName)` and the
  parent `cpuProcess(.., interrupt)`. -/
  | started (fileName : String) (interrupt : Int)
  deriving DecidableEq

/-- Source: `main`, lines 20-48.  `argv` is the argument vector, program name
included, so `argc` is its length; `fileExists` answers
`access(fileName, F_OK) == 0`; the two `pipe` calls are taken to succeed. -/
def main (argv : List String) (fileExists : String → Bool) : Startup :=
  let arguments : Option (String × Option Int) :=
    match argv with
    | [_, fileName, period] => some (fileName, atoi period.toList)
    | [_, fileName] => some (fileName, some 10000)
    | _ => none
  match arguments with
  | none => Startup.errorExit "wrong number of arguments"
  | some (_, none) => Startup.undefined
  | some (fileName, some interrupt) =>
    if fileExists fileName then Startup.started fileName interrupt
    else Startup.errorExit "wrong file name or no file"

/-! ## The image loader (lines 836-844, 964-983, 1007-1015)

The text of the image file is the list of its characters.  The file holds them
in UTF-8, so a character takes `Char.utf8Size` of the 255 bytes `fgets` stores
at most; a file that is not valid UTF-8 is outside the model. -/

/-- The number of bytes a text takes in the file: the text of a file is the list
of its characters, and the file holds them in UTF-8. -/
def byteLength : List Char → Nat
  | [] => 0
  | c :: cs => c.utf8Size + byteLength cs

/-- What one call of `fgets` does. -/
inductive FgetsResult where
  /-- End of file: `fgets` returns `NULL`. -/
  | eof
  /-- The text stored in `line`, and the rest of the file still unread. -/
  | stored (line rest : List Char)
  /-- The byte limit fell inside a multi-byte character, so that `line` ends
  with a part of it; the text as a list of characters cannot show this. -/
  | splitCharacter

/-- The characters `fgets` stores when it may still store `k` bytes: up to and
including the first newline, paired with what is left unread; `none` when the
limit falls inside a character. -/
def fgetsChars : Nat → List Char → Option (List Char × List Char)
  | _, [] => some ([], [])
  | k, c :: cs =>
    if k = 0 then some ([], c :: cs)
    else if k < c.utf8Size then none
    else if c = '\n' then some ([c], cs)
    else
      match fgetsChars (k - c.utf8Size) cs with
      | some (line, rest) => some (c :: line, rest)
      | none => none

/-- The C library's `fgets(line, size, file)` (line 973) on the unread rest of
the file: at end of file nothing is stored; else the text stored in `line`, at
most `size - 1` bytes ending after the first newline, and the rest still
unread. -/
def fgets (size : Nat) (file : List Char) : FgetsResult :=
  match file with
  | [] => FgetsResult.eof
  | _ :: _ =>
    match fgetsChars (size - 1) file with
    | some (line, rest) => FgetsResult.stored line rest
    | none => FgetsResult.splitCharacter

/-- Source: `preprocessLine`, lines 836-844, on the text `fgets` stored.  The
scan stops at the first space or newline, which is overwritten by the
terminator before `atoi` runs.  `none` when the text holds neither, so that the
scan runs past the end of the text, or when `atoi` is undefined. -/
def preprocessLine (line : List Char) : Option Int :=
  if line.any (fun c => c = ' ' || c = '\n') then
    atoi (line.takeWhile (fun c => c != ' ' && c != '\n'))
  else none

/-- How loading ends. -/
inductive LoadResult where
  /-- End of file was reached; the array holds the image. -/
  | loaded (memory : Int → Int)
  /-- A call `errorExit(msg)`. -/
  | errorExit (msg : String)
  /-- The assignment `memory[i] = value` of line 979 was executed with `i`
  outside the 2000-cell array. -/
  | outsideArray (i value : Int)
  /-- A call of `preprocessLine` whose result the line does not determine. -/
  | undefined
  /-- A call of `fgets` stopped inside a multi-byte character. -/
  | splitCharacter
  /-- The iteration bound of the model was reached. -/
  | outOfFuel

/-- The `while` loop of `processFileInput`, lines 973-982, for at most `fuel`
iterations: `file` is the unread rest of the file, `i` the load address. -/
def processFileInputLoop : Nat → List Char → (Int → Int) → Int → LoadResult
  | 0, _, _, _ => LoadResult.outOfFuel
  | fuel + 1, file, memory, i =>
    match fgets 256 file with
    | FgetsResult.eof => LoadResult.loaded memory
    | FgetsResult.splitCharacter => LoadResult.splitCharacter
    | FgetsResult.stored line file =>
      if line.head? = some '.' then
        match preprocessLine line.tail with
        | none => LoadResult.undefined
        | some v => processFileInputLoop fuel file memory v
      else if line.head? ≠ some '\n' ∧ line.head? ≠ some ' ' then
        match preprocessLine line with
        | none => LoadResult.undefined
        | some v =>
          if 0 ≤ i ∧ i < 2000 then
            processFileInputLoop fuel file (fun a => if a = i then v else memory a)
              (wrap32 (i + 1))
          else LoadResult.outsideArray i v
      else processFileInputLoop fuel file memory i

/-- Source: `processFileInput`, lines 964-983.  Every iteration consumes at
least one character, so one iteration more than the file has characters is
enough. -/
def processFileInput (file : List Char) (memory : Int → Int) : LoadResult :=
  processFileInputLoop (file.length + 1) file memory 0

/-- Source: `validateFile`, lines 1007-1015; `file` is the text of the file, or
`none` when `fopen` fails. -/
def validateFile (memoryArray : Int → Int) (file : Option (List Char)) : LoadResult :=
  match file with
  | some text => processFileInput text memoryArray
  | none => LoadResult.errorExit "File failed to open"

/-! ## Reference loader, in the words of the specification -/

/-- A program image given as lines: the text of the file, every line ended by a
newline. -/
def fileText : List (List Char) → List Char
  | [] => []
  | l :: ls => l ++ '\n' :: fileText ls

/-- The characters of a line up to its first white space. -/
def specToken (line : List Char) : List Char :=
  line.takeWhile fun c => !isspace c

/-- The number a nonempty string of decimal digits spells. -/
def specNat (ds : List Char) : Option Nat :=
  if ds ≠ [] ∧ ds.all Char.isDigit = true then
    some (ds.foldl (fun a c => a * 10 + (c.toNat - 48)) 0)
  else none

/-- The signed integer a token spells: an optional `-`, then decimal digits. -/
def specInteger : List Char → Option Int
  | '-' :: ds => Option.map (fun (n : Nat) => -(n : Int)) (specNat ds)
  | ds => Option.map (fun (n : Nat) => (n : Int)) (specNat ds)

/-- One line of the image format applied to a store and a cursor: a blank line
or one beginning with a space does nothing; `.K` sets the cursor to `K`; a line
beginning with a digit or `-` deposits the integer its first token spells at
the cursor and advances the cursor.  `none` for any other line, for a number
that is no `int`, and for a deposit with the cursor outside `0..1999`. -/
def loadSpecLine (st : (Int → Int) × Int) (line : List Char) : Option ((Int → Int) × Int) :=
  match line with
  | [] => some st
  | c :: rest =>
    if c = ' ' then some st
    else if c = '.' then
      match specInteger (specToken rest) with
      | some K => if intMin ≤ K ∧ K ≤ intMax then some (st.1, K) else none
      | none => none
    else if c.isDigit = true ∨ c = '-' then
      match specInteger (specToken line) with
      | some v =>
        if (intMin ≤ v ∧ v ≤ intMax) ∧ 0 ≤ st.2 ∧ st.2 ≤ 1999 then
          some (fun a => if a = st.2 then v else st.1 a, st.2 + 1)
        else none
      | none => none
    else none

/-- The lines of an image applied in order. -/
def loadSpecFrom : (Int → Int) × Int → List (List Char) → Option ((Int → Int) × Int)
  | st, [] => some st
  | st, l :: ls =>
    match loadSpecLine st l with
    | some st1 => loadSpecFrom st1 ls
    | none => none

/-- The reference loader: 2000 zero cells, cursor 0, then the lines in order. -/
def loadSpec (lines : List (List Char)) : Option (Int → Int) :=
  (loadSpecFrom (fun _ => 0, 0) lines).map Prod.fst

/-- An image whose first line is longer than `fgets` stores at once. -/
def longLineImage : List (List Char) :=
  ["5 ".toList ++ List.replicate 253 'x' ++ "9 tail".toList, "7".toList]

/-- An image whose first line has 134 characters in 265 bytes: a 5, two
spaces, and 131 times the two-byte letter e with acute accent. -/
def wideLineImage : List (List Char) :=
  ["5  ".toList ++ List.replicate 131 (Char.ofNat 233), "7".toList]

/-- An image exercising every kind of line. -/
def sampleImage : List (List Char) :=
  ["1    // load".toList, "42".toList, "".toList, " a comment".toList, ".1000".toList,
   "-30".toList, ".5".toList, "50".toList]

/-- User mode, a taken `JumpIfZero` (21, `AC = 0`) in the last user cell 999:
its operand cell is 1000. -/
def jumpEdgeState : State :=
  { PC := 999, SP := 1000, IR := 0, AC := 0, X := 0, Y := 0, kernelMode := false, timer := 0,
    memoryArray := fun a => if a = 999 then 21 else 0, cpuToMemory := [], stdout := [] }

/-- User mode, `Call` (23) in the last user cell 999 with `SP = 500`: the stack
slot 499 is writable, the operand cell is 1000. -/
def callEdgeState : State :=
  { PC := 999, SP := 500, IR := 0, AC := 0, X := 0, Y := 0, kernelMode := false, timer := 0,
    memoryArray := fun a => if a = 999 then 23 else 0, cpuToMemory := [], stdout := [] }

/-- Kernel mode, `SysReturn` (30) at cell 1000 with `SP = 1999`: the second
stack read is at 2000. -/
def sysReturnEdgeState : State :=
  { PC := 1000, SP := 1999, IR := 0, AC := 0, X := 0, Y := 0, kernelMode := true, timer := 0,
    memoryArray := fun a => if a = 1000 then 30 else 0, cpuToMemory := [], stdout := [] }

/-- The image `1, 42, 9, 1, 50` loaded at 0, all other cells zero. -/
def putImage : Int → Int := fun a =>
  if a = 0 then 1 else if a = 1 then 42 else if a = 2 then 9 else if a = 3 then 1
  else if a = 4 then 50 else 0

/-- The image whose only instruction is End (50) at cell 0. -/
def endImage : Int → Int := fun a => if a = 0 then 50 else 0

/-! ## Concrete states used to exercise the theorems -/

/-- User mode, `CopyToX` (14) at cell 0, four instructions retired so far. -/
def timerDemoState : State :=
  { PC := 0, SP := 1000, IR := 0, AC := 7, X := 0, Y := 0, kernelMode := false, timer := 4,
    memoryArray := fun a => if a = 0 then 14 else 0, cpuToMemory := [], stdout := [] }

/-- As `timerDemoState`, with the timer at the largest `int`. -/
def timerMaxState : State :=
  { PC := 0, SP := 1000, IR := 0, AC := 7, X := 0, Y := 0, kernelMode := false,
    timer := 2147483647,
    memoryArray := fun a => if a = 0 then 14 else 0, cpuToMemory := [], stdout := [] }

/-- A two-instruction image: `CopyToX` (14) at cells 0 and 1. -/
def copyImage : Int → Int := fun a => if a = 0 then 14 else if a = 1 then 14 else 0

/-- User mode, `SysCall` (29) at cell 3, nine instructions retired so far. -/
def sysCallState : State :=
  { PC := 3, SP := 1000, IR := 0, AC := 11, X := 12, Y := 13, kernelMode := false, timer := 9,
    memoryArray := fun a => if a = 3 then 29 else 0, cpuToMemory := [], stdout := [] }

/-- Kernel mode, `SysReturn` (30) at cell 1000, with a saved `SP = 7` at cell 1500
and a saved `PC = 9` at cell 1501, four instructions retired so far. -/
def sysReturnState : State :=
  { PC := 1000, SP := 1500, IR := 0, AC := 11, X := 12, Y := 13, kernelMode := true,
    timer := 4,
    memoryArray := fun a =>
      if a = 1000 then 30 else if a = 1500 then 7 else if a = 1501 then 9 else 0,
    cpuToMemory := [], stdout := [] }

/-- User mode, `LoadAddr` (2) at cell 0 with immediate 1000. -/
def userLoadState : State :=
  { PC := 0, SP := 1000, IR := 0, AC := 0, X := 0, Y := 0, kernelMode := false, timer := 0,
    memoryArray := fun a => if a = 0 then 2 else if a = 1 then 1000 else 0,
    cpuToMemory := [], stdout := [] }

/-- Kernel mode, `Store` (7) at cell 1000 with immediate 999. -/
def kernelStoreState : State :=
  { PC := 1000, SP := 1998, IR := 0, AC := 5, X := 0, Y := 0, kernelMode := true, timer := 0,
    memoryArray := fun a => if a = 1000 then 7 else if a = 1001 then 999 else 0,
    cpuToMemory := [], stdout := [] }

/-- User mode, `CopyToX` (14) at cell 0 and `SysReturn` (30) at the timer handler
entry 1000, four instructions retired so far. -/
def timerReturnState : State :=
  { PC := 0, SP := 1000, IR := 0, AC := 7, X := 0, Y := 0, kernelMode := false, timer := 4,
    memoryArray := fun a => if a = 0 then 14 else if a = 1000 then 30 else 0,
    cpuToMemory := [], stdout := [] }

/-- User mode, `SysCall` (29) at cell 3 and `SysReturn` (30) at the system-call
entry 1500, nine instructions retired so far. -/
def sysCallReturnState : State :=
  { PC := 3, SP := 1000, IR := 0, AC := 11, X := 12, Y := 13, kernelMode := false, timer := 9,
    memoryArray := fun a => if a = 3 then 29 else if a = 1500 then 30 else 0,
    cpuToMemory := [], stdout := [] }

/-- User mode, `Call 10` (23, 10) at cell 0 with the stack empty (`SP = 1000`), and
`Return` (24) at cell 10. -/
def callState : State :=
  { PC := 0, SP := 1000, IR := 0, AC := 0, X := 0, Y := 0, kernelMode := false, timer := 0,
    memoryArray := fun a => if a = 0 then 23 else if a = 1 then 10 else if a = 10 then 24 else 0,
    cpuToMemory := [], stdout := [] }

/-- User mode, `PushAC` (27) at cell 0 and `PopAC` (28) at cell 1, `AC = 7`. -/
def pushPopState : State :=
  { PC := 0, SP := 1000, IR := 0, AC := 7, X := 0, Y := 0, kernelMode := false, timer := 0,
    memoryArray := fun a => if a = 0 then 27 else if a = 1 then 28 else 0,
    cpuToMemory := [], stdout := [] }

/-- User mode, the sequence `LoadValue 42; Store 500; LoadAddr 500` at cells 0-5,
with `AC = 9` and cell 500 holding 8 beforehand. -/
def storeLoadState : State :=
  { PC := 0, SP := 1000, IR := 0, AC := 9, X := 0, Y := 0, kernelMode := false, timer := 0,
    memoryArray := fun a =>
      if a = 0 then 1 else if a = 1 then 42 else if a = 2 then 7 else if a = 3 then 500
      else if a = 4 then 2 else if a = 5 then 500 else if a = 500 then 8 else 0,
    cpuToMemory := [], stdout := [] }

theorem wrap32_of_int {x : Int} (h1 : -2147483648 ≤ x) (h2 : x < 2147483648) :
    wrap32 x = x := by
  unfold wrap32; omega

theorem validateAddressAccess_iff (ptr : Int) (kernelMode : Bool) :
    validateAddressAccess ptr kernelMode = true ↔
      ((kernelMode = false ∧ 0 ≤ ptr ∧ ptr ≤ 999) ∨
       (kernelMode = true ∧ 1000 ≤ ptr ∧ ptr ≤ 1999)) := by
  cases kernelMode <;> simp [validateAddressAccess]

theorem validateAddressAccess_bounds {ptr : Int} {kernelMode : Bool}
    (h : validateAddressAccess ptr kernelMode = true) : 0 ≤ ptr ∧ ptr < 2000 := by
  rcases (validateAddressAccess_iff ptr kernelMode).1 h with ⟨_, h1, h2⟩ | ⟨_, h1, h2⟩ <;>
    constructor <;> omega

/-- A guarded read either stops with a memory violation, leaving the state as it
was, or hands the addressed cell to the rest of the instruction. -/
theorem checkedRead_eq (s : State) (ptr : Int) (k : Int → State → Outcome) :
    checkedRead s ptr k =
      if validateAddressAccess ptr s.kernelMode = true then
        k (s.memoryArray ptr) (pipeReadStatusAndPTR s ptr getReadStatus)
      else Outcome.fault Fault.memoryViolation s := by
  unfold checkedRead
  split
  · next h =>
    have hb := validateAddressAccess_bounds h
    simp [readRequest, writeToCPU, pipeReadStatusAndPTR, hb.1, hb.2]
  · rfl

/-- A guarded write either stops with a memory violation, leaving the state as
it was, or updates exactly the addressed cell. -/
theorem checkedWrite_eq (s : State) (ptr value : Int) (k : State → Outcome) :
    checkedWrite s ptr value k =
      if validateAddressAccess ptr s.kernelMode = true then
        k { pipeAddressToStack s getWriteStatus ptr value with
            memoryArray := fun a => if a = ptr then value else s.memoryArray a }
      else Outcome.fault Fault.memoryViolation s := by
  unfold checkedWrite
  split
  · next h =>
    have hb := validateAddressAccess_bounds h
    simp [writeRequest, storeCell, pipeAddressToStack, hb.1, hb.2]
  · rfl

@[simp]
theorem showAC_cpuToMemory (s : State) (port AC : Int) :
    (showAC s port AC).cpuToMemory = s.cpuToMemory := by
  unfold showAC; split <;> split <;> rfl

@[simp]
theorem showAC_memoryArray (s : State) (port AC : Int) :
    (showAC s port AC).memoryArray = s.memoryArray := by
  unfold showAC; split <;> split <;> rfl

@[simp]
theorem showAC_SP (s : State) (port AC : Int) : (showAC s port AC).SP = s.SP := by
  unfold showAC; split <;> split <;> rfl

@[simp]
theorem showAC_AC (s : State) (port AC : Int) : (showAC s port AC).AC = s.AC := by
  unfold showAC; split <;> split <;> rfl

@[simp]
theorem showAC_X (s : State) (port AC : Int) : (showAC s port AC).X = s.X := by
  unfold showAC; split <;> split <;> rfl

@[simp]
theorem showAC_Y (s : State) (port AC : Int) : (showAC s port AC).Y = s.Y := by
  unfold showAC; split <;> split <;> rfl

@[simp]
theorem showAC_PC (s : State) (port AC : Int) : (showAC s port AC).PC = s.PC := by
  unfold showAC; split <;> split <;> rfl
@[simp]
theorem showAC_timer (s : State) (port AC : Int) : (showAC s port AC).timer = s.timer := by
  unfold showAC; split <;> split <;> rfl
@[simp]
theorem showAC_IR (s : State) (port AC : Int) : (showAC s port AC).IR = s.IR := by
  unfold showAC; split <;> split <;> rfl
@[simp]
theorem showAC_kernelMode (s : State) (port AC : Int) :
    (showAC s port AC).kernelMode = s.kernelMode := by
  unfold showAC; split <;> split <;> rfl

/-- Case analysis on the dispatch of `execute`. -/
theorem execute_cases (r : Nat) (s : State) (P : Outcome → Prop)
    (h1 : s.IR = 1 → P (case1 s)) (h2 : s.IR = 2 → P (case2 s))
    (h3 : s.IR = 3 → P (case3 s)) (h4 : s.IR = 4 → P (case4 s))
    (h5 : s.IR = 5 → P (case5 s)) (h6 : s.IR = 6 → P (case6 s))
    (h7 : s.IR = 7 → P (case7 s)) (h8 : s.IR = 8 → P (case8 r s))
    (h9 : s.IR = 9 → P (case9 s)) (h10 : s.IR = 10 → P (case10 s))
    (h11 : s.IR = 11 → P (case11 s)) (h12 : s.IR = 12 → P (case12 s))
    (h13 : s.IR = 13 → P (case13 s)) (h14 : s.IR = 14 → P (case14 s))
    (h15 : s.IR = 15 → P (case15 s)) (h16 : s.IR = 16 → P (case16 s))
    (h17 : s.IR = 17 → P (case17 s)) (h18 : s.IR = 18 → P (case18 s))
    (h19 : s.IR = 19 → P (case19 s)) (h20 : s.IR = 20 → P (case20 s))
    (h21 : s.IR = 21 → P (case21 s)) (h22 : s.IR = 22 → P (case22 s))
    (h23 : s.IR = 23 → P (case23 s)) (h24 : s.IR = 24 → P (case24 s))
    (h25 : s.IR = 25 → P (case25 s)) (h26 : s.IR = 26 → P (case26 s))
    (h27 : s.IR = 27 → P (case27 s)) (h28 : s.IR = 28 → P (case28 s))
    (h29 : s.IR = 29 → P (case29 s)) (h30 : s.IR = 30 → P (case30 s))
    (hd : (s.IR < 1 ∨ 30 < s.IR) → P (Outcome.fault Fault.noCase s)) :
    P (execute r s) := by
  unfold execute
  by_cases c1 : s.IR = 1; · rw [if_pos c1]; exact h1 c1
  rw [if_neg c1]
  by_cases c2 : s.IR = 2; · rw [if_pos c2]; exact h2 c2
  rw [if_neg c2]
  by_cases c3 : s.IR = 3; · rw [if_pos c3]; exact h3 c3
  rw [if_neg c3]
  by_cases c4 : s.IR = 4; · rw [if_pos c4]; exact h4 c4
  rw [if_neg c4]
  by_cases c5 : s.IR = 5; · rw [if_pos c5]; exact h5 c5
  rw [if_neg c5]
  by_cases c6 : s.IR = 6; · rw [if_pos c6]; exact h6 c6
  rw [if_neg c6]
  by_cases c7 : s.IR = 7; · rw [if_pos c7]; exact h7 c7
  rw [if_neg c7]
  by_cases c8 : s.IR = 8; · rw [if_pos c8]; exact h8 c8
  rw [if_neg c8]
  by_cases c9 : s.IR = 9; · rw [if_pos c9]; exact h9 c9
  rw [if_neg c9]
  by_cases c10 : s.IR = 10; · rw [if_pos c10]; exact h10 c10
  rw [if_neg c10]
  by_cases c11 : s.IR = 11; · rw [if_pos c11]; exact h11 c11
  rw [if_neg c11]
  by_cases c12 : s.IR = 12; · rw [if_pos c12]; exact h12 c12
  rw [if_neg c12]
  by_cases c13 : s.IR = 13; · rw [if_pos c13]; exact h13 c13
  rw [if_neg c13]
  by_cases c14 : s.IR = 14; · rw [if_pos c14]; exact h14 c14
  rw [if_neg c14]
  by_cases c15 : s.IR = 15; · rw [if_pos c15]; exact h15 c15
  rw [if_neg c15]
  by_cases c16 : s.IR = 16; · rw [if_pos c16]; exact h16 c16
  rw [if_neg c16]
  by_cases c17 : s.IR = 17; · rw [if_pos c17]; exact h17 c17
  rw [if_neg c17]
  by_cases c18 : s.IR = 18; · rw [if_pos c18]; exact h18 c18
  rw [if_neg c18]
  by_cases c19 : s.IR = 19; · rw [if_pos c19]; exact h19 c19
  rw [if_neg c19]
  by_cases c20 : s.IR = 20; · rw [if_pos c20]; exact h20 c20
  rw [if_neg c20]
  by_cases c21 : s.IR = 21; · rw [if_pos c21]; exact h21 c21
  rw [if_neg c21]
  by_cases c22 : s.IR = 22; · rw [if_pos c22]; exact h22 c22
  rw [if_neg c22]
  by_cases c23 : s.IR = 23; · rw [if_pos c23]; exact h23 c23
  rw [if_neg c23]
  by_cases c24 : s.IR = 24; · rw [if_pos c24]; exact h24 c24
  rw [if_neg c24]
  by_cases c25 : s.IR = 25; · rw [if_pos c25]; exact h25 c25
  rw [if_neg c25]
  by_cases c26 : s.IR = 26; · rw [if_pos c26]; exact h26 c26
  rw [if_neg c26]
  by_cases c27 : s.IR = 27; · rw [if_pos c27]; exact h27 c27
  rw [if_neg c27]
  by_cases c28 : s.IR = 28; · rw [if_pos c28]; exact h28 c28
  rw [if_neg c28]
  by_cases c29 : s.IR = 29; · rw [if_pos c29]; exact h29 c29
  rw [if_neg c29]
  by_cases c30 : s.IR = 30; · rw [if_pos c30]; exact h30 c30
  rw [if_neg c30]
  exact hd (by omega)

theorem wrap32_top : wrap32 1998 = 1998 := by decide

/-- What the instruction bodies never touch, and what they do to the mode. -/
theorem execute_frame (r : Nat) (s s1 : State) (h : execute r s = Outcome.ok s1) :
    s1.timer = s.timer ∧ s1.IR = s.IR ∧ (1 ≤ s.IR ∧ s.IR ≤ 30) ∧
    (s.IR ≠ 29 → s.IR ≠ 30 → s1.kernelMode = s.kernelMode) ∧
    (s.IR = 29 → s1.kernelMode = true) ∧ (s.IR = 30 → s1.kernelMode = false) := by
  revert h
  apply execute_cases r s (fun o => o = Outcome.ok s1 →
    s1.timer = s.timer ∧ s1.IR = s.IR ∧ (1 ≤ s.IR ∧ s.IR ≤ 30) ∧
    (s.IR ≠ 29 → s.IR ≠ 30 → s1.kernelMode = s.kernelMode) ∧
    (s.IR = 29 → s1.kernelMode = true) ∧ (s.IR = 30 → s1.kernelMode = false))
  all_goals intro hIR h
  all_goals try simp only [case1, case2, case3, case4, case5, case6, case7, case8, case9, case10,
    case11, case12, case13, case14, case15, case16, case17, case18, case19, case20,
    case21, case22, case23, case24, case25, case26, case27, case28, case29, case30,
    checkedRead_eq, checkedWrite_eq, pipeReadStatusAndPTR, pipeAddressToStack] at h
  all_goals repeat' split at h
  all_goals first
    | (injection h with h; subst h; simp [hIR])
    | (exact absurd h (by simp))

/-- Instruction bodies put only mode-checked commands on the pipe. -/
theorem execute_emits (r : Nat) (s : State) : Emits s (execute r s) := by
  apply execute_cases r s (fun o => Emits s o)
  all_goals intro hIR
  all_goals try simp only [case1, case2, case3, case4, case5, case6, case7, case8, case9, case10,
    case11, case12, case13, case14, case15, case16, case17, case18, case19, case20,
    case21, case22, case23, case24, case25, case26, case27, case28, case29, case30,
    checkedRead_eq, checkedWrite_eq, pipeReadStatusAndPTR, pipeAddressToStack]
  all_goals repeat' split
  all_goals simp only [Emits, Outcome.state, List.append_assoc, showAC_cpuToMemory]
  all_goals first
    | (refine ⟨⟨[], ?_, rfl⟩, ?_⟩
       · simp
       · intro s1 h; cases h)
    | (refine ⟨⟨_, rfl, ?_⟩, ?_⟩
       · simp_all [allChecked, Event.isAccess, Event.ptr, Event.kernel]
       · intro s1 h; cases h)

theorem Emits_refl (s : State) : Emits s (Outcome.ok s) :=
  ⟨⟨[], by simp [Outcome.state], rfl⟩, fun s1 h => by cases h⟩

theorem allChecked_append (l1 l2 : List Event) :
    allChecked (l1 ++ l2) = (allChecked l1 && allChecked l2) := by
  simp [allChecked, List.all_append]

/-- Emission is transitive along sequencing. -/
theorem Emits_andThen (s : State) (o : Outcome) (f : State → Outcome)
    (ho : Emits s o) (hf : ∀ s1, o = Outcome.ok s1 → Emits s1 (f s1)) :
    Emits s (o.andThen f) := by
  cases o with
  | fault e s1 => exact ho
  | ok s1 =>
    obtain ⟨⟨l1, h1, c1⟩, _⟩ := ho
    obtain ⟨⟨l2, h2, c2⟩, n2⟩ := hf s1 rfl
    simp only [Outcome.state] at h1
    refine ⟨⟨l1 ++ l2, ?_, ?_⟩, n2⟩
    · show (f s1).state.cpuToMemory = _
      rw [h2, h1, List.append_assoc]
    · rw [allChecked_append, c1, c2]; rfl

theorem timerCheck_of_fires (N : Int) (s : State) (h : timerFires N s = true) :
    timerCheck N s = Outcome.ok
      { s with timer := wrap32 (s.timer + 1), kernelMode := true, PC := 1000, SP := 1998,
               memoryArray := fun a => if a = 1998 then s.SP else if a = 1999 then s.PC
                                        else s.memoryArray a,
               cpuToMemory := s.cpuToMemory ++
                 [Event.statusPtrValue getWriteStatus 1999 s.PC true,
                  Event.statusPtrValue getWriteStatus 1998 s.SP true] } := by
  simp only [timerFires, beq_iff_eq] at h
  simp [timerCheck, h, timerInterrupt, writeRequest, storeCell, pipeAddressToStack,
    getMaxSystemCodeEntry, wrap32_top]

theorem timerCheck_of_not_fires (N : Int) (s : State)
    (h : validateTimerInterrupt N (wrap32 (s.timer + 1)) s.kernelMode = some false) :
    timerCheck N s = Outcome.ok { s with timer := wrap32 (s.timer + 1) } := by
  simp [timerCheck, h]

theorem timerCheck_of_undefined (N : Int) (s : State)
    (h : validateTimerInterrupt N (wrap32 (s.timer + 1)) s.kernelMode = none) :
    timerCheck N s =
      Outcome.fault Fault.divideFault { s with timer := wrap32 (s.timer + 1) } := by
  simp [timerCheck, h]

/-- The three ways the timer tail can go. -/
theorem timerCheck_cases (N : Int) (s : State) :
    (timerFires N s = true ∧ timerCheck N s = Outcome.ok
      { s with timer := wrap32 (s.timer + 1), kernelMode := true, PC := 1000, SP := 1998,
               memoryArray := fun a => if a = 1998 then s.SP else if a = 1999 then s.PC
                                        else s.memoryArray a,
               cpuToMemory := s.cpuToMemory ++
                 [Event.statusPtrValue getWriteStatus 1999 s.PC true,
                  Event.statusPtrValue getWriteStatus 1998 s.SP true] }) ∨
    (timerFires N s = false ∧
      timerCheck N s = Outcome.ok { s with timer := wrap32 (s.timer + 1) }) ∨
    (timerFires N s = false ∧
      timerCheck N s =
        Outcome.fault Fault.divideFault { s with timer := wrap32 (s.timer + 1) }) := by
  rcases hv : validateTimerInterrupt N (wrap32 (s.timer + 1)) s.kernelMode with _ | b
  · right; right
    exact ⟨by simp [timerFires, hv], timerCheck_of_undefined N s hv⟩
  · cases b
    · right; left
      exact ⟨by simp [timerFires, hv], timerCheck_of_not_fires N s hv⟩
    · left
      have hf : timerFires N s = true := by simp [timerFires, hv]
      exact ⟨hf, timerCheck_of_fires N s hf⟩

theorem timerCheck_emits (N : Int) (s : State) : Emits s (timerCheck N s) := by
  rcases timerCheck_cases N s with ⟨_, h⟩ | ⟨_, h⟩ | ⟨_, h⟩ <;> rw [h]
  · refine ⟨⟨_, rfl, ?_⟩, fun s1 h => by cases h⟩
    simp [allChecked, Event.ptr, Event.kernel, validateAddressAccess]
  · exact ⟨⟨[], by simp [Outcome.state], rfl⟩, fun s1 h => by cases h⟩
  · exact ⟨⟨[], by simp [Outcome.state], rfl⟩, fun s1 h => by cases h⟩

theorem validateTimerInterrupt_pos {N : Int} (hN : 1 ≤ N) (t : Int) (k : Bool) :
    validateTimerInterrupt N t k = some (decide (N ∣ t) && !k) := by
  have h0 : ¬ (N = 0 ∨ (t = intMin ∧ N = -1)) := by omega
  unfold validateTimerInterrupt
  rw [if_neg h0]
  by_cases hd : N ∣ t
  · have := Int.tmod_eq_zero_of_dvd hd
    cases k <;> simp [this, hd]
  · have : Int.tmod t N ≠ 0 := fun h => hd (Int.dvd_of_tmod_eq_zero h)
    cases k <;> simp [this, hd]

/-- The fetch of lines 137-143. -/
theorem fetch_eq (s : State) :
    fetch s =
      if validateAddressAccess s.PC s.kernelMode = true then Outcome.ok (fetched s)
      else Outcome.fault Fault.memoryViolation s := by
  simp [fetch, checkedRead_eq, fetched]

theorem fetch_emits (s : State) : Emits s (fetch s) := by
  rw [fetch_eq]
  split
  · next h =>
    refine ⟨⟨_, rfl, ?_⟩, fun s1 h => by cases h⟩
    simp [allChecked, Event.ptr, Event.kernel, h]
  · exact ⟨⟨[], by simp [Outcome.state], rfl⟩, fun s1 h => by cases h⟩

theorem step_of_fetch_fails (N : Int) (r : Nat) (s : State)
    (h : validateAddressAccess s.PC s.kernelMode = false) :
    step N r s = Outcome.fault Fault.memoryViolation s := by
  simp [step, fetch_eq, h, Outcome.andThen]

theorem step_of_fetch (N : Int) (r : Nat) (s : State)
    (h : validateAddressAccess s.PC s.kernelMode = true) :
    step N r s =
      if s.memoryArray s.PC = 50 then
        Outcome.ok (pipeReadStatusAndPTR (fetched s) 0 exitStatus)
      else (execute r (fetched s)).andThen (timerCheck N) := by
  simp [step, fetch_eq, h, Outcome.andThen, fetched]

theorem fetchExecute_of_fetch (r : Nat) (s : State)
    (h : validateAddressAccess s.PC s.kernelMode = true) :
    fetchExecute r s = execute r (fetched s) := by
  simp [fetchExecute, fetch_eq, h, Outcome.andThen]

theorem fetchExecute_ok (r : Nat) (s s1 : State) (h : fetchExecute r s = Outcome.ok s1) :
    validateAddressAccess s.PC s.kernelMode = true ∧ execute r (fetched s) = Outcome.ok s1 ∧
    1 ≤ s.memoryArray s.PC ∧ s.memoryArray s.PC ≤ 30 := by
  cases hv : validateAddressAccess s.PC s.kernelMode
  · simp [fetchExecute, fetch_eq, hv, Outcome.andThen] at h
  · rw [fetchExecute_of_fetch r s hv] at h
    have := (execute_frame r _ _ h).2.2.1
    exact ⟨rfl, h, this⟩

/-- For an instruction that runs through, the step is the timer tail applied to
the state the instruction left. -/
theorem step_eq_timerCheck (N : Int) (r : Nat) (s s1 : State)
    (h : fetchExecute r s = Outcome.ok s1) : step N r s = timerCheck N s1 := by
  obtain ⟨hv, he, h1, h30⟩ := fetchExecute_ok r s s1 h
  have h50 : s.memoryArray s.PC ≠ 50 := by omega
  rw [step_of_fetch N r s hv, if_neg h50, he]
  rfl

/-- The shape of every step that runs through. -/
theorem step_ok (N : Int) (r : Nat) (s s2 : State) (h : step N r s = Outcome.ok s2) :
    validateAddressAccess s.PC s.kernelMode = true ∧
    ((s.memoryArray s.PC = 50 ∧ s2 = pipeReadStatusAndPTR (fetched s) 0 exitStatus) ∨
     (s.memoryArray s.PC ≠ 50 ∧
        ∃ s1, fetchExecute r s = Outcome.ok s1 ∧ timerCheck N s1 = Outcome.ok s2)) := by
  cases hv : validateAddressAccess s.PC s.kernelMode
  · rw [step_of_fetch_fails N r s hv] at h; cases h
  · refine ⟨rfl, ?_⟩
    rw [step_of_fetch N r s hv] at h
    by_cases h50 : s.memoryArray s.PC = 50
    · rw [if_pos h50] at h
      injection h with h
      exact Or.inl ⟨h50, h.symm⟩
    · rw [if_neg h50] at h
      refine Or.inr ⟨h50, ?_⟩
      cases he : execute r (fetched s) with
      | fault e s1 => rw [he] at h; cases h
      | ok s1 =>
        rw [he] at h
        exact ⟨s1, by rw [fetchExecute_of_fetch r s hv, he], h⟩

theorem step_emits (N : Int) (r : Nat) (s : State) : Emits s (step N r s) := by
  unfold step
  apply Emits_andThen _ _ _ (fetch_emits s)
  intro s1 _
  split
  · refine ⟨⟨_, rfl, ?_⟩, fun s1 h => by cases h⟩
    simp [allChecked, Event.isAccess, Event.status, exitStatus, getReadStatus, getWriteStatus]
  · exact Emits_andThen _ _ _ (execute_emits r s1) (fun s2 _ => timerCheck_emits N s2)

theorem wrap32_succ_of_valid {p : Int} {k : Bool} (h : validateAddressAccess p k = true) :
    wrap32 (p + 1) = p + 1 := by
  have := validateAddressAccess_bounds h
  exact wrap32_of_int (by omega) (by omega)

theorem cpuLoop_emits (N : Int) (rand : Nat → Nat) (n : Nat) (s : State) :
    Emits s (cpuLoop N rand n s) := by
  induction n with
  | zero => exact Emits_refl s
  | succ n ih =>
    show Emits s ((cpuLoop N rand n s).andThen _)
    refine Emits_andThen _ _ _ ih (fun s1 _ => ?_)
    show Emits s1 (if s1.IR = 50 then _ else _)
    split
    · exact Emits_refl s1
    · exact step_emits N (rand n) s1

theorem timerCheck_ok_timer (N : Int) (s1 s2 : State) (h : timerCheck N s1 = Outcome.ok s2) :
    s2.timer = wrap32 (s1.timer + 1) ∧ s2.IR = s1.IR := by
  rcases timerCheck_cases N s1 with ⟨_, ht⟩ | ⟨_, ht⟩ | ⟨_, ht⟩ <;> rw [ht] at h
  · injection h with h; subst h; exact ⟨rfl, rfl⟩
  · injection h with h; subst h; exact ⟨rfl, rfl⟩
  · cases h

theorem fetchExecute_frame (r : Nat) (s s1 : State) (h : fetchExecute r s = Outcome.ok s1) :
    s1.timer = s.timer ∧ s1.IR = s.memoryArray s.PC := by
  obtain ⟨_, he, _, _⟩ := fetchExecute_ok r s s1 h
  obtain ⟨ht, hi, _⟩ := execute_frame r _ _ he
  exact ⟨ht, hi⟩

/-- While the loop is still running after `n` iterations, the timer has counted
exactly `n` retired instructions (as long as that fits an `int`). -/
theorem cpuLoop_timer (N : Int) (rand : Nat → Nat) (s0 : State) (n : Nat) :
    ∀ s, cpuLoop N rand n s0 = Outcome.ok s → s.IR ≠ 50 → 0 ≤ s0.timer →
      s0.timer + n < 2147483648 → s.timer = s0.timer + n := by
  induction n with
  | zero =>
    intro s h _ _ _
    injection h with h
    subst h
    simp
  | succ n ih =>
    intro s h hgo h0 hn
    have hstep : (cpuLoop N rand n s0).andThen
        (fun s1 => if s1.IR = 50 then Outcome.ok s1 else step N (rand n) s1) = Outcome.ok s := h
    cases hc : cpuLoop N rand n s0 with
    | fault e s1 => rw [hc] at hstep; cases hstep
    | ok s1 =>
      rw [hc] at hstep
      simp only [Outcome.andThen] at hstep
      by_cases h50 : s1.IR = 50
      · rw [if_pos h50] at hstep
        injection hstep with hstep
        subst hstep
        exact absurd h50 hgo
      · rw [if_neg h50] at hstep
        have ih1 := ih s1 hc h50 h0 (by push_cast at hn; omega)
        obtain ⟨_, ⟨hop, hs⟩ | ⟨_, s1', hfe, htc⟩⟩ := step_ok N (rand n) s1 s hstep
        · subst hs
          exact absurd hop hgo
        · obtain ⟨ht, _⟩ := timerCheck_ok_timer N s1' s htc
          obtain ⟨ht', _⟩ := fetchExecute_frame _ _ _ hfe
          rw [ht, ht', ih1]
          push_cast at hn ⊢
          rw [wrap32_of_int (by omega) (by omega)]
          omega

theorem timerFires_iff {N : Int} (hN : 1 ≤ N) (s : State) :
    timerFires N s = true ↔ N ∣ wrap32 (s.timer + 1) ∧ s.kernelMode = false := by
  unfold timerFires
  rw [validateTimerInterrupt_pos hN]
  cases s.kernelMode <;> simp

/-! ## C1 -/

/-- C1: `validateAddressAccess ptr mode` is true exactly when the mode is USER
and `0 ≤ ptr ≤ 999`, or the mode is KERNEL and `1000 ≤ ptr ≤ 1999`; it is false
for `(1000, USER)`, for `(999, KERNEL)`, for every negative `ptr` and for every
`ptr ≥ 2000`. -/
theorem C1_validateAddressAccess_partition (ptr : Int) (kernelMode : Bool) :
    (validateAddressAccess ptr kernelMode = true ↔
      ((kernelMode = false ∧ 0 ≤ ptr ∧ ptr ≤ 999) ∨
       (kernelMode = true ∧ 1000 ≤ ptr ∧ ptr ≤ 1999))) ∧
    validateAddressAccess 1000 false = false ∧
    validateAddressAccess 999 true = false ∧
    (ptr < 0 → validateAddressAccess ptr kernelMode = false) ∧
    (2000 ≤ ptr → validateAddressAccess ptr kernelMode = false) := by
  refine ⟨validateAddressAccess_iff ptr kernelMode, by decide, by decide, ?_, ?_⟩
  · intro h
    cases kernelMode <;> simp [validateAddressAccess] <;> omega
  · intro h
    cases kernelMode <;> simp [validateAddressAccess] <;> omega

/-! ## C2 -/

/-- C2: in every run of the CPU loop from the initial state, for every memory
image and every period `N` (in particular every `N ≥ 1`), after any number `n`
of loop iterations every READ or WRITE command on the CPU-to-memory pipe carries
an address that passes `validateAddressAccess` for the mode in force when it was
emitted, hence lies in `0..1999`; and the run never stops because the memory
process indexed its array out of bounds. -/
theorem C2_emitted_addresses_valid (N : Int) (rand : Nat → Nat) (n : Nat)
    (IR AC X Y : Int) (memoryArray : Int → Int) :
    (∀ e ∈ (cpuProcess N rand n IR AC X Y memoryArray).state.cpuToMemory,
        e.isAccess = true →
          validateAddressAccess e.ptr e.kernel = true ∧ 0 ≤ e.ptr ∧ e.ptr ≤ 1999) ∧
    ∀ s, cpuProcess N rand n IR AC X Y memoryArray ≠ Outcome.fault Fault.outOfBounds s := by
  obtain ⟨⟨new, hnew, hall⟩, hoob⟩ :=
    cpuLoop_emits N rand n (initialState IR AC X Y memoryArray)
  refine ⟨?_, hoob⟩
  intro e he hacc
  have he' : e ∈ new := by
    unfold cpuProcess at he
    rw [hnew] at he
    simpa [initialState] using he
  have hv : validateAddressAccess e.ptr e.kernel = true := by
    have := (List.all_eq_true.1 hall) e he'
    simpa [hacc] using this
  have hb := validateAddressAccess_bounds hv
  exact ⟨hv, hb.1, by omega⟩

/-! ## C3 -/

/-- C3: a failed mode check is fatal and emits nothing.  (1, 2) The guard in
front of every load and store stops with "Memory violation" in the unchanged
state, whatever the rest of the instruction is.  (3) A failing fetch address
stops the step at once.  (4) For the opcodes that read their immediate (1, 2,
3, 4, 5, 7, 9, 20, the taken JumpIfZero 21 and the taken JumpIfNotZero 22) a
failing operand address stops the step with only the fetch on the pipe.  (5)
For LoadAddr (2), LoadInd (3), LoadIdxX (4), LoadIdxY (5) and Store (7) a
failing target address (such as immediate 1000 in user mode or 999 in kernel
mode) stops the step with only the two earlier reads on the pipe and memory
untouched.  (6) For LoadInd a failing indirect address stops the step after the
three earlier reads.  (7) For LoadSpX (6), Call (23), Return (24), PushAC (27),
PopAC (28) and SysReturn (30) a failing stack address stops the step with only
the fetch on the pipe.  (8) For Call a failing operand address stops the step
after the fetch and the stack write, with no cell other than the stack slot
changed.  (9) For SysReturn a failing second stack address stops the step after
the fetch and the first stack read.  (10) The two save addresses of SysCall and
of the timer interrupt pass the check in kernel mode.  (11) Whatever the outcome
of a step, every READ or WRITE it put on the pipe passed the check. -/
theorem C3_failed_check_is_fatal (N : Int) (r : Nat) (s : State) :
    (∀ ptr k, validateAddressAccess ptr s.kernelMode = false →
      checkedRead s ptr k = Outcome.fault Fault.memoryViolation s) ∧
    (∀ ptr value k, validateAddressAccess ptr s.kernelMode = false →
      checkedWrite s ptr value k = Outcome.fault Fault.memoryViolation s) ∧
    (validateAddressAccess s.PC s.kernelMode = false →
      step N r s = Outcome.fault Fault.memoryViolation s) ∧
    (validateAddressAccess s.PC s.kernelMode = true →
      s.memoryArray s.PC ∈ [1, 2, 3, 4, 5, 7, 9, 20] ∨
        (s.memoryArray s.PC = 21 ∧ s.AC = 0) ∨ (s.memoryArray s.PC = 22 ∧ s.AC ≠ 0) →
      validateAddressAccess (s.PC + 1) s.kernelMode = false →
      ∃ s1, step N r s = Outcome.fault Fault.memoryViolation s1 ∧
        s1.cpuToMemory = s.cpuToMemory ++ [Event.statusPtr getReadStatus s.PC s.kernelMode] ∧
        s1.memoryArray = s.memoryArray) ∧
    (∀ target, validateAddressAccess s.PC s.kernelMode = true →
      validateAddressAccess (s.PC + 1) s.kernelMode = true →
      (s.memoryArray s.PC = 2 ∧ target = s.memoryArray (s.PC + 1)) ∨
      (s.memoryArray s.PC = 3 ∧ target = s.memoryArray (s.PC + 1)) ∨
      (s.memoryArray s.PC = 4 ∧ target = wrap32 (s.memoryArray (s.PC + 1) + s.X)) ∨
      (s.memoryArray s.PC = 5 ∧ target = wrap32 (s.memoryArray (s.PC + 1) + s.Y)) ∨
      (s.memoryArray s.PC = 7 ∧ target = s.memoryArray (s.PC + 1)) →
      validateAddressAccess target s.kernelMode = false →
      ∃ s1, step N r s = Outcome.fault Fault.memoryViolation s1 ∧
        s1.cpuToMemory = s.cpuToMemory ++
          [Event.statusPtr getReadStatus s.PC s.kernelMode,
           Event.statusPtr getReadStatus (s.PC + 1) s.kernelMode] ∧
        s1.memoryArray = s.memoryArray) ∧
    (validateAddressAccess s.PC s.kernelMode = true →
      validateAddressAccess (s.PC + 1) s.kernelMode = true →
      s.memoryArray s.PC = 3 →
      validateAddressAccess (s.memoryArray (s.PC + 1)) s.kernelMode = true →
      validateAddressAccess (s.memoryArray (s.memoryArray (s.PC + 1))) s.kernelMode = false →
      ∃ s1, step N r s = Outcome.fault Fault.memoryViolation s1 ∧
        s1.cpuToMemory = s.cpuToMemory ++
          [Event.statusPtr getReadStatus s.PC s.kernelMode,
           Event.statusPtr getReadStatus (s.PC + 1) s.kernelMode,
           Event.statusPtr getReadStatus (s.memoryArray (s.PC + 1)) s.kernelMode] ∧
        s1.memoryArray = s.memoryArray) ∧
    (∀ target, validateAddressAccess s.PC s.kernelMode = true →
      (s.memoryArray s.PC = 6 ∧ target = wrap32 (s.SP + s.X)) ∨
      (s.memoryArray s.PC = 23 ∧ target = wrap32 (s.SP - 1)) ∨
      (s.memoryArray s.PC = 24 ∧ target = s.SP) ∨
      (s.memoryArray s.PC = 27 ∧ target = wrap32 (s.SP - 1)) ∨
      (s.memoryArray s.PC = 28 ∧ target = s.SP) ∨
      (s.memoryArray s.PC = 30 ∧ target = s.SP) →
      validateAddressAccess target s.kernelMode = false →
      ∃ s1, step N r s = Outcome.fault Fault.memoryViolation s1 ∧
        s1.cpuToMemory = s.cpuToMemory ++ [Event.statusPtr getReadStatus s.PC s.kernelMode] ∧
        s1.memoryArray = s.memoryArray) ∧
    (validateAddressAccess s.PC s.kernelMode = true → s.memoryArray s.PC = 23 →
      validateAddressAccess (wrap32 (s.SP - 1)) s.kernelMode = true →
      validateAddressAccess (s.PC + 1) s.kernelMode = false →
      ∃ s1, step N r s = Outcome.fault Fault.memoryViolation s1 ∧
        s1.cpuToMemory = s.cpuToMemory ++
          [Event.statusPtr getReadStatus s.PC s.kernelMode,
           Event.statusPtrValue getWriteStatus (wrap32 (s.SP - 1)) (s.PC + 1) s.kernelMode] ∧
        ∀ a, a ≠ wrap32 (s.SP - 1) → s1.memoryArray a = s.memoryArray a) ∧
    (validateAddressAccess s.PC s.kernelMode = true → s.memoryArray s.PC = 30 →
      validateAddressAccess s.SP s.kernelMode = true →
      validateAddressAccess (s.SP + 1) s.kernelMode = false →
      ∃ s1, step N r s = Outcome.fault Fault.memoryViolation s1 ∧
        s1.cpuToMemory = s.cpuToMemory ++
          [Event.statusPtr getReadStatus s.PC s.kernelMode,
           Event.statusPtr getReadStatus s.SP s.kernelMode] ∧
        s1.memoryArray = s.memoryArray) ∧
    (validateAddressAccess getMaxSystemCodeEntry true = true ∧
      validateAddressAccess (wrap32 (getMaxSystemCodeEntry - 1)) true = true) ∧
    (∃ new, (step N r s).state.cpuToMemory = s.cpuToMemory ++ new ∧
      ∀ e ∈ new, e.isAccess = true → validateAddressAccess e.ptr e.kernel = true) := by
  refine ⟨?_, ?_, ?_, ?_, ?_, ?_, ?_, ?_, ?_, ⟨by decide, by decide⟩, ?_⟩
  · intro ptr k h
    simp [checkedRead, h]
  · intro ptr value k h
    simp [checkedWrite, h]
  · exact step_of_fetch_fails N r s
  · intro hv hop h1
    have hw := wrap32_succ_of_valid hv
    have h50 : s.memoryArray s.PC ≠ 50 := by
      intro h; rw [h] at hop; simp at hop
    rw [step_of_fetch N r s hv, if_neg h50]
    simp only [List.mem_cons, List.mem_singleton, List.not_mem_nil, or_false] at hop
    rcases hop with hl | ⟨h, hac⟩ | ⟨h, hac⟩
    · rcases hl with h | h | h | h | h | h | h | h <;>
        simp [execute, fetched, pipeReadStatusAndPTR, h, case1, case2, case3, case4, case5,
          case7, case9, case20, checkedRead_eq, hw, h1, Outcome.andThen]
    · simp [execute, fetched, pipeReadStatusAndPTR, h, case21, checkedRead_eq, hw, h1,
        Outcome.andThen, hac]
    · simp [execute, fetched, pipeReadStatusAndPTR, h, case22, checkedRead_eq, hw, h1,
        Outcome.andThen, hac]
  · intro target hv h1 hop h2
    have hw := wrap32_succ_of_valid hv
    have h50 : s.memoryArray s.PC ≠ 50 := by omega
    rw [step_of_fetch N r s hv, if_neg h50]
    rcases hop with ⟨h, ht⟩ | ⟨h, ht⟩ | ⟨h, ht⟩ | ⟨h, ht⟩ | ⟨h, ht⟩ <;> subst ht <;>
      simp [execute, fetched, pipeReadStatusAndPTR, h, case2, case3, case4, case5, case7,
        checkedRead_eq, checkedWrite_eq, hw, h1, h2, Outcome.andThen]
  · intro hv h1 hop h2 h3
    have hw := wrap32_succ_of_valid hv
    have h50 : s.memoryArray s.PC ≠ 50 := by omega
    rw [step_of_fetch N r s hv, if_neg h50]
    simp [execute, fetched, pipeReadStatusAndPTR, hop, case3, checkedRead_eq, hw, h1, h2, h3,
      Outcome.andThen]
  · intro target hv hop h1
    have h50 : s.memoryArray s.PC ≠ 50 := by omega
    rw [step_of_fetch N r s hv, if_neg h50]
    rcases hop with ⟨h, ht⟩ | ⟨h, ht⟩ | ⟨h, ht⟩ | ⟨h, ht⟩ | ⟨h, ht⟩ | ⟨h, ht⟩ <;> subst ht <;>
      simp [execute, fetched, pipeReadStatusAndPTR, h, case6, case23, case24, case27, case28,
        case30, checkedRead_eq, checkedWrite_eq, h1, Outcome.andThen]
  · intro hv hop h1 h2
    have hw := wrap32_succ_of_valid hv
    have h50 : s.memoryArray s.PC ≠ 50 := by omega
    rw [step_of_fetch N r s hv, if_neg h50]
    simp [execute, fetched, pipeReadStatusAndPTR, pipeAddressToStack, hop, case23,
      checkedRead_eq, checkedWrite_eq, hw, h1, h2, Outcome.andThen]
    intro a ha
    simp [ha]
  · intro hv hop h1 h2
    have hw : wrap32 (s.SP + 1) = s.SP + 1 := wrap32_succ_of_valid h1
    have h50 : s.memoryArray s.PC ≠ 50 := by omega
    rw [step_of_fetch N r s hv, if_neg h50]
    simp [execute, fetched, pipeReadStatusAndPTR, hop, case30, checkedRead_eq, hw, h1, h2,
      Outcome.andThen]
  · obtain ⟨⟨new, hnew, hall⟩, _⟩ := step_emits N r s
    refine ⟨new, hnew, fun e he hacc => ?_⟩
    have := (List.all_eq_true.1 hall) e he
    simpa [hacc] using this

/-- C3 at the two inputs the claim names: LoadAddr with immediate 1000 in user mode
and Store with immediate 999 in kernel mode both stop with "Memory violation",
with only the fetch and the operand read on the pipe.  Likewise a taken
JumpIfZero and a Call in cell 999, whose operand cell 1000 is out of reach in
user mode, and a SysReturn with `SP = 1999`, whose second stack read is at
2000. -/
theorem C3_witness :
    (∃ s1, step 1000 0 userLoadState = Outcome.fault Fault.memoryViolation s1 ∧
        s1.cpuToMemory = userLoadState.cpuToMemory ++
          [Event.statusPtr getReadStatus userLoadState.PC userLoadState.kernelMode,
           Event.statusPtr getReadStatus (userLoadState.PC + 1) userLoadState.kernelMode] ∧
        s1.memoryArray = userLoadState.memoryArray) ∧
    (∃ s1, step 1000 0 kernelStoreState = Outcome.fault Fault.memoryViolation s1 ∧
        s1.cpuToMemory = kernelStoreState.cpuToMemory ++
          [Event.statusPtr getReadStatus kernelStoreState.PC kernelStoreState.kernelMode,
           Event.statusPtr getReadStatus (kernelStoreState.PC + 1)
             kernelStoreState.kernelMode] ∧
        s1.memoryArray = kernelStoreState.memoryArray) ∧
    (∃ s1, step 1000 0 jumpEdgeState = Outcome.fault Fault.memoryViolation s1 ∧
        s1.cpuToMemory = jumpEdgeState.cpuToMemory ++
          [Event.statusPtr getReadStatus jumpEdgeState.PC jumpEdgeState.kernelMode] ∧
        s1.memoryArray = jumpEdgeState.memoryArray) ∧
    (∃ s1, step 1000 0 callEdgeState = Outcome.fault Fault.memoryViolation s1 ∧
        s1.cpuToMemory = callEdgeState.cpuToMemory ++
          [Event.statusPtr getReadStatus callEdgeState.PC callEdgeState.kernelMode,
           Event.statusPtrValue getWriteStatus (wrap32 (callEdgeState.SP - 1))
             (callEdgeState.PC + 1) callEdgeState.kernelMode] ∧
        ∀ a, a ≠ wrap32 (callEdgeState.SP - 1) →
          s1.memoryArray a = callEdgeState.memoryArray a) ∧
    (∃ s1, step 1000 0 sysReturnEdgeState = Outcome.fault Fault.memoryViolation s1 ∧
        s1.cpuToMemory = sysReturnEdgeState.cpuToMemory ++
          [Event.statusPtr getReadStatus sysReturnEdgeState.PC sysReturnEdgeState.kernelMode,
           Event.statusPtr getReadStatus sysReturnEdgeState.SP
             sysReturnEdgeState.kernelMode] ∧
        s1.memoryArray = sysReturnEdgeState.memoryArray) :=
  ⟨(C3_failed_check_is_fatal 1000 0 userLoadState).2.2.2.2.1 1000 (by decide) (by decide)
      (Or.inl ⟨rfl, rfl⟩) (by decide),
   (C3_failed_check_is_fatal 1000 0 kernelStoreState).2.2.2.2.1 999 (by decide) (by decide)
      (Or.inr (Or.inr (Or.inr (Or.inr ⟨rfl, rfl⟩)))) (by decide),
   (C3_failed_check_is_fatal 1000 0 jumpEdgeState).2.2.2.1 (by decide)
      (Or.inr (Or.inl ⟨rfl, rfl⟩)) (by decide),
   (C3_failed_check_is_fatal 1000 0 callEdgeState).2.2.2.2.2.2.2.1 (by decide) rfl
      (by decide) (by decide),
   (C3_failed_check_is_fatal 1000 0 sysReturnEdgeState).2.2.2.2.2.2.2.2.1 (by decide) rfl
      (by decide) (by decide)⟩

/-! ## C4 -/

/-- C4: for every step that runs through, with opcode `memoryArray[PC]`: the
mode goes from USER to KERNEL only if the opcode is 29 or the timer tail takes
its interrupt branch at that step; it goes from KERNEL to USER only if the
opcode is 30; and every opcode other than 30 executed in KERNEL mode leaves the
mode KERNEL. -/
theorem C4_mode_transitions (N : Int) (r : Nat) (s s2 : State)
    (h : step N r s = Outcome.ok s2) :
    (s.kernelMode = false → s2.kernelMode = true →
      s.memoryArray s.PC = 29 ∨
        ∃ s1, fetchExecute r s = Outcome.ok s1 ∧ timerFires N s1 = true) ∧
    (s.kernelMode = true → s2.kernelMode = false → s.memoryArray s.PC = 30) ∧
    (s.kernelMode = true → s.memoryArray s.PC ≠ 30 → s2.kernelMode = true) := by
  obtain ⟨hv, ⟨h50, hs2⟩ | ⟨h50, s1, hfe, htc⟩⟩ := step_ok N r s s2 h
  · subst hs2
    refine ⟨?_, ?_, ?_⟩
    · intro hu hk
      simp [pipeReadStatusAndPTR, fetched, hu] at hk
    · intro hk hu
      simp [pipeReadStatusAndPTR, fetched, hk] at hu
    · intro hk _
      simpa [pipeReadStatusAndPTR, fetched] using hk
  · obtain ⟨_, he, _, _⟩ := fetchExecute_ok r s s1 hfe
    obtain ⟨_, _, _, hkeep, h29, h30⟩ := execute_frame r _ _ he
    have hIR : (fetched s).IR = s.memoryArray s.PC := rfl
    have hK : (fetched s).kernelMode = s.kernelMode := rfl
    rw [hIR] at hkeep h29 h30
    rw [hK] at hkeep
    rcases timerCheck_cases N s1 with ⟨hf, ht⟩ | ⟨hf, ht⟩ | ⟨hf, ht⟩
    · rw [ht] at htc
      injection htc with htc
      subst htc
      refine ⟨?_, ?_, ?_⟩
      · intro _ _
        exact Or.inr ⟨s1, hfe, hf⟩
      · intro _ hu
        simp at hu
      · intro _ _
        rfl
    · rw [ht] at htc
      injection htc with htc
      subst htc
      refine ⟨?_, ?_, ?_⟩
      · intro hu hk
        left
        by_contra h29'
        by_cases h30' : s.memoryArray s.PC = 30
        · have := h30 h30'
          simp [this] at hk
        · have := hkeep h29' h30'
          simp [this, hu] at hk
      · intro hk hu
        by_contra h30'
        by_cases h29' : s.memoryArray s.PC = 29
        · have := h29 h29'
          simp [this] at hu
        · have := hkeep h29' h30'
          simp [this, hk] at hu
      · intro hk h30'
        by_cases h29' : s.memoryArray s.PC = 29
        · simpa using h29 h29'
        · have := hkeep h29' h30'
          simpa [this] using hk
    · rw [ht] at htc
      cases htc

/-- C4 at `timerDemoState` with period 5: the step goes from USER to KERNEL, and
it does so because the timer fires. -/
theorem C4_witness :
    timerDemoState.kernelMode = false ∧ (step 5 0 timerDemoState).state.kernelMode = true ∧
    (timerDemoState.memoryArray timerDemoState.PC = 29 ∨
      ∃ s1, fetchExecute 0 timerDemoState = Outcome.ok s1 ∧ timerFires 5 s1 = true) :=
  ⟨rfl, rfl,
   (C4_mode_transitions 5 0 timerDemoState (step 5 0 timerDemoState).state rfl).1 rfl rfl⟩

/-! ## C5 -/

/-- C5: whenever the timer check fires at the end of a step whose instruction
left the state `s1` (with `PC = s1.PC`, `SP = s1.SP`), the step runs through and
its final state has mode KERNEL, `memoryArray[1999] = s1.PC`,
`memoryArray[1998] = s1.SP`, `SP = 1998`, `PC = 1000`, while `AC`, `X`, `Y` and
every cell other than 1998 and 1999 are as the instruction left them. -/
theorem C5_timer_interrupt_entry (N : Int) (r : Nat) (s s1 : State)
    (hins : fetchExecute r s = Outcome.ok s1) (hfire : timerFires N s1 = true) :
    ∃ s2, step N r s = Outcome.ok s2 ∧
      s2.kernelMode = true ∧ s2.memoryArray 1999 = s1.PC ∧ s2.memoryArray 1998 = s1.SP ∧
      s2.SP = 1998 ∧ s2.PC = 1000 ∧
      s2.AC = s1.AC ∧ s2.X = s1.X ∧ s2.Y = s1.Y ∧
      ∀ a, a ≠ 1998 → a ≠ 1999 → s2.memoryArray a = s1.memoryArray a := by
  rw [step_eq_timerCheck N r s s1 hins, timerCheck_of_fires N s1 hfire]
  refine ⟨_, rfl, rfl, ?_, ?_, rfl, rfl, rfl, rfl, rfl, ?_⟩
  · simp
  · simp
  · intro a h1 h2
    simp [h1, h2]

/-- C5 at `timerDemoState` with period 5: `CopyToX` leaves `PC = 1`, `SP = 1000`,
and the interrupt saves exactly those. -/
theorem C5_witness :
    ∃ s2, step 5 0 timerDemoState = Outcome.ok s2 ∧
      s2.kernelMode = true ∧ s2.memoryArray 1999 = 1 ∧ s2.memoryArray 1998 = 1000 ∧
      s2.SP = 1998 ∧ s2.PC = 1000 ∧
      s2.AC = 7 ∧ s2.X = 7 ∧ s2.Y = 0 ∧
      ∀ a, a ≠ 1998 → a ≠ 1999 →
        s2.memoryArray a = (fetchExecute 0 timerDemoState).state.memoryArray a :=
  C5_timer_interrupt_entry 5 0 timerDemoState (fetchExecute 0 timerDemoState).state rfl
    (by decide)

/-! ## C6 -/

/-- C6: in a run from the initial state (timer 0) with period `N ≥ 1`, let `s`
be the state after `n` loop iterations with the loop still running (`IR ≠ 50`),
so that `n` instructions have retired, and let `n + 1 < 2^31`.  If the next
instruction runs through and leaves the state `s1`, then the timer after the
increment is `n + 1`; the timer tail enters the handler exactly when `n + 1` is
a nonzero multiple of `N` and the mode after the instruction is USER; it never
enters it when that mode is KERNEL.  When it enters the handler the step ends
in KERNEL mode at `PC = 1000`; when it does not, the step ends in the state the
instruction left, with the timer incremented. -/
theorem C6_timer_entry_condition (N : Int) (hN : 1 ≤ N) (rand : Nat → Nat)
    (IR AC X Y : Int) (memoryArray : Int → Int) (n : Nat) (hn : (n : Int) + 1 < 2147483648)
    (s s1 : State)
    (hrun : cpuProcess N rand n IR AC X Y memoryArray = Outcome.ok s) (hgo : s.IR ≠ 50)
    (hins : fetchExecute (rand n) s = Outcome.ok s1) :
    wrap32 (s1.timer + 1) = (n : Int) + 1 ∧
    (timerFires N s1 = true ↔
      (∃ k : Int, 1 ≤ k ∧ (n : Int) + 1 = k * N) ∧ s1.kernelMode = false) ∧
    (s1.kernelMode = true → timerFires N s1 = false) ∧
    (timerFires N s1 = true →
      ∃ s2, step N (rand n) s = Outcome.ok s2 ∧ s2.kernelMode = true ∧ s2.PC = 1000) ∧
    (timerFires N s1 = false →
      step N (rand n) s = Outcome.ok { s1 with timer := (n : Int) + 1 }) := by
  have ht : s.timer = (n : Int) := by
    have := cpuLoop_timer N rand (initialState IR AC X Y memoryArray) n s hrun hgo
      (by simp [initialState]) (by simp only [initialState]; omega)
    simpa [initialState] using this
  have ht1 : s1.timer = (n : Int) := by
    rw [(fetchExecute_frame _ _ _ hins).1, ht]
  have hw : wrap32 (s1.timer + 1) = (n : Int) + 1 := by
    rw [ht1]; exact wrap32_of_int (by omega) (by omega)
  have hiff := timerFires_iff hN s1
  rw [hw] at hiff
  have hdvd : N ∣ (n : Int) + 1 ↔ ∃ k : Int, 1 ≤ k ∧ (n : Int) + 1 = k * N := by
    constructor
    · rintro ⟨k, hk⟩
      refine ⟨k, ?_, by rw [hk, mul_comm]⟩
      by_contra hlt
      have hk0 : k ≤ 0 := by omega
      have : N * k ≤ 0 := Int.mul_nonpos_of_nonneg_of_nonpos (by omega) hk0
      omega
    · rintro ⟨k, _, hk⟩
      exact ⟨k, by rw [hk, mul_comm]⟩
  refine ⟨hw, ?_, ?_, ?_, ?_⟩
  · rw [hiff, hdvd]
  · intro hk
    cases hf : timerFires N s1
    · rfl
    · have := (hiff.1 hf).2
      rw [hk] at this
      cases this
  · intro hf
    rw [step_eq_timerCheck N _ s s1 hins, timerCheck_of_fires N s1 hf]
    exact ⟨_, rfl, rfl, rfl⟩
  · intro hf
    rw [step_eq_timerCheck N _ s s1 hins]
    have hv : validateTimerInterrupt N (wrap32 (s1.timer + 1)) s1.kernelMode = some false := by
      have := validateTimerInterrupt_pos hN (wrap32 (s1.timer + 1)) s1.kernelMode
      rw [this]
      simp only [timerFires, this] at hf
      cases hb : (decide (N ∣ wrap32 (s1.timer + 1)) && !s1.kernelMode)
      · rfl
      · rw [hb] at hf; simp at hf
    rw [timerCheck_of_not_fires N s1 hv, hw]

/-- C6 for the second instruction of `copyImage` with period 2. -/
theorem C6_witness :
    timerFires 2 (fetchExecute 0 (cpuProcess 2 (fun _ => 0) 1 0 5 0 0 copyImage).state).state
        = true ↔
      (∃ k : Int, 1 ≤ k ∧ ((1 : Nat) : Int) + 1 = k * 2) ∧
      (fetchExecute 0 (cpuProcess 2 (fun _ => 0) 1 0 5 0 0 copyImage).state).state.kernelMode
        = false :=
  (C6_timer_entry_condition 2 (by decide) (fun _ => 0) 0 5 0 0 copyImage 1 (by decide)
    (cpuProcess 2 (fun _ => 0) 1 0 5 0 0 copyImage).state
    (fetchExecute 0 (cpuProcess 2 (fun _ => 0) 1 0 5 0 0 copyImage).state).state
    rfl (by decide) rfl).2.1

/-! ## C7 -/

/-- C7 (amended): for every opcode in 1..30 and every state in which the step
runs through, if the timer before the step is an `int` below `2^31 - 1`, the
timer after the step is the timer before plus exactly one, whatever the
instruction does and whether or not the timer interrupt fires. -/
theorem C7_timer_increment (N : Int) (r : Nat) (s s2 : State)
    (h : step N r s = Outcome.ok s2)
    (hop : 1 ≤ s.memoryArray s.PC ∧ s.memoryArray s.PC ≤ 30)
    (hlo : -2147483648 ≤ s.timer) (hhi : s.timer < 2147483647) :
    s2.timer = s.timer + 1 := by
  obtain ⟨_, ⟨h50, _⟩ | ⟨_, s1, hfe, htc⟩⟩ := step_ok N r s s2 h
  · omega
  · rw [(timerCheck_ok_timer N s1 s2 htc).1, (fetchExecute_frame r s s1 hfe).1]
    exact wrap32_of_int (by omega) (by omega)

/-- C7 as stated fails when the timer holds the largest `int`: `CopyToX` runs
through in user mode and the timer afterwards is `-2^31`, not `2^31`. -/
theorem C7_counterexample :
    (step 1000 0 timerMaxState).isOk = true ∧
    (1 ≤ timerMaxState.memoryArray timerMaxState.PC ∧
      timerMaxState.memoryArray timerMaxState.PC ≤ 30) ∧
    (step 1000 0 timerMaxState).state.timer = -2147483648 ∧
    (step 1000 0 timerMaxState).state.timer ≠ timerMaxState.timer + 1 := by
  decide

/-- C7 (amended) at `timerDemoState`: the timer goes from 4 to 5. -/
theorem C7_witness : (step 5 0 timerDemoState).state.timer = 4 + 1 :=
  C7_timer_increment 5 0 timerDemoState (step 5 0 timerDemoState).state rfl
    (by decide) (by decide) (by decide)

/-! ## C8 -/

/-- C8: executing SysCall (opcode 29) in user mode at address `p = s.PC` with
`SP = s.SP`, for a period `N ≥ 1`, runs through and yields mode KERNEL,
`memoryArray[1999] = p + 1`, `memoryArray[1998] = s.SP`, `SP = 1998` and
`PC = 1500`; `AC`, `X`, `Y` and all other cells are unchanged; and the timer
tail of that step does not take its interrupt branch, whatever the timer is. -/
theorem C8_syscall (N : Int) (hN : 1 ≤ N) (r : Nat) (s : State)
    (hmode : s.kernelMode = false) (hpc : 0 ≤ s.PC ∧ s.PC ≤ 999)
    (hop : s.memoryArray s.PC = 29) :
    ∃ s1 s2, fetchExecute r s = Outcome.ok s1 ∧ timerFires N s1 = false ∧
      step N r s = Outcome.ok s2 ∧
      s2.kernelMode = true ∧ s2.memoryArray 1999 = s.PC + 1 ∧ s2.memoryArray 1998 = s.SP ∧
      s2.SP = 1998 ∧ s2.PC = 1500 ∧
      s2.AC = s.AC ∧ s2.X = s.X ∧ s2.Y = s.Y ∧
      ∀ a, a ≠ 1998 → a ≠ 1999 → s2.memoryArray a = s.memoryArray a := by
  have hv : validateAddressAccess s.PC s.kernelMode = true := by
    rw [validateAddressAccess_iff]; exact Or.inl ⟨hmode, hpc.1, hpc.2⟩
  have hw : wrap32 (s.PC + 1) = s.PC + 1 := wrap32_succ_of_valid hv
  have hfe : fetchExecute r s = Outcome.ok
      { s with kernelMode := true, IR := 29, PC := 1500, SP := 1998,
               memoryArray := fun a => if a = 1998 then s.SP else if a = 1999 then s.PC + 1
                                        else s.memoryArray a,
               cpuToMemory := s.cpuToMemory ++
                 [Event.statusPtr getReadStatus s.PC false,
                  Event.statusPtrValue getWriteStatus 1999 (s.PC + 1) true,
                  Event.statusPtrValue getWriteStatus 1998 s.SP true] } := by
    rw [fetchExecute_of_fetch r s hv]
    simp [execute, fetched, pipeReadStatusAndPTR, pipeAddressToStack, hop, case29,
      checkedWrite_eq, getMaxSystemCodeEntry, wrap32_top, hw, hmode, validateAddressAccess]
  have hnf : validateTimerInterrupt N (wrap32 (s.timer + 1)) true = some false := by
    rw [validateTimerInterrupt_pos hN]; simp
  have hst : step N r s = timerCheck N _ := step_eq_timerCheck N r s _ hfe
  rw [timerCheck_of_not_fires] at hst
  · refine ⟨_, _, hfe, ?_, hst, rfl, ?_, ?_, rfl, rfl, rfl, rfl, rfl, ?_⟩
    · simp [timerFires, hnf]
    · simp
    · simp
    · intro a h1 h2
      simp [h1, h2]
  · exact hnf

/-- C8 at `sysCallState` with period 10, where the incremented timer is 10 and
still no interrupt is taken. -/
theorem C8_witness :
    ∃ s1 s2, fetchExecute 0 sysCallState = Outcome.ok s1 ∧ timerFires 10 s1 = false ∧
      step 10 0 sysCallState = Outcome.ok s2 ∧
      s2.kernelMode = true ∧ s2.memoryArray 1999 = 3 + 1 ∧ s2.memoryArray 1998 = 1000 ∧
      s2.SP = 1998 ∧ s2.PC = 1500 ∧
      s2.AC = 11 ∧ s2.X = 12 ∧ s2.Y = 13 ∧
      ∀ a, a ≠ 1998 → a ≠ 1999 → s2.memoryArray a = sysCallState.memoryArray a :=
  C8_syscall 10 (by decide) 0 sysCallState rfl (by decide) rfl

/-! ## C9 -/

/-- C9: executing SysReturn (opcode 30) in kernel mode with `SP = s.SP`, where
`s.SP` and `s.SP + 1` both lie in `1000..1999`, and with the timer check of that
step not firing, runs through and leaves `SP = memoryArray[s.SP]`,
`PC = memoryArray[s.SP + 1]` and mode USER, with `AC`, `X`, `Y` and memory
unchanged. -/
theorem C9_sysreturn (N : Int) (r : Nat) (s : State)
    (hmode : s.kernelMode = true) (hpc : 1000 ≤ s.PC ∧ s.PC ≤ 1999)
    (hop : s.memoryArray s.PC = 30)
    (hsp : 1000 ≤ s.SP ∧ s.SP ≤ 1999) (hsp1 : 1000 ≤ s.SP + 1 ∧ s.SP + 1 ≤ 1999)
    (hquiet : validateTimerInterrupt N (wrap32 (s.timer + 1)) false = some false) :
    ∃ s2, step N r s = Outcome.ok s2 ∧
      s2.SP = s.memoryArray s.SP ∧ s2.PC = s.memoryArray (s.SP + 1) ∧
      s2.kernelMode = false ∧
      s2.AC = s.AC ∧ s2.X = s.X ∧ s2.Y = s.Y ∧ s2.memoryArray = s.memoryArray := by
  have hv : validateAddressAccess s.PC s.kernelMode = true := by
    rw [validateAddressAccess_iff]; exact Or.inr ⟨hmode, hpc.1, hpc.2⟩
  have hv1 : validateAddressAccess s.SP true = true := by
    rw [validateAddressAccess_iff]; exact Or.inr ⟨rfl, hsp.1, hsp.2⟩
  have hv2 : validateAddressAccess (s.SP + 1) true = true := by
    rw [validateAddressAccess_iff]; exact Or.inr ⟨rfl, hsp1.1, hsp1.2⟩
  have hw : wrap32 (s.SP + 1) = s.SP + 1 := wrap32_succ_of_valid hv1
  have hfe : fetchExecute r s = Outcome.ok
      { s with kernelMode := false, IR := 30, PC := s.memoryArray (s.SP + 1),
               SP := s.memoryArray s.SP,
               cpuToMemory := s.cpuToMemory ++
                 [Event.statusPtr getReadStatus s.PC true,
                  Event.statusPtr getReadStatus s.SP true,
                  Event.statusPtr getReadStatus (s.SP + 1) true] } := by
    rw [fetchExecute_of_fetch r s hv]
    simp [execute, fetched, pipeReadStatusAndPTR, hop, case30, checkedRead_eq, hw, hmode,
      hv1, hv2]
  have hst : step N r s = timerCheck N _ := step_eq_timerCheck N r s _ hfe
  rw [timerCheck_of_not_fires] at hst
  · exact ⟨_, hst, rfl, rfl, rfl, rfl, rfl, rfl, rfl⟩
  · exact hquiet

/-- C9 at `sysReturnState` with period 7. -/
theorem C9_witness :
    ∃ s2, step 7 0 sysReturnState = Outcome.ok s2 ∧
      s2.SP = 7 ∧ s2.PC = 9 ∧ s2.kernelMode = false ∧
      s2.AC = 11 ∧ s2.X = 12 ∧ s2.Y = 13 ∧ s2.memoryArray = sysReturnState.memoryArray :=
  C9_sysreturn 7 0 sysReturnState rfl (by decide) rfl (by decide) (by decide) (by decide)

/-! ## C10 -/

/-- C10 (amended): for every period `N ≥ 1`, every timer value and every
kernel-mode state in which opcode 30 executes without fault, the timer
evaluation made when SysReturn retires re-enters the kernel exactly when the
incremented timer is a multiple of `N`.  If it is not, the mode after the step
is USER, memory is unchanged and the step puts no WRITE on the pipe, so cells
1998 and 1999 are not rewritten.  If it is, the step ends in KERNEL mode at
`PC = 1000`, `SP = 1998`, with the restored `PC` and `SP` saved again in cells
1999 and 1998. -/
theorem C10_sysreturn_timer (N : Int) (hN : 1 ≤ N) (r : Nat) (s s2 : State)
    (hmode : s.kernelMode = true) (hop : s.memoryArray s.PC = 30)
    (hok : step N r s = Outcome.ok s2) :
    (¬ N ∣ wrap32 (s.timer + 1) →
      s2.kernelMode = false ∧ s2.memoryArray = s.memoryArray ∧
      s2.cpuToMemory = s.cpuToMemory ++
        [Event.statusPtr getReadStatus s.PC true,
         Event.statusPtr getReadStatus s.SP true,
         Event.statusPtr getReadStatus (s.SP + 1) true]) ∧
    (N ∣ wrap32 (s.timer + 1) →
      s2.kernelMode = true ∧ s2.PC = 1000 ∧ s2.SP = 1998 ∧
      s2.memoryArray 1999 = s.memoryArray (s.SP + 1) ∧
      s2.memoryArray 1998 = s.memoryArray s.SP) := by
  obtain ⟨hv, ⟨h50, _⟩ | ⟨_, s1, hfe, htc⟩⟩ := step_ok N r s s2 hok
  · omega
  · have hs1 : validateAddressAccess s.SP true = true ∧
        validateAddressAccess (s.SP + 1) true = true ∧
        s1 =
          { s with kernelMode := false, IR := 30, PC := s.memoryArray (s.SP + 1),
                   SP := s.memoryArray s.SP,
                   cpuToMemory := s.cpuToMemory ++
                     [Event.statusPtr getReadStatus s.PC true,
                      Event.statusPtr getReadStatus s.SP true,
                      Event.statusPtr getReadStatus (s.SP + 1) true] } := by
      rw [fetchExecute_of_fetch r s hv] at hfe
      simp only [execute, fetched, pipeReadStatusAndPTR, hop, case30, checkedRead_eq,
        hmode] at hfe
      norm_num at hfe
      split at hfe
      · next h1 =>
        have hw : wrap32 (s.SP + 1) = s.SP + 1 := wrap32_succ_of_valid h1
        rw [hw] at hfe
        split at hfe
        · next h2 =>
          injection hfe with hfe
          exact ⟨h1, h2, by rw [← hfe]⟩
        · cases hfe
      · cases hfe
    obtain ⟨_, _, hs1⟩ := hs1
    have hfires : timerFires N s1 = true ↔ N ∣ wrap32 (s.timer + 1) := by
      rw [timerFires_iff hN, hs1]; simp
    constructor
    · intro hnd
      have hv' : validateTimerInterrupt N (wrap32 (s1.timer + 1)) s1.kernelMode
          = some false := by
        rw [validateTimerInterrupt_pos hN, hs1]; simp [hnd]
      rw [timerCheck_of_not_fires N s1 hv'] at htc
      injection htc with htc
      subst htc
      subst hs1
      exact ⟨rfl, rfl, rfl⟩
    · intro hd
      rw [timerCheck_of_fires N s1 (hfires.2 hd)] at htc
      injection htc with htc
      subst htc
      subst hs1
      refine ⟨rfl, rfl, rfl, ?_, ?_⟩
      · simp
      · simp

/-- C10 as stated fails: with period 5 and four instructions retired, SysReturn
executes without fault in kernel mode, yet the step ends in KERNEL mode and
cells 1999 and 1998, which held 0, now hold the restored `PC = 9` and `SP = 7`. -/
theorem C10_counterexample :
    (1 : Int) ≤ 5 ∧ sysReturnState.kernelMode = true ∧
    sysReturnState.memoryArray sysReturnState.PC = 30 ∧
    (step 5 0 sysReturnState).isOk = true ∧
    (step 5 0 sysReturnState).state.kernelMode = true ∧
    sysReturnState.memoryArray 1999 = 0 ∧
    (step 5 0 sysReturnState).state.memoryArray 1999 = 9 ∧
    sysReturnState.memoryArray 1998 = 0 ∧
    (step 5 0 sysReturnState).state.memoryArray 1998 = 7 := by
  decide

/-- C10 (amended) at `sysReturnState` with period 5: the incremented timer is 5
and the step re-enters the kernel. -/
theorem C10_witness :
    (step 5 0 sysReturnState).state.kernelMode = true ∧
    (step 5 0 sysReturnState).state.PC = 1000 ∧
    (step 5 0 sysReturnState).state.SP = 1998 ∧
    (step 5 0 sysReturnState).state.memoryArray 1999 = 9 ∧
    (step 5 0 sysReturnState).state.memoryArray 1998 = 7 :=
  (C10_sysreturn_timer 5 (by decide) 0 sysReturnState (step 5 0 sysReturnState).state
    rfl rfl rfl).2 ⟨1, by decide⟩

/-! ## Steps with a quiet timer, and the bodies of single opcodes -/

/-- A step whose instruction runs through and whose timer check does not fire
ends in the state the instruction left, with the timer incremented. -/
theorem step_quiet (N : Int) (r : Nat) (s s1 : State)
    (hfe : fetchExecute r s = Outcome.ok s1)
    (hq : validateTimerInterrupt N (wrap32 (s1.timer + 1)) s1.kernelMode = some false) :
    step N r s = Outcome.ok { s1 with timer := wrap32 (s1.timer + 1) } := by
  rw [step_eq_timerCheck N r s s1 hfe, timerCheck_of_not_fires N s1 hq]

/-- A step that runs through with an opcode other than 50 and without the timer
firing ends in the state the instruction left, with the timer incremented. -/
theorem step_ok_quiet (N : Int) (r : Nat) (s s2 : State)
    (h : step N r s = Outcome.ok s2) (h50 : s.memoryArray s.PC ≠ 50)
    (hq : timerFires N (fetchExecute r s).state = false) :
    validateAddressAccess s.PC s.kernelMode = true ∧
    ∃ s1, execute r (fetched s) = Outcome.ok s1 ∧
      s2 = { s1 with timer := wrap32 (s1.timer + 1) } := by
  obtain ⟨hv, ⟨h50', _⟩ | ⟨_, s1, hfe, htc⟩⟩ := step_ok N r s s2 h
  · exact absurd h50' h50
  · refine ⟨hv, s1, (fetchExecute_ok r s s1 hfe).2.1, ?_⟩
    rw [hfe] at hq
    simp only [Outcome.state] at hq
    rcases timerCheck_cases N s1 with ⟨hf, _⟩ | ⟨_, ht⟩ | ⟨_, ht⟩
    · rw [hq] at hf; cases hf
    · rw [ht] at htc; injection htc with htc; exact htc.symm
    · rw [ht] at htc; cases htc

/-- The body of SysReturn (case 30) when both stack reads pass the check. -/
theorem fetchExecute_case30 (r : Nat) (s : State)
    (hv : validateAddressAccess s.PC s.kernelMode = true) (hop : s.memoryArray s.PC = 30)
    (h1 : validateAddressAccess s.SP s.kernelMode = true)
    (h2 : validateAddressAccess (s.SP + 1) s.kernelMode = true) :
    fetchExecute r s = Outcome.ok
      { s with kernelMode := false, IR := 30, PC := s.memoryArray (s.SP + 1),
               SP := s.memoryArray s.SP,
               cpuToMemory := s.cpuToMemory ++
                 [Event.statusPtr getReadStatus s.PC s.kernelMode,
                  Event.statusPtr getReadStatus s.SP s.kernelMode,
                  Event.statusPtr getReadStatus (s.SP + 1) s.kernelMode] } := by
  have hw : wrap32 (s.SP + 1) = s.SP + 1 := wrap32_succ_of_valid h1
  rw [fetchExecute_of_fetch r s hv]
  simp [execute, fetched, pipeReadStatusAndPTR, hop, case30, checkedRead_eq, hw, h1, h2]

/-- The body of SysCall (case 29). -/
theorem fetchExecute_case29 (r : Nat) (s : State)
    (hv : validateAddressAccess s.PC s.kernelMode = true) (hop : s.memoryArray s.PC = 29) :
    fetchExecute r s = Outcome.ok
      { s with kernelMode := true, IR := 29, PC := 1500, SP := 1998,
               memoryArray := fun a => if a = 1998 then s.SP else if a = 1999 then s.PC + 1
                                        else s.memoryArray a,
               cpuToMemory := s.cpuToMemory ++
                 [Event.statusPtr getReadStatus s.PC s.kernelMode,
                  Event.statusPtrValue getWriteStatus 1999 (s.PC + 1) true,
                  Event.statusPtrValue getWriteStatus 1998 s.SP true] } := by
  have hw : wrap32 (s.PC + 1) = s.PC + 1 := wrap32_succ_of_valid hv
  rw [fetchExecute_of_fetch r s hv]
  simp [execute, fetched, pipeReadStatusAndPTR, pipeAddressToStack, hop, case29,
    checkedWrite_eq, getMaxSystemCodeEntry, wrap32_top, hw, validateAddressAccess]

theorem valid_kernel_1000 : validateAddressAccess 1000 true = true := by decide

theorem valid_kernel_1500 : validateAddressAccess 1500 true = true := by decide

theorem valid_kernel_1998 : validateAddressAccess 1998 true = true := by decide

theorem valid_kernel_1999 : validateAddressAccess (1998 + 1) true = true := by decide

/-- In kernel mode the timer check never fires. -/
theorem timerCheck_kernel (N : Int) (s1 s2 : State) (hk : s1.kernelMode = true)
    (h : timerCheck N s1 = Outcome.ok s2) :
    s2 = { s1 with timer := wrap32 (s1.timer + 1) } := by
  rcases timerCheck_cases N s1 with ⟨hf, _⟩ | ⟨_, ht⟩ | ⟨_, ht⟩
  · simp only [timerFires, hk, validateTimerInterrupt] at hf
    split at hf <;> simp at hf
  · rw [ht] at h; injection h with h; exact h.symm
  · rw [ht] at h; cases h

theorem wrap32_of_valid {p : Int} {k : Bool} (h : validateAddressAccess p k = true) :
    wrap32 p = p := by
  have := validateAddressAccess_bounds h
  exact wrap32_of_int (by omega) (by omega)

/-- The body of Call (case 23) when the stack slot and the operand cell pass the
check: the value stored is the `PC` after the opcode, i.e. the address of the
immediate, and the target is read after that store. -/
theorem fetchExecute_case23 (r : Nat) (s : State)
    (hv : validateAddressAccess s.PC s.kernelMode = true) (hop : s.memoryArray s.PC = 23)
    (h1 : validateAddressAccess (s.SP - 1) s.kernelMode = true)
    (h2 : validateAddressAccess (s.PC + 1) s.kernelMode = true) :
    fetchExecute r s = Outcome.ok
      { s with IR := 23, SP := s.SP - 1,
               PC := if s.PC + 1 = s.SP - 1 then s.PC + 1 else s.memoryArray (s.PC + 1),
               memoryArray := fun a => if a = s.SP - 1 then s.PC + 1 else s.memoryArray a,
               cpuToMemory := s.cpuToMemory ++
                 [Event.statusPtr getReadStatus s.PC s.kernelMode,
                  Event.statusPtrValue getWriteStatus (s.SP - 1) (s.PC + 1) s.kernelMode,
                  Event.statusPtr getReadStatus (s.PC + 1) s.kernelMode] } := by
  have hw : wrap32 (s.PC + 1) = s.PC + 1 := wrap32_succ_of_valid hv
  have hw2 : wrap32 (s.SP - 1) = s.SP - 1 := wrap32_of_valid h1
  rw [fetchExecute_of_fetch r s hv]
  simp [execute, fetched, pipeReadStatusAndPTR, pipeAddressToStack, hop, case23,
    checkedRead_eq, checkedWrite_eq, hw, hw2, h1, h2]

/-- The body of Return (case 24) when the stack slot passes the check. -/
theorem fetchExecute_case24 (r : Nat) (s : State)
    (hv : validateAddressAccess s.PC s.kernelMode = true) (hop : s.memoryArray s.PC = 24)
    (h1 : validateAddressAccess s.SP s.kernelMode = true) :
    fetchExecute r s = Outcome.ok
      { s with IR := 24, SP := s.SP + 1, PC := wrap32 (s.memoryArray s.SP + 1),
               cpuToMemory := s.cpuToMemory ++
                 [Event.statusPtr getReadStatus s.PC s.kernelMode,
                  Event.statusPtr getReadStatus s.SP s.kernelMode] } := by
  have hw : wrap32 (s.SP + 1) = s.SP + 1 := wrap32_succ_of_valid h1
  rw [fetchExecute_of_fetch r s hv]
  simp [execute, fetched, pipeReadStatusAndPTR, hop, case24, checkedRead_eq, hw, h1]

/-- The body of PushAC (case 27) when the stack slot passes the check. -/
theorem fetchExecute_case27 (r : Nat) (s : State)
    (hv : validateAddressAccess s.PC s.kernelMode = true) (hop : s.memoryArray s.PC = 27)
    (h1 : validateAddressAccess (s.SP - 1) s.kernelMode = true) :
    fetchExecute r s = Outcome.ok
      { s with IR := 27, SP := s.SP - 1, PC := s.PC + 1,
               memoryArray := fun a => if a = s.SP - 1 then s.AC else s.memoryArray a,
               cpuToMemory := s.cpuToMemory ++
                 [Event.statusPtr getReadStatus s.PC s.kernelMode,
                  Event.statusPtrValue getWriteStatus (s.SP - 1) s.AC s.kernelMode] } := by
  have hw : wrap32 (s.PC + 1) = s.PC + 1 := wrap32_succ_of_valid hv
  have hw2 : wrap32 (s.SP - 1) = s.SP - 1 := wrap32_of_valid h1
  rw [fetchExecute_of_fetch r s hv]
  simp [execute, fetched, pipeReadStatusAndPTR, pipeAddressToStack, hop, case27,
    checkedWrite_eq, hw, hw2, h1]

/-- The body of PopAC (case 28) when the stack slot passes the check. -/
theorem fetchExecute_case28 (r : Nat) (s : State)
    (hv : validateAddressAccess s.PC s.kernelMode = true) (hop : s.memoryArray s.PC = 28)
    (h1 : validateAddressAccess s.SP s.kernelMode = true) :
    fetchExecute r s = Outcome.ok
      { s with IR := 28, SP := s.SP + 1, PC := s.PC + 1, AC := s.memoryArray s.SP,
               cpuToMemory := s.cpuToMemory ++
                 [Event.statusPtr getReadStatus s.PC s.kernelMode,
                  Event.statusPtr getReadStatus s.SP s.kernelMode] } := by
  have hw : wrap32 (s.PC + 1) = s.PC + 1 := wrap32_succ_of_valid hv
  have hw2 : wrap32 (s.SP + 1) = s.SP + 1 := wrap32_succ_of_valid h1
  rw [fetchExecute_of_fetch r s hv]
  simp [execute, fetched, pipeReadStatusAndPTR, hop, case28, checkedRead_eq, hw, hw2, h1]

/-- The body of LoadValue (case 1) when the operand cell passes the check. -/
theorem fetchExecute_case1 (r : Nat) (s : State)
    (hv : validateAddressAccess s.PC s.kernelMode = true) (hop : s.memoryArray s.PC = 1)
    (h1 : validateAddressAccess (s.PC + 1) s.kernelMode = true) :
    fetchExecute r s = Outcome.ok
      { s with IR := 1, PC := s.PC + 1 + 1, AC := s.memoryArray (s.PC + 1),
               cpuToMemory := s.cpuToMemory ++
                 [Event.statusPtr getReadStatus s.PC s.kernelMode,
                  Event.statusPtr getReadStatus (s.PC + 1) s.kernelMode] } := by
  have hw : wrap32 (s.PC + 1) = s.PC + 1 := wrap32_succ_of_valid hv
  have hw2 : wrap32 (s.PC + 1 + 1) = s.PC + 1 + 1 := wrap32_succ_of_valid h1
  rw [fetchExecute_of_fetch r s hv]
  simp [execute, fetched, pipeReadStatusAndPTR, hop, case1, checkedRead_eq, hw, hw2, h1]

/-- The body of LoadAddr (case 2) when the operand cell and the target pass the
check. -/
theorem fetchExecute_case2 (r : Nat) (s : State)
    (hv : validateAddressAccess s.PC s.kernelMode = true) (hop : s.memoryArray s.PC = 2)
    (h1 : validateAddressAccess (s.PC + 1) s.kernelMode = true)
    (h2 : validateAddressAccess (s.memoryArray (s.PC + 1)) s.kernelMode = true) :
    fetchExecute r s = Outcome.ok
      { s with IR := 2, PC := s.PC + 1 + 1, AC := s.memoryArray (s.memoryArray (s.PC + 1)),
               cpuToMemory := s.cpuToMemory ++
                 [Event.statusPtr getReadStatus s.PC s.kernelMode,
                  Event.statusPtr getReadStatus (s.PC + 1) s.kernelMode,
                  Event.statusPtr getReadStatus (s.memoryArray (s.PC + 1)) s.kernelMode] } := by
  have hw : wrap32 (s.PC + 1) = s.PC + 1 := wrap32_succ_of_valid hv
  have hw2 : wrap32 (s.PC + 1 + 1) = s.PC + 1 + 1 := wrap32_succ_of_valid h1
  rw [fetchExecute_of_fetch r s hv]
  simp [execute, fetched, pipeReadStatusAndPTR, hop, case2, checkedRead_eq, hw, hw2, h1, h2]

/-- The body of Store (case 7) when the operand cell and the target pass the
check. -/
theorem fetchExecute_case7 (r : Nat) (s : State)
    (hv : validateAddressAccess s.PC s.kernelMode = true) (hop : s.memoryArray s.PC = 7)
    (h1 : validateAddressAccess (s.PC + 1) s.kernelMode = true)
    (h2 : validateAddressAccess (s.memoryArray (s.PC + 1)) s.kernelMode = true) :
    fetchExecute r s = Outcome.ok
      { s with IR := 7, PC := s.PC + 1 + 1,
               memoryArray := fun a =>
                 if a = s.memoryArray (s.PC + 1) then s.AC else s.memoryArray a,
               cpuToMemory := s.cpuToMemory ++
                 [Event.statusPtr getReadStatus s.PC s.kernelMode,
                  Event.statusPtr getReadStatus (s.PC + 1) s.kernelMode,
                  Event.statusPtrValue getWriteStatus (s.memoryArray (s.PC + 1)) s.AC
                    s.kernelMode] } := by
  have hw : wrap32 (s.PC + 1) = s.PC + 1 := wrap32_succ_of_valid hv
  have hw2 : wrap32 (s.PC + 1 + 1) = s.PC + 1 + 1 := wrap32_succ_of_valid h1
  rw [fetchExecute_of_fetch r s hv]
  simp [execute, fetched, pipeReadStatusAndPTR, pipeAddressToStack, hop, case7,
    checkedRead_eq, checkedWrite_eq, hw, hw2, h1, h2]

theorem valid_between {a b c : Int} {k : Bool} (ha : validateAddressAccess a k = true)
    (hb : validateAddressAccess b k = true) (h1 : a ≤ c) (h2 : c ≤ b) :
    validateAddressAccess c k = true := by
  rw [validateAddressAccess_iff] at ha hb ⊢
  rcases ha with ⟨m, a1, a2⟩ | ⟨m, a1, a2⟩ <;> rcases hb with ⟨m2, b1, b2⟩ | ⟨m2, b1, b2⟩
  · exact Or.inl ⟨m, by omega, by omega⟩
  · rw [m] at m2; cases m2
  · rw [m] at m2; cases m2
  · exact Or.inr ⟨m, by omega, by omega⟩

/-- LoadValue (1) with a quiet timer, as a relation between the two states. -/
theorem step_loadValue (N : Int) (r : Nat) (s : State)
    (hv : validateAddressAccess s.PC s.kernelMode = true) (hop : s.memoryArray s.PC = 1)
    (h1 : validateAddressAccess (s.PC + 1) s.kernelMode = true)
    (hq : validateTimerInterrupt N (wrap32 (s.timer + 1)) s.kernelMode = some false) :
    ∃ s2, step N r s = Outcome.ok s2 ∧ s2.PC = s.PC + 2 ∧
      s2.AC = s.memoryArray (s.PC + 1) ∧ s2.kernelMode = s.kernelMode ∧
      s2.memoryArray = s.memoryArray ∧ s2.timer = wrap32 (s.timer + 1) := by
  have st := step_quiet N r s _ (fetchExecute_case1 r s hv hop h1) hq
  exact ⟨_, st, by show s.PC + 1 + 1 = s.PC + 2; omega, rfl, rfl, rfl, rfl⟩

/-- Store (7) with a quiet timer, as a relation between the two states. -/
theorem step_store (N : Int) (r : Nat) (s : State)
    (hv : validateAddressAccess s.PC s.kernelMode = true) (hop : s.memoryArray s.PC = 7)
    (h1 : validateAddressAccess (s.PC + 1) s.kernelMode = true)
    (h2 : validateAddressAccess (s.memoryArray (s.PC + 1)) s.kernelMode = true)
    (hq : validateTimerInterrupt N (wrap32 (s.timer + 1)) s.kernelMode = some false) :
    ∃ s2, step N r s = Outcome.ok s2 ∧ s2.PC = s.PC + 2 ∧
      s2.AC = s.AC ∧ s2.kernelMode = s.kernelMode ∧
      (∀ a, s2.memoryArray a =
        if a = s.memoryArray (s.PC + 1) then s.AC else s.memoryArray a) ∧
      s2.timer = wrap32 (s.timer + 1) := by
  have st := step_quiet N r s _ (fetchExecute_case7 r s hv hop h1 h2) hq
  exact ⟨_, st, by show s.PC + 1 + 1 = s.PC + 2; omega, rfl, rfl, fun a => rfl, rfl⟩

/-- LoadAddr (2) with a quiet timer, as a relation between the two states. -/
theorem step_loadAddr (N : Int) (r : Nat) (s : State)
    (hv : validateAddressAccess s.PC s.kernelMode = true) (hop : s.memoryArray s.PC = 2)
    (h1 : validateAddressAccess (s.PC + 1) s.kernelMode = true)
    (h2 : validateAddressAccess (s.memoryArray (s.PC + 1)) s.kernelMode = true)
    (hq : validateTimerInterrupt N (wrap32 (s.timer + 1)) s.kernelMode = some false) :
    ∃ s2, step N r s = Outcome.ok s2 ∧ s2.PC = s.PC + 2 ∧
      s2.AC = s.memoryArray (s.memoryArray (s.PC + 1)) ∧ s2.kernelMode = s.kernelMode ∧
      s2.memoryArray = s.memoryArray ∧ s2.timer = wrap32 (s.timer + 1) := by
  have st := step_quiet N r s _ (fetchExecute_case2 r s hv hop h1 h2) hq
  exact ⟨_, st, by show s.PC + 1 + 1 = s.PC + 2; omega, rfl, rfl, rfl, rfl⟩

/-- Where the instruction bodies leave `PC`: two cells on for the non-jumping
opcodes with an immediate, one cell on for those without. -/
theorem execute_pc (r : Nat) (s s1 : State) (h : execute r s = Outcome.ok s1) :
    (s.IR ∈ [1, 2, 3, 4, 5, 7, 9] → s1.PC = wrap32 (wrap32 (s.PC + 1) + 1)) ∧
    (s.IR ∈ [6, 8, 10, 11, 12, 13, 14, 15, 16, 17, 18, 19, 25, 26, 27, 28] →
      s1.PC = wrap32 (s.PC + 1)) := by
  revert h
  apply execute_cases r s (fun o => o = Outcome.ok s1 →
    (s.IR ∈ [1, 2, 3, 4, 5, 7, 9] → s1.PC = wrap32 (wrap32 (s.PC + 1) + 1)) ∧
    (s.IR ∈ [6, 8, 10, 11, 12, 13, 14, 15, 16, 17, 18, 19, 25, 26, 27, 28] →
      s1.PC = wrap32 (s.PC + 1)))
  all_goals intro hIR h
  all_goals try simp only [case1, case2, case3, case4, case5, case6, case7, case8, case9, case10,
    case11, case12, case13, case14, case15, case16, case17, case18, case19, case20,
    case21, case22, case23, case24, case25, case26, case27, case28, case29, case30,
    checkedRead_eq, checkedWrite_eq, pipeReadStatusAndPTR, pipeAddressToStack] at h
  all_goals repeat' split at h
  all_goals first
    | (injection h with h; subst h; simp [hIR])
    | (exact absurd h (by simp))

theorem memoryProcess_read (store : Int → Int) (a : Int) (rest : List Int)
    (h0 : 0 ≤ a) (h1 : a < 2000) :
    memoryProcess store (getReadStatus :: a :: rest) =
      { memoryProcess store rest with
        memoryToCPU := store a :: (memoryProcess store rest).memoryToCPU } := by
  have e : memoryProcess store (getReadStatus :: a :: rest) =
      (match writeToCPU store a with
        | none =>
          { memoryArray := store, memoryToCPU := [], ending := ServerEnd.outOfBounds }
        | some v =>
          { memoryProcess store rest with
            memoryToCPU := v :: (memoryProcess store rest).memoryToCPU }) := by
    cases rest with
    | nil => rfl
    | cons x r =>
      cases r with
      | nil => rfl
      | cons y r2 => rfl
  rw [e]
  simp [writeToCPU, h0, h1]

theorem memoryProcess_write (store : Int → Int) (a v : Int) (rest : List Int)
    (h0 : 0 ≤ a) (h1 : a < 2000) :
    memoryProcess store (getWriteStatus :: a :: v :: rest) =
      memoryProcess (fun x => if x = a then v else store x) rest := by
  have e : memoryProcess store (getWriteStatus :: a :: v :: rest) =
      (match storeCell store a v with
        | none =>
          { memoryArray := store, memoryToCPU := [], ending := ServerEnd.outOfBounds }
        | some m => memoryProcess m rest) := by
    cases rest with
    | nil => rfl
    | cons x r =>
      cases r with
      | nil => rfl
      | cons y r2 => rfl
  rw [e]
  simp [storeCell, h0, h1]

theorem memoryProcess_exit (store : Int → Int) (rest : List Int) :
    memoryProcess store (exitStatus :: rest) =
      { memoryArray := store, memoryToCPU := [], ending := ServerEnd.exited } := by
  cases rest with
  | nil => rfl
  | cons x r =>
    cases r with
    | nil => rfl
    | cons y r2 => rfl

/-- Commands before any EXIT are served one by one; what follows them is served
from the store they leave. -/
theorem memoryProcess_encodeAll (cmds : List Command) :
    ∀ (store : Int → Int) (tail : List Int), (∀ c ∈ cmds, c.inRange = true) →
      Command.exit ∉ cmds →
      (memoryProcess store (encodeAll cmds ++ tail)).memoryToCPU =
        (replaySpec store cmds).1 ++
          (memoryProcess (replaySpec store cmds).2 tail).memoryToCPU ∧
      (memoryProcess store (encodeAll cmds ++ tail)).memoryArray =
        (memoryProcess (replaySpec store cmds).2 tail).memoryArray ∧
      (memoryProcess store (encodeAll cmds ++ tail)).ending =
        (memoryProcess (replaySpec store cmds).2 tail).ending := by
  induction cmds with
  | nil => intro store tail _ _; simp [encodeAll, replaySpec]
  | cons c cs ih =>
    intro store tail hr hne
    have hrc : c.inRange = true := hr c (List.mem_cons_self _ _)
    have hrs : ∀ c ∈ cs, c.inRange = true := fun c hc => hr c (List.mem_cons_of_mem _ hc)
    have hns : Command.exit ∉ cs := fun hc => hne (List.mem_cons_of_mem _ hc)
    cases c with
    | exit => exact absurd (List.mem_cons_self _ _) hne
    | read a =>
      simp only [Command.inRange, Bool.and_eq_true, decide_eq_true_eq] at hrc
      obtain ⟨i1, i2, i3⟩ := ih store tail hrs hns
      simp only [encodeAll, Command.encode, List.cons_append, List.nil_append, replaySpec]
      rw [memoryProcess_read store a _ hrc.1 hrc.2]
      exact ⟨by simp [i1], i2, i3⟩
    | write a v =>
      simp only [Command.inRange, Bool.and_eq_true, decide_eq_true_eq] at hrc
      simp only [encodeAll, Command.encode, List.cons_append, List.nil_append, replaySpec]
      rw [memoryProcess_write store a v _ hrc.1 hrc.2]
      exact ih _ tail hrs hns

theorem replaySpec_append_exit (pre : List Command) :
    ∀ (store : Int → Int) (post : List Command), Command.exit ∉ pre →
      replaySpec store (pre ++ Command.exit :: post) = replaySpec store pre := by
  induction pre with
  | nil => intro store post _; simp [replaySpec]
  | cons c cs ih =>
    intro store post hne
    have hns : Command.exit ∉ cs := fun hc => hne (List.mem_cons_of_mem _ hc)
    cases c with
    | exit => exact absurd (List.mem_cons_self _ _) hne
    | read a => simp [replaySpec, ih store post hns]
    | write a v => simp [replaySpec, ih _ post hns]

theorem encodeAll_append (l1 l2 : List Command) :
    encodeAll (l1 ++ l2) = encodeAll l1 ++ encodeAll l2 := by
  induction l1 with
  | nil => rfl
  | cons c cs ih => simp [encodeAll, ih]

/-- Without an EXIT the reference yields one reply per READ, and the final store
holds in each cell the value most recently written there, or the initial one. -/
theorem replaySpec_lastWrite (cmds : List Command) :
    ∀ (store : Int → Int), Command.exit ∉ cmds →
      (replaySpec store cmds).1.length = countReads cmds ∧
      ∀ a, (replaySpec store cmds).2 a = (lastWrite a cmds).getD (store a) := by
  induction cmds with
  | nil => intro store _; simp [replaySpec, countReads, lastWrite]
  | cons c cs ih =>
    intro store hne
    have hns : Command.exit ∉ cs := fun hc => hne (List.mem_cons_of_mem _ hc)
    cases c with
    | exit => exact absurd (List.mem_cons_self _ _) hne
    | read a =>
      obtain ⟨i1, i2⟩ := ih store hns
      exact ⟨by simp [replaySpec, countReads, i1], fun x => by simp [replaySpec, lastWrite, i2]⟩
    | write a v =>
      obtain ⟨i1, i2⟩ := ih (fun x => if x = a then v else store x) hns
      refine ⟨by simp [replaySpec, countReads, i1], fun x => ?_⟩
      simp only [replaySpec, lastWrite]
      rw [i2 x]
      cases lastWrite x cs with
      | some w => rfl
      | none =>
        by_cases hx : x = a
        · subst hx; simp
        · have hx' : ¬ a = x := fun e => hx e.symm
          simp [hx, hx']

/-- The reply to a READ is the value most recently written to its address by the
commands before it, or the initial value. -/
theorem replaySpec_reply (pre : List Command) :
    ∀ (store : Int → Int) (a : Int) (post : List Command), Command.exit ∉ pre →
      (replaySpec store (pre ++ Command.read a :: post)).1[countReads pre]? =
        some ((lastWrite a pre).getD (store a)) := by
  induction pre with
  | nil => intro store a post _; simp [replaySpec, countReads, lastWrite]
  | cons c cs ih =>
    intro store a post hne
    have hns : Command.exit ∉ cs := fun hc => hne (List.mem_cons_of_mem _ hc)
    cases c with
    | exit => exact absurd (List.mem_cons_self _ _) hne
    | read b =>
      have := ih store a post hns
      simpa [replaySpec, countReads, lastWrite] using this
    | write b v =>
      have := ih (fun x => if x = b then v else store x) a post hns
      show (replaySpec (fun x => if x = b then v else store x)
          (cs ++ Command.read a :: post)).1[countReads cs]? = _
      rw [this]
      simp only [lastWrite]
      cases lastWrite a cs with
      | some w => rfl
      | none =>
        by_cases hx : a = b
        · subst hx; simp
        · have hx' : ¬ b = a := fun e => hx e.symm
          simp [hx, hx']

theorem exists_first_exit (cmds : List Command) (h : Command.exit ∈ cmds) :
    ∃ pre post, cmds = pre ++ Command.exit :: post ∧ Command.exit ∉ pre := by
  induction cmds with
  | nil => cases h
  | cons c cs ih =>
    by_cases hc : c = Command.exit
    · exact ⟨[], cs, by simp [hc], by simp⟩
    · have hcs : Command.exit ∈ cs := by
        rcases List.mem_cons.1 h with e | e
        · exact absurd e.symm hc
        · exact e
      obtain ⟨pre, post, e, hn⟩ := ih hcs
      refine ⟨c :: pre, post, by simp [e], ?_⟩
      intro hm
      rcases List.mem_cons.1 hm with e' | e'
      · exact hc e'.symm
      · exact hn e'

/-- The server on a stream whose first EXIT follows the commands `pre`: whatever
cells come after the EXIT word are never looked at. -/
theorem memoryProcess_until_exit (store : Int → Int) (pre : List Command) (tail : List Int)
    (hr : ∀ c ∈ pre, c.inRange = true) (hne : Command.exit ∉ pre) :
    (memoryProcess store (encodeAll pre ++ exitStatus :: tail)).memoryToCPU =
      (replaySpec store pre).1 ∧
    (memoryProcess store (encodeAll pre ++ exitStatus :: tail)).memoryArray =
      (replaySpec store pre).2 ∧
    (memoryProcess store (encodeAll pre ++ exitStatus :: tail)).ending = ServerEnd.exited := by
  obtain ⟨h1, h2, h3⟩ := memoryProcess_encodeAll pre store (exitStatus :: tail) hr hne
  rw [memoryProcess_exit] at h1 h2 h3
  exact ⟨by simpa using h1, h2, h3⟩

theorem memoryProcess_nil (store : Int → Int) :
    memoryProcess store [] =
      { memoryArray := store, memoryToCPU := [], ending := ServerEnd.starved } := rfl

/-! ## C11 -/

/-- C11: kernel entry and SysReturn are inverse.  (Timer) If the instruction of a
step leaves the user registers at `PC = s1.PC`, `SP = s1.SP` and the timer
interrupt is taken, and the next instruction executed (at the handler entry
1000) is SysReturn whose own timer check does not fire, then afterwards the
mode is USER, `PC = s1.PC` and `SP = s1.SP`.  (SysCall) If SysCall is executed
in user mode at address `s.PC` with `SP = s.SP`, and the next instruction
executed (at the entry 1500) is SysReturn whose own timer check does not fire,
then afterwards the mode is USER, `PC = s.PC + 1` and `SP = s.SP`.  Both cases
are restored by the same case 30. -/
theorem C11_entry_then_sysreturn (N : Int) (r r2 : Nat) (s : State) :
    (∀ s1 s2, fetchExecute r s = Outcome.ok s1 → timerFires N s1 = true →
      step N r s = Outcome.ok s2 → s2.memoryArray s2.PC = 30 →
      validateTimerInterrupt N (wrap32 (s2.timer + 1)) false = some false →
      s2.PC = 1000 ∧
      ∃ s3, step N r2 s2 = Outcome.ok s3 ∧
        s3.kernelMode = false ∧ s3.PC = s1.PC ∧ s3.SP = s1.SP) ∧
    (∀ s2, s.kernelMode = false → s.memoryArray s.PC = 29 →
      step N r s = Outcome.ok s2 → s2.memoryArray s2.PC = 30 →
      validateTimerInterrupt N (wrap32 (s2.timer + 1)) false = some false →
      s2.PC = 1500 ∧
      ∃ s3, step N r2 s2 = Outcome.ok s3 ∧
        s3.kernelMode = false ∧ s3.PC = s.PC + 1 ∧ s3.SP = s.SP) := by
  constructor
  · intro s1 s2 hfe hf hstep hop hq
    rw [step_eq_timerCheck N r s s1 hfe, timerCheck_of_fires N s1 hf] at hstep
    injection hstep with hstep
    subst hstep
    refine ⟨rfl, ?_⟩
    have hb := fetchExecute_case30 r2 _ valid_kernel_1000 hop valid_kernel_1998
      valid_kernel_1999
    have hst := step_quiet N r2 _ _ hb hq
    refine ⟨_, hst, rfl, ?_, ?_⟩
    · simp
    · simp
  · intro s2 hmode hop hstep hop2 hq
    obtain ⟨hv, ⟨h50, _⟩ | ⟨_, s1, hfe, htc⟩⟩ := step_ok N r s s2 hstep
    · omega
    · rw [fetchExecute_case29 r s hv hop] at hfe
      injection hfe with hfe
      subst hfe
      have := timerCheck_kernel N _ s2 rfl htc
      subst this
      refine ⟨rfl, ?_⟩
      have hb := fetchExecute_case30 r2 _ valid_kernel_1500 hop2 valid_kernel_1998
        valid_kernel_1999
      have hst := step_quiet N r2 _ _ hb hq
      refine ⟨_, hst, rfl, ?_, ?_⟩
      · simp
      · simp

/-- C11 at `timerReturnState` with period 5 (timer entry, then SysReturn) and at
`sysCallReturnState` with period 10 (SysCall, then SysReturn). -/
theorem C11_witness :
    (∃ s3, step 5 0 (step 5 0 timerReturnState).state = Outcome.ok s3 ∧
      s3.kernelMode = false ∧ s3.PC = 1 ∧ s3.SP = 1000) ∧
    (∃ s3, step 10 0 (step 10 0 sysCallReturnState).state = Outcome.ok s3 ∧
      s3.kernelMode = false ∧ s3.PC = 3 + 1 ∧ s3.SP = 1000) :=
  ⟨((C11_entry_then_sysreturn 5 0 0 timerReturnState).1
      (fetchExecute 0 timerReturnState).state (step 5 0 timerReturnState).state
      rfl (by decide) rfl (by decide) (by decide)).2,
   ((C11_entry_then_sysreturn 10 0 0 sysCallReturnState).2
      (step 10 0 sysCallReturnState).state rfl rfl rfl (by decide) (by decide)).2⟩

/-! ## C12 -/

/-- C12 (amended): executing Call (opcode 23) at address `p = s.PC` with
`SP = s.SP` and immediate `K = memoryArray[p + 1]`, with all accesses valid and
no timer interrupt firing, sets `SP` to `s.SP - 1`, stores in
`memoryArray[s.SP - 1]` the address of the immediate, `p + 1`, and sets `PC` to
the operand cell as read after that store: to `K` whenever the stack slot is not
the operand cell itself. -/
theorem C12_call (N : Int) (r : Nat) (s : State)
    (hv : validateAddressAccess s.PC s.kernelMode = true) (hop : s.memoryArray s.PC = 23)
    (hstack : validateAddressAccess (s.SP - 1) s.kernelMode = true)
    (himm : validateAddressAccess (s.PC + 1) s.kernelMode = true)
    (hquiet : validateTimerInterrupt N (wrap32 (s.timer + 1)) s.kernelMode = some false) :
    ∃ s2, step N r s = Outcome.ok s2 ∧
      s2.SP = s.SP - 1 ∧ s2.memoryArray (s.SP - 1) = s.PC + 1 ∧
      s2.PC = s2.memoryArray (s.PC + 1) ∧
      (s.SP - 1 ≠ s.PC + 1 → s2.PC = s.memoryArray (s.PC + 1)) := by
  have hst := step_quiet N r s _ (fetchExecute_case23 r s hv hop hstack himm) hquiet
  refine ⟨_, hst, rfl, ?_, ?_, ?_⟩
  · simp
  · by_cases h : s.PC + 1 = s.SP - 1 <;> simp [h]
  · intro h
    have h' : ¬ s.PC + 1 = s.SP - 1 := fun e => h e.symm
    simp [h']

/-- C12 as stated fails: `Call 10` at address 0 with `SP = 1000` runs through
without a timer interrupt and stores 1, the address of the immediate, in cell
999, not `0 + 2`. -/
theorem C12_counterexample :
    callState.memoryArray callState.PC = 23 ∧ callState.PC = 0 ∧ callState.SP = 1000 ∧
    timerFires 1000 (fetchExecute 0 callState).state = false ∧
    (step 1000 0 callState).isOk = true ∧
    (step 1000 0 callState).state.SP = 999 ∧ (step 1000 0 callState).state.PC = 10 ∧
    (step 1000 0 callState).state.memoryArray 999 = 1 ∧
    (step 1000 0 callState).state.memoryArray 999 ≠ callState.PC + 2 := by
  decide

/-- C12 (amended) at `callState` with period 1000. -/
theorem C12_witness :
    ∃ s2, step 1000 0 callState = Outcome.ok s2 ∧
      s2.SP = 1000 - 1 ∧ s2.memoryArray (1000 - 1) = 0 + 1 ∧
      s2.PC = s2.memoryArray (0 + 1) ∧
      (callState.SP - 1 ≠ callState.PC + 1 → s2.PC = 10) :=
  C12_call 1000 0 callState (by decide) rfl (by decide) (by decide) (by decide)

/-! ## C13 -/

/-- C13: Call and Return match.  If Call (23) executes at address `p = s.PC` with
`SP = s.SP` (all accesses valid, timer quiet), then the step runs through, and
for every later state `t` in the same mode in which Return (24) executes with
`SP = s.SP - 1` while `memoryArray[s.SP - 1]` still holds the value Call stored,
timer quiet again, the Return step runs through and leaves `SP = s.SP` and
`PC = p + 2`, the address of the instruction after the Call's immediate. -/
theorem C13_call_return (N : Int) (r r2 : Nat) (s : State)
    (hv : validateAddressAccess s.PC s.kernelMode = true) (hop : s.memoryArray s.PC = 23)
    (hstack : validateAddressAccess (s.SP - 1) s.kernelMode = true)
    (himm : validateAddressAccess (s.PC + 1) s.kernelMode = true)
    (hquiet : validateTimerInterrupt N (wrap32 (s.timer + 1)) s.kernelMode = some false) :
    ∃ s2, step N r s = Outcome.ok s2 ∧
      ∀ t : State, t.kernelMode = s.kernelMode →
        validateAddressAccess t.PC t.kernelMode = true → t.memoryArray t.PC = 24 →
        t.SP = s.SP - 1 → t.memoryArray (s.SP - 1) = s2.memoryArray (s.SP - 1) →
        validateTimerInterrupt N (wrap32 (t.timer + 1)) t.kernelMode = some false →
        ∃ t2, step N r2 t = Outcome.ok t2 ∧ t2.SP = s.SP ∧ t2.PC = s.PC + 2 := by
  have hst := step_quiet N r s _ (fetchExecute_case23 r s hv hop hstack himm) hquiet
  refine ⟨_, hst, ?_⟩
  intro t hmode hvt hopt hsp hmem hqt
  have hspv : validateAddressAccess t.SP t.kernelMode = true := by
    rw [hsp, hmode]; exact hstack
  have hst2 := step_quiet N r2 t _ (fetchExecute_case24 r2 t hvt hopt hspv) hqt
  refine ⟨_, hst2, ?_, ?_⟩
  · show t.SP + 1 = s.SP
    rw [hsp]; omega
  · show wrap32 (t.memoryArray t.SP + 1) = s.PC + 2
    rw [hsp, hmem]
    have hb := validateAddressAccess_bounds hv
    simp only [if_true]
    rw [wrap32_of_int (by omega) (by omega)]
    omega

/-- C13 at `callState` with period 1000: Call at 0, then Return at the call target
10, in the state the Call left. -/
theorem C13_witness :
    ∃ t2, step 1000 0 (step 1000 0 callState).state = Outcome.ok t2 ∧
      t2.SP = 1000 ∧ t2.PC = 0 + 2 := by
  obtain ⟨s2, h2, hret⟩ :=
    C13_call_return 1000 0 0 callState (by decide) rfl (by decide) (by decide) (by decide)
  have e : s2 = (step 1000 0 callState).state := by rw [h2]; rfl
  subst e
  exact hret (step 1000 0 callState).state rfl (by decide) (by decide) (by decide) rfl
    (by decide)

/-! ## C14 -/

/-- C14: for every state with `AC = s.AC` and `SP = s.SP` in which PushAC (27)
executes and the very next instruction executed is PopAC (28), with `s.SP - 1`
valid for the mode and no timer interrupt firing at either step, both steps run
through and the state after them has `AC = s.AC`, `SP = s.SP`,
`memoryArray[s.SP - 1] = s.AC` and `PC = s.PC + 2`. -/
theorem C14_push_pop (N : Int) (r r2 : Nat) (s : State)
    (hv : validateAddressAccess s.PC s.kernelMode = true) (hop : s.memoryArray s.PC = 27)
    (hstack : validateAddressAccess (s.SP - 1) s.kernelMode = true)
    (hquiet : validateTimerInterrupt N (wrap32 (s.timer + 1)) s.kernelMode = some false)
    (hv2 : validateAddressAccess (s.PC + 1) s.kernelMode = true)
    (hnext : ∀ s2, step N r s = Outcome.ok s2 → s2.memoryArray s2.PC = 28)
    (hquiet2 : validateTimerInterrupt N (wrap32 (wrap32 (s.timer + 1) + 1)) s.kernelMode
      = some false) :
    ∃ s2 s3, step N r s = Outcome.ok s2 ∧ step N r2 s2 = Outcome.ok s3 ∧
      s3.AC = s.AC ∧ s3.SP = s.SP ∧ s3.memoryArray (s.SP - 1) = s.AC ∧
      s3.PC = s.PC + 2 := by
  have hst := step_quiet N r s _ (fetchExecute_case27 r s hv hop hstack) hquiet
  have hop2 := hnext _ hst
  have hst2 := step_quiet N r2 _ _ (fetchExecute_case28 r2 _ hv2 hop2 hstack) hquiet2
  refine ⟨_, _, hst, hst2, ?_, ?_, ?_, ?_⟩
  · simp
  · show s.SP - 1 + 1 = s.SP
    omega
  · simp
  · show s.PC + 1 + 1 = s.PC + 2
    omega

/-- C14 at `pushPopState` with period 1000. -/
theorem C14_witness :
    ∃ s2 s3, step 1000 0 pushPopState = Outcome.ok s2 ∧ step 1000 0 s2 = Outcome.ok s3 ∧
      s3.AC = 7 ∧ s3.SP = 1000 ∧ s3.memoryArray (1000 - 1) = 7 ∧ s3.PC = 0 + 2 :=
  C14_push_pop 1000 0 0 pushPopState (by decide) rfl (by decide) (by decide) (by decide)
    (fun s2 h => by
      have e : s2 = (step 1000 0 pushPopState).state := by rw [h]; rfl
      subst e
      decide)
    (by decide)

/-! ## C15 -/

/-- C15: for every value `v` and every address `A` valid for the current mode that
is not one of the six cells `p .. p + 5` holding the instructions, executing
`LoadValue v` (1, v), `Store A` (7, A), `LoadAddr A` (2, A) from `p = s.PC` with
no timer interrupt firing runs through and leaves `AC = v` and
`memoryArray[A] = v`, whatever `AC` and `memoryArray[A]` held before. -/
theorem C15_load_store_load (N : Int) (r1 r2 r3 : Nat) (s : State) (v A : Int)
    (hv : validateAddressAccess s.PC s.kernelMode = true)
    (hv5 : validateAddressAccess (s.PC + 5) s.kernelMode = true)
    (h0 : s.memoryArray s.PC = 1) (h1 : s.memoryArray (s.PC + 1) = v)
    (h2 : s.memoryArray (s.PC + 2) = 7) (h3 : s.memoryArray (s.PC + 3) = A)
    (h4 : s.memoryArray (s.PC + 4) = 2) (h5 : s.memoryArray (s.PC + 5) = A)
    (hA : validateAddressAccess A s.kernelMode = true) (hout : A < s.PC ∨ s.PC + 5 < A)
    (hq1 : validateTimerInterrupt N (wrap32 (s.timer + 1)) s.kernelMode = some false)
    (hq2 : validateTimerInterrupt N (wrap32 (wrap32 (s.timer + 1) + 1)) s.kernelMode
      = some false)
    (hq3 : validateTimerInterrupt N (wrap32 (wrap32 (wrap32 (s.timer + 1) + 1) + 1))
      s.kernelMode = some false) :
    ∃ s1 s2 s3, step N r1 s = Outcome.ok s1 ∧ step N r2 s1 = Outcome.ok s2 ∧
      step N r3 s2 = Outcome.ok s3 ∧ s3.AC = v ∧ s3.memoryArray A = v := by
  have e3 : s.PC + 2 + 1 = s.PC + 3 := by omega
  have e4 : s.PC + 2 + 2 = s.PC + 4 := by omega
  have e5 : s.PC + 4 + 1 = s.PC + 5 := by omega
  have v1 := valid_between hv hv5 (show s.PC ≤ s.PC + 1 by omega) (by omega)
  have v2 := valid_between hv hv5 (show s.PC ≤ s.PC + 2 by omega) (by omega)
  have v3 := valid_between hv hv5 (show s.PC ≤ s.PC + 3 by omega) (by omega)
  have v4 := valid_between hv hv5 (show s.PC ≤ s.PC + 4 by omega) (by omega)
  have n4 : ¬ s.PC + 4 = A := by omega
  have n5 : ¬ s.PC + 5 = A := by omega
  obtain ⟨s1, st1, p1, a1, k1, m1, t1⟩ := step_loadValue N r1 s hv h0 v1 hq1
  obtain ⟨s2, st2, p2, a2, k2, m2, t2⟩ := step_store N r2 s1
    (by rw [p1, k1]; exact v2) (by rw [p1, m1]; exact h2)
    (by rw [p1, k1, e3]; exact v3) (by rw [p1, k1, m1, e3, h3]; exact hA)
    (by rw [t1, k1]; exact hq2)
  rw [p1, m1, e3, h3, a1, h1] at m2
  rw [p1, e4] at p2
  obtain ⟨s3, st3, _, a3, _, m3, _⟩ := step_loadAddr N r3 s2
    (by rw [p2, k2, k1]; exact v4) (by rw [p2, m2, if_neg n4]; exact h4)
    (by rw [p2, k2, k1, e5]; exact hv5)
    (by rw [p2, k2, k1, e5, m2, if_neg n5, h5]; exact hA)
    (by rw [t2, t1, k2, k1]; exact hq3)
  refine ⟨s1, s2, s3, st1, st2, st3, ?_, ?_⟩
  · rw [a3, p2, e5, m2 (s.PC + 5), if_neg n5, h5, m2 A, if_pos rfl]
  · rw [m3, m2 A, if_pos rfl]

/-- C15 at `storeLoadState` (`v = 42`, `A = 500`, previous `AC = 9`, previous cell
value 8) with period 1000. -/
theorem C15_witness :
    ∃ s1 s2 s3, step 1000 0 storeLoadState = Outcome.ok s1 ∧
      step 1000 0 s1 = Outcome.ok s2 ∧ step 1000 0 s2 = Outcome.ok s3 ∧
      s3.AC = 42 ∧ s3.memoryArray 500 = 42 :=
  C15_load_store_load 1000 0 0 0 storeLoadState 42 500 (by decide) (by decide)
    rfl rfl rfl rfl rfl rfl (by decide) (by decide) (by decide) (by decide) (by decide)

/-! ## C16 -/

/-- C17: PC discipline.  For every step at address `p = s.PC` that runs through
without the timer interrupt firing, the `PC` afterwards is `p + 2` for each
non-jumping opcode that takes an immediate (1, 2, 3, 4, 5, 7, 9) and `p + 1` for
each non-jumping opcode without an immediate (6, 8, 10-19, 25, 26, 27, 28). -/
theorem C17_pc_discipline (N : Int) (r : Nat) (s s2 : State)
    (h : step N r s = Outcome.ok s2)
    (hquiet : timerFires N (fetchExecute r s).state = false) :
    (s.memoryArray s.PC ∈ [1, 2, 3, 4, 5, 7, 9] → s2.PC = s.PC + 2) ∧
    (s.memoryArray s.PC ∈ [6, 8, 10, 11, 12, 13, 14, 15, 16, 17, 18, 19, 25, 26, 27, 28] →
      s2.PC = s.PC + 1) := by
  by_cases h50 : s.memoryArray s.PC = 50
  · rw [h50]; constructor <;> intro hm <;> simp at hm
  · obtain ⟨hv, s1, he, hs2⟩ := step_ok_quiet N r s s2 h h50 hquiet
    have hb := validateAddressAccess_bounds hv
    obtain ⟨hA, hB⟩ := execute_pc r _ _ he
    subst hs2
    constructor
    · intro hm
      have := hA hm
      show s1.PC = s.PC + 2
      rw [this]
      show wrap32 (wrap32 (s.PC + 1) + 1) = s.PC + 2
      rw [wrap32_succ_of_valid hv, wrap32_of_int (by omega) (by omega)]
      omega
    · intro hm
      have := hB hm
      show s1.PC = s.PC + 1
      rw [this]
      exact wrap32_succ_of_valid hv

/-- C17 at `storeLoadState` with period 1000: LoadValue at 0 leaves `PC = 2`. -/
theorem C17_witness : (step 1000 0 storeLoadState).state.PC = 0 + 2 :=
  (C17_pc_discipline 1000 0 storeLoadState (step 1000 0 storeLoadState).state rfl
    (by decide)).1 (by decide)

/-! ## C18 -/

/-- C19: for every initial store and every command stream with in-range
addresses, the memory server's reply stream and final store are exactly the
result of replaying the commands against the store (`replaySpec`): one reply
cell per READ, in order, no reply for WRITE or EXIT, a WRITE changing only its
own cell, a READ changing none.  The loop ends by EXIT exactly when the stream
holds an EXIT; processing stops at the first EXIT word, whatever cells follow
it.  Each reply equals the value most recently written to the address by the
commands before the READ, or the initial value if there is none; and without
an EXIT there are as many replies as READs. -/
theorem C19_memory_server_replay (store : Int → Int) (cmds : List Command)
    (hr : ∀ c ∈ cmds, c.inRange = true) :
    (memoryProcess store (encodeAll cmds)).memoryToCPU = (replaySpec store cmds).1 ∧
    (memoryProcess store (encodeAll cmds)).memoryArray = (replaySpec store cmds).2 ∧
    (memoryProcess store (encodeAll cmds)).ending =
      (if Command.exit ∈ cmds then ServerEnd.exited else ServerEnd.starved) ∧
    (∀ pre post tail, cmds = pre ++ Command.exit :: post → Command.exit ∉ pre →
      (memoryProcess store (encodeAll pre ++ exitStatus :: tail)).memoryToCPU =
        (memoryProcess store (encodeAll cmds)).memoryToCPU ∧
      (memoryProcess store (encodeAll pre ++ exitStatus :: tail)).memoryArray =
        (memoryProcess store (encodeAll cmds)).memoryArray ∧
      (memoryProcess store (encodeAll pre ++ exitStatus :: tail)).ending = ServerEnd.exited ∧
      (memoryProcess store (encodeAll cmds)).memoryToCPU.length = countReads pre) ∧
    (∀ pre a post, cmds = pre ++ Command.read a :: post → Command.exit ∉ pre →
      (memoryProcess store (encodeAll cmds)).memoryToCPU[countReads pre]? =
        some ((lastWrite a pre).getD (store a))) ∧
    (Command.exit ∉ cmds →
      (memoryProcess store (encodeAll cmds)).memoryToCPU.length = countReads cmds ∧
      ∀ a, (memoryProcess store (encodeAll cmds)).memoryArray a =
        (lastWrite a cmds).getD (store a)) := by
  have main : (memoryProcess store (encodeAll cmds)).memoryToCPU = (replaySpec store cmds).1 ∧
      (memoryProcess store (encodeAll cmds)).memoryArray = (replaySpec store cmds).2 ∧
      (memoryProcess store (encodeAll cmds)).ending =
        (if Command.exit ∈ cmds then ServerEnd.exited else ServerEnd.starved) := by
    by_cases hex : Command.exit ∈ cmds
    · obtain ⟨pre, post, e, hn⟩ := exists_first_exit cmds hex
      have hrp : ∀ c ∈ pre, c.inRange = true :=
        fun c hc => hr c (by rw [e]; exact List.mem_append_left _ hc)
      have henc : encodeAll cmds = encodeAll pre ++ exitStatus :: encodeAll post := by
        rw [e, encodeAll_append]; rfl
      obtain ⟨h1, h2, h3⟩ := memoryProcess_until_exit store pre (encodeAll post) hrp hn
      rw [if_pos hex, henc, h1, h2, h3, e, replaySpec_append_exit pre store post hn]
      exact ⟨rfl, rfl, rfl⟩
    · obtain ⟨h1, h2, h3⟩ := memoryProcess_encodeAll cmds store [] hr hex
      rw [List.append_nil] at h1 h2 h3
      rw [if_neg hex, h1, h2, h3, memoryProcess_nil]
      exact ⟨List.append_nil _, rfl, rfl⟩
  obtain ⟨m1, m2, m3⟩ := main
  refine ⟨m1, m2, m3, ?_, ?_, ?_⟩
  · intro pre post tail e hn
    have hrp : ∀ c ∈ pre, c.inRange = true :=
      fun c hc => hr c (by rw [e]; exact List.mem_append_left _ hc)
    obtain ⟨h1, h2, h3⟩ := memoryProcess_until_exit store pre tail hrp hn
    have hrep : replaySpec store cmds = replaySpec store pre := by
      rw [e]; exact replaySpec_append_exit pre store post hn
    rw [h1, h2, h3, m1, m2, hrep]
    exact ⟨rfl, rfl, rfl, (replaySpec_lastWrite pre store hn).1⟩
  · intro pre a post e hn
    rw [m1, e]
    exact replaySpec_reply pre store a post hn
  · intro hn
    rw [m1, m2]
    exact replaySpec_lastWrite cmds store hn

/-- C19 on the stream READ 3, WRITE 3 9, READ 3, EXIT, READ 1 over a store of
fives: the replies are 5 and 9, and the READ after the EXIT is never served. -/
theorem C19_witness :
    (memoryProcess (fun _ => 5)
      (encodeAll [Command.read 3, Command.write 3 9, Command.read 3, Command.exit,
        Command.read 1])).memoryToCPU = [5, 9] :=
  (C19_memory_server_replay (fun _ => 5)
    [Command.read 3, Command.write 3 9, Command.read 3, Command.exit, Command.read 1]
    (by decide)).1

/-! ## C20 -/

/-- C20 (amended): the command words of the channel protocol are 82 for READ and
87 for WRITE, the ASCII code points of the capital letters R and W, and 99 for
EXIT; the CPU and the memory server use the same three values: the server
answers the cells of a CPU read request with the addressed cell, applies the
cells of a CPU write request to its store, and leaves its loop on the cells the
CPU emits for opcode 50. -/
theorem C20_command_words :
    getReadStatus = 82 ∧ getWriteStatus = 87 ∧ exitStatus = 99 ∧
    getReadStatus = (('R' : Char).toNat : Int) ∧
    getWriteStatus = (('W' : Char).toNat : Int) ∧
    (∀ (s : State) (ptr : Int), 0 ≤ ptr → ptr < 2000 →
      (memoryProcess s.memoryArray
        (Event.cells (Event.statusPtr getReadStatus ptr s.kernelMode))).memoryToCPU
        = [s.memoryArray ptr]) ∧
    (∀ (s : State) (ptr value : Int), 0 ≤ ptr → ptr < 2000 →
      (memoryProcess s.memoryArray
        (Event.cells (Event.statusPtrValue getWriteStatus ptr value s.kernelMode))).memoryArray
        ptr = value) ∧
    (∀ (N : Int) (r : Nat) (s : State), validateAddressAccess s.PC s.kernelMode = true →
      s.memoryArray s.PC = 50 →
      ∃ s2, step N r s = Outcome.ok s2 ∧
        s2.cpuToMemory = s.cpuToMemory ++
          [Event.statusPtr getReadStatus s.PC s.kernelMode,
           Event.statusPtr 99 0 s.kernelMode] ∧
        (memoryProcess s2.memoryArray
          (Event.cells (Event.statusPtr 99 0 s.kernelMode))).ending = ServerEnd.exited) := by
  refine ⟨rfl, rfl, rfl, by decide, by decide, ?_, ?_, ?_⟩
  · intro s ptr h0 h1
    show (memoryProcess s.memoryArray (getReadStatus :: ptr :: [])).memoryToCPU = _
    rw [memoryProcess_read _ _ _ h0 h1]
    rfl
  · intro s ptr value h0 h1
    show (memoryProcess s.memoryArray (getWriteStatus :: ptr :: value :: [])).memoryArray ptr = _
    rw [memoryProcess_write _ _ _ _ h0 h1, memoryProcess_nil]
    simp
  · intro N r s hv hop
    rw [step_of_fetch N r s hv, if_pos hop]
    refine ⟨_, rfl, ?_, rfl⟩
    simp [pipeReadStatusAndPTR, fetched, exitStatus]

/-- C20 as stated fails: the READ word is 82, not the code point 114 of the
letter r, and the WRITE word is 87, not the code point 119 of the letter w. -/
theorem C20_counterexample :
    getReadStatus ≠ (('r' : Char).toNat : Int) ∧
    getWriteStatus ≠ (('w' : Char).toNat : Int) ∧
    (('r' : Char).toNat : Int) = 114 ∧ (('w' : Char).toNat : Int) = 119 := by
  decide

/-! ## Unknown opcodes, and the memory frame of the instruction bodies -/

/-- Outside 1..30 the dispatch of `execute` reaches the `default` label. -/
theorem execute_default (r : Nat) (s : State) (h : s.IR < 1 ∨ 30 < s.IR) :
    execute r s = Outcome.fault Fault.noCase s := by
  apply execute_cases r s (fun o => o = Outcome.fault Fault.noCase s)
  all_goals intro hIR
  all_goals first
    | rfl
    | (exfalso; omega)

/-- Which cells an instruction body can change, and which bodies write at all. -/
theorem execute_memory (r : Nat) (s s1 : State) (h : execute r s = Outcome.ok s1) :
    (s.IR = 7 → ∃ t, validateAddressAccess (wrap32 (s.PC + 1)) s.kernelMode = true ∧
      t = s.memoryArray (wrap32 (s.PC + 1)) ∧
      ∀ a, a ≠ t → s1.memoryArray a = s.memoryArray a) ∧
    (s.IR = 23 ∨ s.IR = 27 → s1.SP = wrap32 (s.SP - 1) ∧
      ∀ a, a ≠ wrap32 (s.SP - 1) → s1.memoryArray a = s.memoryArray a) ∧
    (s.IR = 29 → ∀ a, a ≠ 1998 → a ≠ 1999 → s1.memoryArray a = s.memoryArray a) ∧
    (s.IR ≠ 7 → s.IR ≠ 23 → s.IR ≠ 27 → s.IR ≠ 29 →
      s1.memoryArray = s.memoryArray ∧
      ∃ new, s1.cpuToMemory = s.cpuToMemory ++ new ∧
        ∀ e ∈ new, e.status = getReadStatus) := by
  revert h
  apply execute_cases r s (fun o => o = Outcome.ok s1 →
    (s.IR = 7 → ∃ t, validateAddressAccess (wrap32 (s.PC + 1)) s.kernelMode = true ∧
      t = s.memoryArray (wrap32 (s.PC + 1)) ∧
      ∀ a, a ≠ t → s1.memoryArray a = s.memoryArray a) ∧
    (s.IR = 23 ∨ s.IR = 27 → s1.SP = wrap32 (s.SP - 1) ∧
      ∀ a, a ≠ wrap32 (s.SP - 1) → s1.memoryArray a = s.memoryArray a) ∧
    (s.IR = 29 → ∀ a, a ≠ 1998 → a ≠ 1999 → s1.memoryArray a = s.memoryArray a) ∧
    (s.IR ≠ 7 → s.IR ≠ 23 → s.IR ≠ 27 → s.IR ≠ 29 →
      s1.memoryArray = s.memoryArray ∧
      ∃ new, s1.cpuToMemory = s.cpuToMemory ++ new ∧
        ∀ e ∈ new, e.status = getReadStatus))
  all_goals intro hIR h
  all_goals try simp only [case1, case2, case3, case4, case5, case6, case7, case8, case9, case10,
    case11, case12, case13, case14, case15, case16, case17, case18, case19, case20,
    case21, case22, case23, case24, case25, case26, case27, case28, case29, case30,
    checkedRead_eq, checkedWrite_eq, pipeReadStatusAndPTR, pipeAddressToStack] at h
  all_goals repeat' split at h
  all_goals first
    | (injection h with h; subst h
       simp only [hIR, List.append_assoc, showAC_cpuToMemory, showAC_memoryArray, showAC_SP]
       refine ⟨?_, ?_, ?_, ?_⟩
       all_goals first
         | (intro hc; exfalso; revert hc; decide)
         | (intro c1 c2 c3 c4; first
              | (exfalso; revert c1 c2 c3 c4; decide)
              | (constructor
                 · trivial
                 · first
                     | exact ⟨[], (List.append_nil _).symm,
                         fun e he => absurd he (List.not_mem_nil e)⟩
                     | (refine ⟨_, rfl, ?_⟩; simp [Event.status])))
         | (intro _; refine ⟨_, ?_, rfl, fun a ha => ?_⟩
            · assumption
            · simp [ha])
         | (intro _ a h1 h2; simp [h1, h2, getMaxSystemCodeEntry, wrap32_top])
         | (intro _; refine ⟨?_, fun a ha => ?_⟩
            · trivial
            · simp [ha]))
    | cases h

/-- The timer tail stops on a division fault only when the check is undefined. -/
theorem timerCheck_eq_fault_iff (N : Int) (s sf : State) :
    timerCheck N s = Outcome.fault Fault.divideFault sf ↔
      validateTimerInterrupt N (wrap32 (s.timer + 1)) s.kernelMode = none ∧
        sf = { s with timer := wrap32 (s.timer + 1) } := by
  rcases hv : validateTimerInterrupt N (wrap32 (s.timer + 1)) s.kernelMode with _ | b
  · rw [timerCheck_of_undefined N s hv]
    constructor
    · intro h; injection h with _ h; exact ⟨rfl, h.symm⟩
    · rintro ⟨_, h⟩; rw [h]
  · constructor
    · intro h
      cases b
      · rw [timerCheck_of_not_fires N s hv] at h; cases h
      · rw [timerCheck_of_fires N s (by simp [timerFires, hv])] at h; cases h
    · rintro ⟨h, _⟩; cases h

/-! ## Commands other than the exit word -/

theorem OnlyAccess_refl (s : State) : OnlyAccess s (Outcome.ok s) :=
  ⟨[], by simp [Outcome.state], fun e he => absurd he (List.not_mem_nil e)⟩

theorem OnlyAccess_andThen (s : State) (o : Outcome) (f : State → Outcome)
    (ho : OnlyAccess s o) (hf : ∀ s1, o = Outcome.ok s1 → OnlyAccess s1 (f s1)) :
    OnlyAccess s (o.andThen f) := by
  cases o with
  | fault e s1 => exact ho
  | ok s1 =>
    obtain ⟨l1, h1, c1⟩ := ho
    obtain ⟨l2, h2, c2⟩ := hf s1 rfl
    simp only [Outcome.state] at h1
    refine ⟨l1 ++ l2, ?_, ?_⟩
    · show (f s1).state.cpuToMemory = _
      rw [h2, h1, List.append_assoc]
    · intro e he
      rcases List.mem_append.1 he with he | he
      · exact c1 e he
      · exact c2 e he

/-- Instruction bodies put only READ and WRITE commands on the pipe. -/
theorem execute_access (r : Nat) (s : State) : OnlyAccess s (execute r s) := by
  apply execute_cases r s (fun o => OnlyAccess s o)
  all_goals intro hIR
  all_goals try simp only [case1, case2, case3, case4, case5, case6, case7, case8, case9, case10,
    case11, case12, case13, case14, case15, case16, case17, case18, case19, case20,
    case21, case22, case23, case24, case25, case26, case27, case28, case29, case30,
    checkedRead_eq, checkedWrite_eq, pipeReadStatusAndPTR, pipeAddressToStack]
  all_goals repeat' split
  all_goals simp only [OnlyAccess, Outcome.state, List.append_assoc, showAC_cpuToMemory]
  all_goals first
    | exact ⟨[], (List.append_nil _).symm, fun e he => absurd he (List.not_mem_nil e)⟩
    | (refine ⟨_, rfl, ?_⟩
       simp [Event.isAccess, Event.status, getReadStatus, getWriteStatus])

theorem timerCheck_access (N : Int) (s : State) : OnlyAccess s (timerCheck N s) := by
  rcases timerCheck_cases N s with ⟨_, h⟩ | ⟨_, h⟩ | ⟨_, h⟩ <;> rw [h]
  · refine ⟨_, rfl, ?_⟩
    simp [Event.isAccess, Event.status, getReadStatus, getWriteStatus]
  · exact ⟨[], by simp [Outcome.state], fun e he => absurd he (List.not_mem_nil e)⟩
  · exact ⟨[], by simp [Outcome.state], fun e he => absurd he (List.not_mem_nil e)⟩

/-- A step either is an End, which appends the fetch READ and the exit call, or
puts only READ and WRITE commands on the pipe. -/
theorem step_exit_or_access (N : Int) (r : Nat) (s : State) :
    (validateAddressAccess s.PC s.kernelMode = true ∧ s.memoryArray s.PC = 50 ∧
      step N r s = Outcome.ok (pipeReadStatusAndPTR (fetched s) 0 exitStatus)) ∨
    ((validateAddressAccess s.PC s.kernelMode = true → s.memoryArray s.PC ≠ 50) ∧
      OnlyAccess s (step N r s)) := by
  cases hv : validateAddressAccess s.PC s.kernelMode
  · right
    rw [step_of_fetch_fails N r s hv]
    refine ⟨fun h => ?_, [], ?_, fun e he => absurd he (List.not_mem_nil e)⟩
    · cases h
    · simp [Outcome.state]
  · rw [step_of_fetch N r s hv]
    by_cases h50 : s.memoryArray s.PC = 50
    · left
      rw [if_pos h50]
      exact ⟨rfl, h50, rfl⟩
    · right
      rw [if_neg h50]
      refine ⟨fun _ => h50, ?_⟩
      have hf : OnlyAccess s (Outcome.ok (fetched s)) :=
        ⟨[Event.statusPtr getReadStatus s.PC s.kernelMode], rfl,
          fun e he => by rw [List.mem_singleton.1 he]; rfl⟩
      have := OnlyAccess_andThen s (Outcome.ok (fetched s))
        (fun s1 => (execute r s1).andThen (timerCheck N)) hf (fun s1 _ =>
          OnlyAccess_andThen s1 _ _ (execute_access r s1) (fun s2 _ => timerCheck_access N s2))
      exact this

theorem cellTrace_append (l1 l2 : List Event) :
    cellTrace (l1 ++ l2) = cellTrace l1 ++ cellTrace l2 := by
  induction l1 with
  | nil => rfl
  | cons e l ih =>
    show e.cells ++ cellTrace (l ++ l2) = (e.cells ++ cellTrace l) ++ cellTrace l2
    rw [ih, List.append_assoc]

/-- The exit call appears at most once in a run, and only as the last call, made
by the End that stopped the loop. -/
theorem cpuLoop_exit (N : Int) (rand : Nat → Nat) (s0 : State)
    (h0 : ∀ e ∈ s0.cpuToMemory, e.isAccess = true) (n : Nat) :
    (∀ e ∈ (cpuLoop N rand n s0).state.cpuToMemory, e.isAccess = true) ∨
    (∃ s pre, cpuLoop N rand n s0 = Outcome.ok s ∧ s.IR = 50 ∧
      s.cpuToMemory = pre ++ [Event.statusPtr exitStatus 0 s.kernelMode] ∧
      ∀ e ∈ pre, e.isAccess = true) := by
  induction n with
  | zero => exact Or.inl h0
  | succ n ih =>
    have hstep : cpuLoop N rand (n + 1) s0 = (cpuLoop N rand n s0).andThen
        (fun s1 => if s1.IR = 50 then Outcome.ok s1 else step N (rand n) s1) := rfl
    cases hc : cpuLoop N rand n s0 with
    | fault e s1 =>
      rw [hc] at ih
      rw [hstep, hc]
      exact ih
    | ok s1 =>
      rw [hc] at ih
      rw [hstep, hc]
      simp only [Outcome.andThen]
      by_cases h50 : s1.IR = 50
      · rw [if_pos h50]
        exact ih
      · rw [if_neg h50]
        rcases ih with ih | ⟨s, pre, hs, hIR, _⟩
        · simp only [Outcome.state] at ih
          rcases step_exit_or_access N (rand n) s1 with ⟨_, _, hx⟩ | ⟨_, new, hn, ha⟩
          · right
            rw [hx]
            refine ⟨_, s1.cpuToMemory ++ [Event.statusPtr getReadStatus s1.PC s1.kernelMode],
              rfl, ?_, rfl, ?_⟩
            · show s1.memoryArray s1.PC = 50
              assumption
            · intro e he
              rcases List.mem_append.1 he with he | he
              · exact ih e he
              · rw [List.mem_singleton.1 he]
                simp [Event.isAccess, Event.status, getReadStatus, getWriteStatus]
          · left
            rw [hn]
            intro e he
            rcases List.mem_append.1 he with he | he
            · exact ih e he
            · exact ha e he
        · injection hs with hs
          subst hs
          exact absurd hIR h50

/-- Once the loop has stopped on an End, further iterations change nothing. -/
theorem cpuLoop_halted (N : Int) (rand : Nat → Nat) (s0 s : State) (n : Nat)
    (h : cpuLoop N rand n s0 = Outcome.ok s) (hIR : s.IR = 50) (m : Nat) :
    cpuLoop N rand (n + m) s0 = Outcome.ok s := by
  induction m with
  | zero => exact h
  | succ m ih =>
    show (cpuLoop N rand (n + m) s0).andThen
      (fun s1 => if s1.IR = 50 then Outcome.ok s1 else step N (rand (n + m)) s1) = _
    rw [ih]
    simp [Outcome.andThen, hIR]

theorem isAccess_ne_exit (e : Event) (h : e.isAccess = true) : e.status ≠ exitStatus := by
  simp only [Event.isAccess, Bool.or_eq_true, beq_iff_eq] at h
  rcases h with h | h <;> rw [h] <;> decide

/-! ## The first iteration of the loop -/

/-- A step whose fetch passes the check puts the READ of the fetch on the pipe
first. -/
theorem step_first_event (N : Int) (r : Nat) (s : State)
    (hv : validateAddressAccess s.PC s.kernelMode = true) :
    ∃ rest, (step N r s).state.cpuToMemory =
      s.cpuToMemory ++ Event.statusPtr getReadStatus s.PC s.kernelMode :: rest := by
  rw [step_of_fetch N r s hv]
  split
  · exact ⟨[Event.statusPtr exitStatus 0 s.kernelMode], by
      simp [Outcome.state, pipeReadStatusAndPTR, fetched]⟩
  · obtain ⟨new, hn, _⟩ := OnlyAccess_andThen (fetched s) _ (timerCheck N)
      (execute_access r (fetched s)) (fun s2 _ => timerCheck_access N s2)
    refine ⟨new, ?_⟩
    rw [hn]
    simp [fetched, pipeReadStatusAndPTR]

/-- A run of at least one iteration entered with `IR ≠ 50` and a fetch address
that passes the check begins with the READ of that address. -/
theorem cpuLoop_first_event (N : Int) (rand : Nat → Nat) (s0 : State)
    (hIR : s0.IR ≠ 50) (hv : validateAddressAccess s0.PC s0.kernelMode = true) (n : Nat) :
    ∃ rest, (cpuLoop N rand (n + 1) s0).state.cpuToMemory =
      s0.cpuToMemory ++ Event.statusPtr getReadStatus s0.PC s0.kernelMode :: rest := by
  induction n with
  | zero =>
    have h1 : cpuLoop N rand (0 + 1) s0 = step N (rand 0) s0 := by
      show (Outcome.ok s0).andThen
        (fun s1 => if s1.IR = 50 then Outcome.ok s1 else step N (rand 0) s1) = _
      simp [Outcome.andThen, hIR]
    rw [h1]
    exact step_first_event N (rand 0) s0 hv
  | succ n ih =>
    obtain ⟨rest, hr⟩ := ih
    obtain ⟨⟨new, hn, _⟩, _⟩ :
        Emits (cpuLoop N rand (n + 1) s0).state (cpuLoop N rand (n + 1 + 1) s0) := by
      show Emits _ ((cpuLoop N rand (n + 1) s0).andThen
        (fun s1 => if s1.IR = 50 then Outcome.ok s1 else step N (rand (n + 1)) s1))
      cases hc : cpuLoop N rand (n + 1) s0 with
      | fault e s1 => exact ⟨⟨[], by simp [Outcome.andThen, Outcome.state], rfl⟩,
          fun s2 h => (cpuLoop_emits N rand (n + 1) s0).2 s2 (by rw [hc]; exact h)⟩
      | ok s1 =>
        show Emits s1 (if s1.IR = 50 then Outcome.ok s1 else step N (rand (n + 1)) s1)
        split
        · exact Emits_refl s1
        · exact step_emits N (rand (n + 1)) s1
    refine ⟨rest ++ new, ?_⟩
    rw [hn, hr]
    simp

/-! ## The loader against the image format -/

theorem utf8Size_pos (c : Char) : 0 < c.utf8Size := Char.utf8Size_pos c

theorem byteLength_append (l1 l2 : List Char) :
    byteLength (l1 ++ l2) = byteLength l1 + byteLength l2 := by
  induction l1 with
  | nil => simp [byteLength]
  | cons c l ih =>
    show c.utf8Size + byteLength (l ++ l2) = c.utf8Size + byteLength l + byteLength l2
    rw [ih]; omega

theorem fgetsChars_line (line rest : List Char) (hnl : '\n' ∉ line) :
    ∀ k, byteLength line < k →
      fgetsChars k (line ++ '\n' :: rest) = some (line ++ ['\n'], rest) := by
  induction line with
  | nil =>
    intro k hk
    have hk0 : k ≠ 0 := by simp [byteLength] at hk; omega
    have h1 : ¬ k < ('\n' : Char).utf8Size := by
      have : ('\n' : Char).utf8Size = 1 := by decide
      omega
    simp [fgetsChars, hk0, h1]
  | cons c l ih =>
    intro k hk
    have hb : byteLength (c :: l) = c.utf8Size + byteLength l := rfl
    have hp := utf8Size_pos c
    have hk0 : k ≠ 0 := by omega
    have h1 : ¬ k < c.utf8Size := by omega
    have hc : c ≠ '\n' := fun h => hnl (by simp [h])
    have hl : '\n' ∉ l := fun h => hnl (List.mem_cons_of_mem _ h)
    have := ih hl (k - c.utf8Size) (by omega)
    simp [fgetsChars, hk0, h1, hc, this]

theorem fgets_line (line rest : List Char) (hnl : '\n' ∉ line)
    (hlen : byteLength line ≤ 254) :
    fgets 256 (line ++ '\n' :: rest) = FgetsResult.stored (line ++ ['\n']) rest := by
  have h := fgetsChars_line line rest hnl 255 (by omega)
  cases line with
  | nil =>
    show (match fgetsChars 255 ('\n' :: rest) with
      | some (line, rest) => FgetsResult.stored line rest
      | none => FgetsResult.splitCharacter) = _
    rw [show fgetsChars 255 ('\n' :: rest) = some (['\n'], rest) from h]
    rfl
  | cons c l =>
    show (match fgetsChars 255 (c :: l ++ '\n' :: rest) with
      | some (line, rest) => FgetsResult.stored line rest
      | none => FgetsResult.splitCharacter) = _
    rw [h]

theorem digit_utf8Size (c : Char) (h : c.isDigit = true) : c.utf8Size = 1 := by
  have h2 : c.val ≤ 57 := by
    simp only [Char.isDigit, Bool.and_eq_true, decide_eq_true_eq] at h
    exact h.2
  have h3 : c.val ≤ UInt32.ofNatCore 127 (by decide) := by
    have h4 : c.val.toNat ≤ 57 := h2
    show c.val.toNat ≤ 127
    omega
  simp only [Char.utf8Size]
  exact if_pos h3

theorem isspace_not_digit (c : Char) (h : isspace c = true) : c.isDigit = false := by
  simp only [isspace, Bool.or_eq_true, decide_eq_true_eq] at h
  rcases h with ((((h | h) | h) | h) | h) | h <;> subst h <;> decide

theorem atoiDigits_append (ds tail : List Char) (hd : ∀ c ∈ ds, c.isDigit = true)
    (ht : ∀ c, tail.head? = some c → c.isDigit = false) :
    ∀ acc, atoiDigits (ds ++ tail) acc = ds.foldl (fun a c => a * 10 + (c.toNat - 48)) acc := by
  induction ds with
  | nil =>
    intro acc
    cases tail with
    | nil => rfl
    | cons c t => simp [atoiDigits, ht c rfl]
  | cons d ds ih =>
    intro acc
    have h1 : d.isDigit = true := hd d (by simp)
    simp only [List.cons_append, atoiDigits, h1, if_true, List.foldl_cons]
    exact ih (fun c hc => hd c (List.mem_cons_of_mem _ hc)) _

theorem specNat_some (ds : List Char) (n : Nat) (h : specNat ds = some n) :
    ds ≠ [] ∧ (∀ c ∈ ds, c.isDigit = true) ∧
      n = ds.foldl (fun a c => a * 10 + (c.toNat - 48)) 0 := by
  unfold specNat at h
  split at h
  · next hc =>
    injection h with h
    exact ⟨hc.1, fun c hcm => List.all_eq_true.1 hc.2 c hcm, h.symm⟩
  · cases h

theorem digit_not_space (c : Char) (h : c.isDigit = true) : isspace c = false := by
  cases hs : isspace c
  · rfl
  · rw [isspace_not_digit c hs] at h; cases h

theorem atoi_of_signed (s : List Char) (v : Int) (hfit : intMin ≤ v ∧ v ≤ intMax)
    (h : atoiSigned (s.dropWhile isspace) = v) : atoi s = some v := by
  unfold atoi
  simp only [h]
  rw [if_pos hfit]

/-- On a token that spells an integer of `int` range, followed by nothing or by
white space, `atoi` returns that integer. -/
theorem atoi_of_specInteger (tok tail : List Char) (v : Int)
    (hs : specInteger tok = some v) (hfit : intMin ≤ v ∧ v ≤ intMax)
    (ht : ∀ c, tail.head? = some c → isspace c = true) :
    atoi (tok ++ tail) = some v := by
  have htd : ∀ c, tail.head? = some c → c.isDigit = false :=
    fun c hc => isspace_not_digit c (ht c hc)
  apply atoi_of_signed _ _ hfit
  unfold specInteger at hs
  split at hs
  · next ds =>
    cases hn : specNat ds with
    | none => rw [hn] at hs; cases hs
    | some n =>
      rw [hn] at hs
      injection hs with hs
      obtain ⟨_, hd, hval⟩ := specNat_some ds n hn
      have hdig := atoiDigits_append ds tail hd htd 0
      have hdw : List.dropWhile isspace ('-' :: ds ++ tail) = '-' :: (ds ++ tail) :=
        List.dropWhile_cons_of_neg (by decide)
      rw [hdw]
      show -(atoiDigits (ds ++ tail) 0 : Int) = v
      rw [hdig, ← hval]
      exact hs
  · next hneg =>
    cases hn : specNat tok with
    | none => rw [hn] at hs; cases hs
    | some n =>
      rw [hn] at hs
      injection hs with hs
      obtain ⟨hne, hd, hval⟩ := specNat_some tok n hn
      have hdig := atoiDigits_append tok tail hd htd 0
      cases tok with
      | nil => exact absurd rfl hne
      | cons c cs =>
        have hc : c.isDigit = true := hd c (by simp)
        have hsp : isspace c = false := digit_not_space c hc
        have hm : c ≠ '-' := fun h => by rw [h] at hc; cases hc
        have hp : c ≠ '+' := fun h => by rw [h] at hc; cases hc
        have hdw : List.dropWhile isspace (c :: cs ++ tail) = c :: (cs ++ tail) :=
          List.dropWhile_cons_of_neg (by simp [hsp])
        rw [hdw]
        unfold atoiSigned
        split
        · next heq => injection heq with h1 _; exact absurd h1 hm
        · next heq => injection heq with h1 _; exact absurd h1 hp
        · show ((atoiDigits (c :: cs ++ tail) 0 : Nat) : Int) = v
          rw [hdig, ← hval]
          exact hs

theorem takeWhile_append_stop (p : Char → Bool) (l r : List Char) (x : Char)
    (hx : p x = false) : (l ++ x :: r).takeWhile p = l.takeWhile p := by
  induction l with
  | nil => simp [List.takeWhile, hx]
  | cons c l ih =>
    cases hc : p c <;> simp [List.takeWhile, hc, ih]

/-- The text the scan of `preprocessLine` keeps begins with the first token of
the line, and what follows the token there, if anything, is white space. -/
theorem scan_token (line : List Char) :
    ∃ tail, line.takeWhile (fun c => c != ' ' && c != '\n') = specToken line ++ tail ∧
      ∀ c, tail.head? = some c → isspace c = true := by
  induction line with
  | nil => exact ⟨[], rfl, fun c h => by cases h⟩
  | cons a l ih =>
    obtain ⟨tail, ht, hh⟩ := ih
    cases hs : isspace a
    · have h1 : (a != ' ' && a != '\n') = true := by
        simp only [isspace, Bool.or_eq_false_iff, decide_eq_false_iff_not] at hs
        simp [hs.1.1.1.1.1, hs.1.1.1.2]
      refine ⟨tail, ?_, hh⟩
      simp only [specToken, List.takeWhile, h1, hs, Bool.not_false]
      simp only [specToken] at ht
      rw [ht]
      rfl
    · refine ⟨(a :: l).takeWhile (fun c => c != ' ' && c != '\n'), ?_, ?_⟩
      · simp [specToken, List.takeWhile, hs]
      · intro c hc
        cases h1 : (a != ' ' && a != '\n')
        · simp [List.takeWhile, h1] at hc
        · simp only [List.takeWhile, h1, List.head?_cons, Option.some.injEq] at hc
          rw [← hc]; exact hs

/-- On a stored line that ends with its newline, `preprocessLine` returns the
integer the first token spells. -/
theorem preprocessLine_of_spec (line : List Char) (v : Int)
    (hs : specInteger (specToken line) = some v) (hfit : intMin ≤ v ∧ v ≤ intMax) :
    preprocessLine (line ++ ['\n']) = some v := by
  obtain ⟨tail, ht, hh⟩ := scan_token line
  have hany : (line ++ ['\n']).any (fun c => decide (c = ' ') || decide (c = '\n')) = true := by
    simp
  unfold preprocessLine
  rw [if_pos hany, takeWhile_append_stop _ line [] '\n' (by decide), ht]
  exact atoi_of_specInteger _ tail v hs hfit hh

/-- One line of the image, stored whole by `fgets`, takes the loop from the
store and cursor before the line to those the format prescribes. -/
theorem processFileInputLoop_line (l rest : List Char) (fuel : Nat) (memory : Int → Int)
    (i : Int) (st1 : (Int → Int) × Int) (hlen : byteLength l ≤ 254) (hnl : '\n' ∉ l)
    (hl : loadSpecLine (memory, i) l = some st1) :
    processFileInputLoop (fuel + 1) (l ++ '\n' :: rest) memory i =
      processFileInputLoop fuel rest st1.1 st1.2 := by
  have hfg := fgets_line l rest hnl hlen
  rw [processFileInputLoop, hfg]
  cases l with
  | nil =>
    injection hl with hl
    subst hl
    simp
  | cons c r =>
    simp only [loadSpecLine] at hl
    by_cases h1 : c = ' '
    · rw [if_pos h1] at hl
      injection hl with hl
      subst hl
      simp [h1]
    · rw [if_neg h1] at hl
      by_cases h2 : c = '.'
      · rw [if_pos h2] at hl
        subst h2
        cases hK : specInteger (specToken r) with
        | none => rw [hK] at hl; cases hl
        | some K =>
          rw [hK] at hl
          simp only at hl
          split at hl
          · next hfit =>
            injection hl with hl
            subst hl
            have hp := preprocessLine_of_spec r K hK hfit
            simp [hp]
          · cases hl
      · rw [if_neg h2] at hl
        by_cases h3 : c.isDigit = true ∨ c = '-'
        · rw [if_pos h3] at hl
          have h4 : c ≠ '\n' := by
            rintro rfl
            rcases h3 with h3 | h3 <;> revert h3 <;> decide
          cases hv : specInteger (specToken (c :: r)) with
          | none => rw [hv] at hl; cases hl
          | some v =>
            rw [hv] at hl
            simp only at hl
            split at hl
            · next hc =>
              injection hl with hl
              subst hl
              have hp := preprocessLine_of_spec (c :: r) v hv hc.1
              have hw : wrap32 (i + 1) = i + 1 := wrap32_of_int (by omega) (by omega)
              have hi : 0 ≤ i ∧ i < 2000 := ⟨hc.2.1, by omega⟩
              simp only [List.cons_append] at hp
              simp [h1, h2, h4, hp, hw, hi]
            · cases hl
        · rw [if_neg h3] at hl
          cases hl

theorem fileText_length_cons (l : List Char) (ls : List (List Char)) :
    (fileText (l :: ls)).length = l.length + 1 + (fileText ls).length := by
  show (l ++ '\n' :: fileText ls).length = _
  rw [List.length_append, List.length_cons]
  omega

/-- With lines short enough to be stored whole, the loop of `processFileInput`
follows the reference line by line and ends at end of file with the store the
reference gives. -/
theorem processFileInputLoop_refines (lines : List (List Char)) :
    ∀ (st st1 : (Int → Int) × Int) (fuel : Nat),
      (∀ l ∈ lines, byteLength l ≤ 254 ∧ '\n' ∉ l) → loadSpecFrom st lines = some st1 →
      (fileText lines).length < fuel →
      processFileInputLoop fuel (fileText lines) st.1 st.2 = LoadResult.loaded st1.1 := by
  induction lines with
  | nil =>
    intro st st1 fuel _ hs hf
    obtain ⟨f, rfl⟩ : ∃ j, fuel = j + 1 := ⟨fuel - 1, by omega⟩
    injection hs with hs
    subst hs
    simp [processFileInputLoop, fileText, fgets]
  | cons l ls ih =>
    intro st st1 fuel hshort hs hf
    obtain ⟨f, rfl⟩ : ∃ j, fuel = j + 1 := ⟨fuel - 1, by omega⟩
    rw [fileText_length_cons] at hf
    obtain ⟨hlen, hnl⟩ := hshort l (by simp)
    cases hl : loadSpecLine st l with
    | none => simp [loadSpecFrom, hl] at hs
    | some st2 =>
      have hs2 : loadSpecFrom st2 ls = some st1 := by
        simpa [loadSpecFrom, hl] using hs
      show processFileInputLoop (f + 1) (l ++ '\n' :: fileText ls) st.1 st.2 = _
      rw [processFileInputLoop_line l (fileText ls) f st.1 st.2 st2 hlen hnl hl]
      exact ih st2 st1 f (fun l1 h1 => hshort l1 (List.mem_cons_of_mem _ h1)) hs2 (by omega)

theorem fgetsChars_rest (cs : List Char) :
    ∀ k line rest, fgetsChars k cs = some (line, rest) → rest.length ≤ cs.length := by
  induction cs with
  | nil =>
    intro k line rest h
    simp only [fgetsChars, Option.some.injEq, Prod.mk.injEq] at h
    rw [← h.2]
  | cons c cs ih =>
    intro k line rest h
    simp only [fgetsChars] at h
    split at h
    · simp only [Option.some.injEq, Prod.mk.injEq] at h
      rw [← h.2]
    · split at h
      · cases h
      · split at h
        · simp only [Option.some.injEq, Prod.mk.injEq] at h
          rw [← h.2]; simp
        · cases hr : fgetsChars (k - c.utf8Size) cs with
          | none => rw [hr] at h; cases h
          | some p =>
            obtain ⟨l1, r1⟩ := p
            rw [hr] at h
            simp only [Option.some.injEq, Prod.mk.injEq] at h
            have := ih _ l1 r1 hr
            rw [← h.2]
            simp only [List.length_cons]
            omega

/-- Every successful `fgets` of the loader consumes at least one character. -/
theorem fgets_consumes (file line rest : List Char)
    (h : fgets 256 file = FgetsResult.stored line rest) :
    rest.length < file.length := by
  cases file with
  | nil => cases h
  | cons c cs =>
    have h1 : fgetsChars 255 (c :: cs) = some (line, rest) := by
      cases hf : fgetsChars 255 (c :: cs) with
      | none => simp [fgets, hf] at h
      | some p =>
        obtain ⟨l1, r1⟩ := p
        simp only [fgets, hf, FgetsResult.stored.injEq] at h
        rw [h.1, h.2]
    simp only [fgetsChars] at h1
    rw [if_neg (by decide)] at h1
    split at h1
    · cases h1
    · split at h1
      · simp only [Option.some.injEq, Prod.mk.injEq] at h1
        rw [← h1.2]; simp
      · cases hr : fgetsChars (255 - c.utf8Size) cs with
        | none => rw [hr] at h1; cases h1
        | some p =>
          obtain ⟨l1, r1⟩ := p
          rw [hr] at h1
          simp only [Option.some.injEq, Prod.mk.injEq] at h1
          have := fgetsChars_rest cs _ l1 r1 hr
          rw [← h1.2]
          simp only [List.length_cons]
          omega

/-- The loop of the loader has no error exit, and with more iterations allowed
than the file has characters it does not stop on the iteration bound. -/
theorem processFileInputLoop_ends (fuel : Nat) :
    ∀ (file : List Char) (memory : Int → Int) (i : Int),
      (∀ msg, processFileInputLoop fuel file memory i ≠ LoadResult.errorExit msg) ∧
      (file.length < fuel → processFileInputLoop fuel file memory i ≠ LoadResult.outOfFuel) := by
  induction fuel with
  | zero =>
    intro file memory i
    exact ⟨fun msg h => (by cases h), fun h => (by omega)⟩
  | succ f ih =>
    intro file memory i
    rw [processFileInputLoop]
    cases hfg : fgets 256 file with
    | eof => exact ⟨fun msg h => (by cases h), fun _ h => (by cases h)⟩
    | splitCharacter => exact ⟨fun msg h => (by cases h), fun _ h => (by cases h)⟩
    | stored line rest =>
      have hlt := fgets_consumes file line rest hfg
      simp only
      constructor
      · intro msg
        split
        · split
          · intro h; cases h
          · exact (ih _ _ _).1 msg
        · split
          · split
            · intro h; cases h
            · split
              · exact (ih _ _ _).1 msg
              · intro h; cases h
          · exact (ih _ _ _).1 msg
      · intro hf
        have hr : rest.length < f := by omega
        split
        · split
          · intro h; cases h
          · exact (ih _ _ _).2 hr
        · split
          · split
            · intro h; cases h
            · split
              · exact (ih _ _ _).2 hr
              · intro h; cases h
          · exact (ih _ _ _).2 hr

theorem specInteger_chars (tok : List Char) (v : Int) (h : specInteger tok = some v) :
    tok ≠ [] ∧ ∀ c ∈ tok, isspace c = false ∧ (c.isDigit = true ∨ c = '-') := by
  unfold specInteger at h
  split at h
  · next ds =>
    cases hn : specNat ds with
    | none => rw [hn] at h; cases h
    | some n =>
      obtain ⟨_, hd, _⟩ := specNat_some ds n hn
      refine ⟨by simp, fun c hc => ?_⟩
      rcases List.mem_cons.1 hc with hc | hc
      · subst hc; exact ⟨by decide, Or.inr rfl⟩
      · exact ⟨digit_not_space c (hd c hc), Or.inl (hd c hc)⟩
  · cases hn : specNat tok with
    | none => rw [hn] at h; cases h
    | some n =>
      obtain ⟨hne, hd, _⟩ := specNat_some tok n hn
      exact ⟨hne, fun c hc => ⟨digit_not_space c (hd c hc), Or.inl (hd c hc)⟩⟩

theorem specToken_of_specInteger (tok : List Char) (v : Int) (h : specInteger tok = some v) :
    specToken tok = tok ∧ '\n' ∉ tok := by
  obtain ⟨_, hc⟩ := specInteger_chars tok v h
  constructor
  · unfold specToken
    rw [List.takeWhile_eq_self_iff]
    intro c hcm
    simp [(hc c hcm).1]
  · intro hm
    have := (hc _ hm).1
    revert this
    decide

theorem byteLength_of_specInteger (tok : List Char) (v : Int)
    (h : specInteger tok = some v) : byteLength tok = tok.length := by
  have hc := (specInteger_chars tok v h).2
  clear h
  induction tok with
  | nil => rfl
  | cons c l ih =>
    have h1 : c.utf8Size = 1 := by
      rcases (hc c (by simp)).2 with hd | hm
      · exact digit_utf8Size c hd
      · rw [hm]; decide
    have := ih (fun a ha => hc a (List.mem_cons_of_mem _ ha))
    show c.utf8Size + byteLength l = (c :: l).length
    rw [h1, this, List.length_cons]
    omega

/-- A data line met with the load address outside the array: the store of line
979 is executed there. -/
theorem processFileInputLoop_outside (l rest : List Char) (fuel : Nat) (memory : Int → Int)
    (i v : Int) (hlen : l.length ≤ 254) (hv : specInteger l = some v)
    (hfit : intMin ≤ v ∧ v ≤ intMax) (hi : ¬ (0 ≤ i ∧ i ≤ 1999)) :
    processFileInputLoop (fuel + 1) (l ++ '\n' :: rest) memory i =
      LoadResult.outsideArray i v := by
  obtain ⟨htok, hnl⟩ := specToken_of_specInteger l v hv
  obtain ⟨hne, hc⟩ := specInteger_chars l v hv
  have hfg := fgets_line l rest hnl (by rw [byteLength_of_specInteger l v hv]; exact hlen)
  have hp := preprocessLine_of_spec l v (by rw [htok]; exact hv) hfit
  rw [processFileInputLoop, hfg]
  cases l with
  | nil => exact absurd rfl hne
  | cons c r =>
    have hcc := (hc c (by simp)).2
    have h1 : c ≠ '.' := by
      rintro rfl
      rcases hcc with h | h <;> revert h <;> decide
    have h2 : c ≠ '\n' := by
      rintro rfl
      rcases hcc with h | h <;> revert h <;> decide
    have h3 : c ≠ ' ' := by
      rintro rfl
      rcases hcc with h | h <;> revert h <;> decide
    have hi2 : ¬ (0 ≤ i ∧ i < 2000) := fun h => hi ⟨h.1, by omega⟩
    simp only [List.cons_append] at hp
    simp [h1, h2, h3, hp, hi2]

/-! ## C21 -/

/-- C21: what case 50 puts on the channel.  An End whose fetch passes the
address check makes its exit call through the two-cell request helper, so the
exit word 99 is followed by a cell holding 0.  The memory process leaves its
loop on the word 99 and never reads that cell, and the CPU process ends either
by returning or, when the write of that cell raises SIGPIPE, by being killed.
In every run from the initial state the exit call is made at most once: either
no call on the channel carries the word 99 as its command, or the loop has
stopped with `IR = 50`, the exit call is the last call on the channel, no
earlier call carries 99 as its command, the cell trace ends with 99, 0, and
further loop iterations add nothing. -/
theorem C21_exit_emitted_once (N : Int) (rand : Nat → Nat) (n : Nat)
    (IR AC X Y : Int) (memoryArray : Int → Int) :
    (∀ (r : Nat) (s : State), validateAddressAccess s.PC s.kernelMode = true →
      s.memoryArray s.PC = 50 →
      ∃ s2, step N r s = Outcome.ok s2 ∧ s2.IR = 50 ∧
        cellTrace s2.cpuToMemory =
          cellTrace s.cpuToMemory ++ [getReadStatus, s.PC, 99, 0] ∧
        (∀ flushed, cpuProcessEnd ExitWrite.delivered flushed s2 =
          ProcessEnd.returned s.stdout) ∧
        (∀ flushed, cpuProcessEnd ExitWrite.sigpipe flushed s2 =
          ProcessEnd.killed (s.stdout.take flushed))) ∧
    (∀ (store : Int → Int) (k : Bool) (rest : List Int),
      memoryProcess store (Event.cells (Event.statusPtr 99 0 k) ++ rest) =
        { memoryArray := store, memoryToCPU := [], ending := ServerEnd.exited }) ∧
    ((∀ e ∈ (cpuProcess N rand n IR AC X Y memoryArray).state.cpuToMemory,
        e.status ≠ 99) ∨
     (∃ s pre, cpuProcess N rand n IR AC X Y memoryArray = Outcome.ok s ∧ s.IR = 50 ∧
        s.cpuToMemory = pre ++ [Event.statusPtr 99 0 s.kernelMode] ∧
        (∀ e ∈ pre, e.status ≠ 99) ∧
        cellTrace s.cpuToMemory = cellTrace pre ++ [99, 0] ∧
        ∀ m, cpuProcess N rand (n + m) IR AC X Y memoryArray = Outcome.ok s)) := by
  refine ⟨?_, ?_, ?_⟩
  · intro r s hv hop
    rw [step_of_fetch N r s hv, if_pos hop]
    refine ⟨_, rfl, hop, ?_, fun _ => rfl, fun _ => rfl⟩
    show cellTrace (s.cpuToMemory ++ [Event.statusPtr getReadStatus s.PC s.kernelMode] ++
      [Event.statusPtr exitStatus 0 s.kernelMode]) = _
    rw [List.append_assoc, cellTrace_append]
    rfl
  · intro store k rest
    exact memoryProcess_exit store (0 :: rest)
  · rcases cpuLoop_exit N rand (initialState IR AC X Y memoryArray)
      (fun e he => absurd he (List.not_mem_nil e)) n with h | ⟨s, pre, hs, hIR, hlog, hpre⟩
    · exact Or.inl (fun e he => isAccess_ne_exit e (h e he))
    · refine Or.inr ⟨s, pre, hs, hIR, hlog, fun e he => isAccess_ne_exit e (hpre e he), ?_,
        fun m => cpuLoop_halted N rand _ s n hs hIR m⟩
      rw [hlog, cellTrace_append]
      rfl

/-- C21 on the image that holds only End, at cell 0: the step puts the cells
82, 0, 99, 0 on the channel, so the exit word is followed by a payload cell and
the last cell of the trace is 0, not 99; five iterations leave the same state. -/
theorem C21_witness :
    (∃ s2, step 10000 0 (initialState 0 0 0 0 endImage) = Outcome.ok s2 ∧ s2.IR = 50 ∧
      cellTrace s2.cpuToMemory =
        cellTrace (initialState 0 0 0 0 endImage).cpuToMemory ++
          [getReadStatus, (initialState 0 0 0 0 endImage).PC, 99, 0] ∧
      (∀ flushed, cpuProcessEnd ExitWrite.delivered flushed s2 =
        ProcessEnd.returned (initialState 0 0 0 0 endImage).stdout) ∧
      (∀ flushed, cpuProcessEnd ExitWrite.sigpipe flushed s2 =
        ProcessEnd.killed ((initialState 0 0 0 0 endImage).stdout.take flushed))) ∧
    (∃ s, cpuProcess 10000 (fun _ => 0) 1 0 0 0 0 endImage = Outcome.ok s ∧ s.IR = 50 ∧
      cellTrace s.cpuToMemory = [82, 0, 99, 0] ∧
      (cellTrace s.cpuToMemory).getLast? = some 0 ∧
      (cellTrace s.cpuToMemory).getLast? ≠ some 99 ∧
      cpuProcess 10000 (fun _ => 0) 5 0 0 0 0 endImage = Outcome.ok s) :=
  ⟨(C21_exit_emitted_once 10000 (fun _ => 0) 1 0 0 0 0 endImage).1 0
      (initialState 0 0 0 0 endImage) (by decide) rfl,
   ⟨_, rfl, rfl, rfl, rfl, by decide, rfl⟩⟩

/-! ## C22 -/

/-- C22: the loop is entered with `PC = 0`, `SP = 1000`, user mode and timer 0,
and whenever the uninitialised `IR` is not 50 a run of at least one iteration
begins with the READ of address 0.  When the uninitialised `IR` is 50 the loop
condition, evaluated before the first fetch, is false at once: for every image
and every number of iterations the run ends in the initial state with nothing
on the channel, so address 0 is never read, no instruction is executed and the
exit word is never sent. -/
theorem C22_loop_head (N : Int) (rand : Nat → Nat) (n : Nat)
    (IR AC X Y : Int) (memoryArray : Int → Int) :
    (initialState IR AC X Y memoryArray).PC = 0 ∧
    (initialState IR AC X Y memoryArray).SP = 1000 ∧
    (initialState IR AC X Y memoryArray).kernelMode = false ∧
    (initialState IR AC X Y memoryArray).timer = 0 ∧
    (IR ≠ 50 → ∃ rest, (cpuProcess N rand (n + 1) IR AC X Y memoryArray).state.cpuToMemory =
      Event.statusPtr getReadStatus 0 false :: rest) ∧
    (IR = 50 →
      cpuProcess N rand n IR AC X Y memoryArray =
        Outcome.ok (initialState IR AC X Y memoryArray) ∧
      (cpuProcess N rand n IR AC X Y memoryArray).state.cpuToMemory = [] ∧
      (cpuProcess N rand n IR AC X Y memoryArray).state.IR = 50) := by
  refine ⟨rfl, rfl, rfl, rfl, ?_, ?_⟩
  · intro hIR
    obtain ⟨rest, hr⟩ := cpuLoop_first_event N rand (initialState IR AC X Y memoryArray)
      hIR (show validateAddressAccess 0 false = true by decide) n
    exact ⟨rest, hr⟩
  · intro hIR
    subst hIR
    have h : cpuProcess N rand n 50 AC X Y memoryArray =
        Outcome.ok (initialState 50 AC X Y memoryArray) := by
      have := cpuLoop_halted N rand (initialState 50 AC X Y memoryArray) _ 0 rfl rfl n
      rw [Nat.zero_add] at this
      exact this
    rw [h]
    exact ⟨rfl, rfl, rfl⟩

/-- C22 with `IR = 50` on entry and the image 1, 42, 9, 1, 50: after any three
iterations nothing has happened. -/
theorem C22_witness :
    cpuProcess 10000 (fun _ => 0) 3 50 0 0 0 putImage =
      Outcome.ok (initialState 50 0 0 0 putImage) ∧
    (cpuProcess 10000 (fun _ => 0) 3 50 0 0 0 putImage).state.cpuToMemory = [] ∧
    (cpuProcess 10000 (fun _ => 0) 3 50 0 0 0 putImage).state.IR = 50 :=
  (C22_loop_head 10000 (fun _ => 0) 3 50 0 0 0 putImage).2.2.2.2.2 rfl

/-! ## C23 -/

/-- C23: when the fetch at `PC` passes the address check and the fetched word is
outside 1..30 and is not 50, the step ends in the fatal error of the `default`
label; the state at the stop is the state right after the fetch, so `IR` holds
the fetched word, every other register, the timer, the mode, the memory and the
output are as before, and the only command on the channel beyond the old ones is
the READ of the fetch. -/
theorem C23_unknown_opcode (N : Int) (r : Nat) (s : State)
    (hv : validateAddressAccess s.PC s.kernelMode = true)
    (hop : (s.memoryArray s.PC < 1 ∨ 30 < s.memoryArray s.PC) ∧ s.memoryArray s.PC ≠ 50) :
    ∃ s1, step N r s = Outcome.fault Fault.noCase s1 ∧
      s1.IR = s.memoryArray s.PC ∧
      s1.PC = s.PC ∧ s1.SP = s.SP ∧ s1.AC = s.AC ∧ s1.X = s.X ∧ s1.Y = s.Y ∧
      s1.kernelMode = s.kernelMode ∧ s1.timer = s.timer ∧
      s1.memoryArray = s.memoryArray ∧ s1.stdout = s.stdout ∧
      s1.cpuToMemory = s.cpuToMemory ++ [Event.statusPtr getReadStatus s.PC s.kernelMode] := by
  refine ⟨fetched s, ?_, rfl, rfl, rfl, rfl, rfl, rfl, rfl, rfl, rfl, rfl, rfl⟩
  rw [step_of_fetch N r s hv, if_neg hop.2, execute_default r (fetched s) hop.1]
  rfl

theorem C23_witness :
    ∃ s1, step 10000 0 (initialState 0 0 0 0 (fun a => if a = 0 then 31 else 0)) =
        Outcome.fault Fault.noCase s1 ∧
      s1.IR = 31 ∧ s1.PC = 0 ∧ s1.SP = 1000 ∧ s1.AC = 0 ∧ s1.X = 0 ∧ s1.Y = 0 ∧
      s1.kernelMode = false ∧ s1.timer = 0 ∧
      s1.memoryArray = (fun a => if a = 0 then 31 else 0) ∧ s1.stdout = [] ∧
      s1.cpuToMemory = [] ++ [Event.statusPtr getReadStatus 0 false] :=
  C23_unknown_opcode 10000 0 (initialState 0 0 0 0 (fun a => if a = 0 then 31 else 0))
    (by decide) (by decide)

/-! ## C24 -/

/-- C24 (amended): started with exactly one argument, the path of an existing
program image, `main` hands the period 10000 to the CPU.  In a run from the
initial state with that period, when `n` instructions have retired and the next
one runs through: before the 10000th retired instruction the timer check never
succeeds and the step ends in the state the instruction left, and at the
10000th it succeeds exactly when the CPU is in user mode after the
instruction. -/
theorem C24_default_period (prog fileName : String) (fileExists : String → Bool)
    (hex : fileExists fileName = true) (rand : Nat → Nat)
    (IR AC X Y : Int) (memoryArray : Int → Int) (n : Nat) (hn : n + 1 ≤ 10000)
    (s s1 : State)
    (hrun : cpuProcess 10000 rand n IR AC X Y memoryArray = Outcome.ok s) (hgo : s.IR ≠ 50)
    (hins : fetchExecute (rand n) s = Outcome.ok s1) :
    main [prog, fileName] fileExists = Startup.started fileName 10000 ∧
    (n + 1 < 10000 → timerFires 10000 s1 = false ∧
      step 10000 (rand n) s = Outcome.ok { s1 with timer := (n : Int) + 1 }) ∧
    (n + 1 = 10000 → (timerFires 10000 s1 = true ↔ s1.kernelMode = false)) := by
  have ht : s.timer = (n : Int) := by
    have := cpuLoop_timer 10000 rand (initialState IR AC X Y memoryArray) n s hrun hgo
      (by simp [initialState]) (by simp only [initialState]; omega)
    simpa [initialState] using this
  have ht1 : s1.timer = (n : Int) := by
    rw [(fetchExecute_frame _ _ _ hins).1, ht]
  have hw : wrap32 (s1.timer + 1) = (n : Int) + 1 := by
    rw [ht1]; exact wrap32_of_int (by omega) (by omega)
  have hiff := timerFires_iff (show (1 : Int) ≤ 10000 by decide) s1
  rw [hw] at hiff
  refine ⟨?_, ?_, ?_⟩
  · simp [main, hex]
  · intro hlt
    have hnd : ¬ ((10000 : Int) ∣ (n : Int) + 1) := by
      intro hd
      have := Int.le_of_dvd (by omega) hd
      omega
    have hf : timerFires 10000 s1 = false := by
      cases h : timerFires 10000 s1
      · rfl
      · exact absurd (hiff.1 h).1 hnd
    refine ⟨hf, ?_⟩
    have hv : validateTimerInterrupt 10000 (wrap32 (s1.timer + 1)) s1.kernelMode =
        some false := by
      rw [validateTimerInterrupt_pos (show (1 : Int) ≤ 10000 by decide), hw]
      simp [hnd]
    rw [step_quiet 10000 (rand n) s s1 hins hv, hw]
  · intro heq
    have hd : (10000 : Int) ∣ (n : Int) + 1 := by
      have : (n : Int) + 1 = 10000 := by omega
      rw [this]
    rw [hiff]
    exact ⟨fun h => h.2, fun h => ⟨hd, h⟩⟩

/-- C24 at the first instruction of the image 1, 42, 9, 1, 50. -/
theorem C24_witness :
    main ["cpu_mem_sim", "program.txt"] (fun _ => true) =
      Startup.started "program.txt" 10000 ∧
    (0 + 1 < 10000 →
      timerFires 10000 (fetchExecute 0 (initialState 0 0 0 0 putImage)).state = false ∧
      step 10000 0 (initialState 0 0 0 0 putImage) = Outcome.ok
        { (fetchExecute 0 (initialState 0 0 0 0 putImage)).state with
            timer := ((0 : Nat) : Int) + 1 }) ∧
    (0 + 1 = 10000 →
      (timerFires 10000 (fetchExecute 0 (initialState 0 0 0 0 putImage)).state = true ↔
        (fetchExecute 0 (initialState 0 0 0 0 putImage)).state.kernelMode = false)) :=
  C24_default_period "cpu_mem_sim" "program.txt" (fun _ => true) rfl (fun _ => 0)
    0 0 0 0 putImage 0 (by decide) (initialState 0 0 0 0 putImage)
    (fetchExecute 0 (initialState 0 0 0 0 putImage)).state rfl (by decide) rfl

/-- C24 as stated fails: with one argument the period is 10000, not 1000, and
with that period the timer check does not succeed at the 1000th retired
instruction. -/
theorem C24_counterexample :
    main ["cpu_mem_sim", "program.txt"] (fun _ => true) =
      Startup.started "program.txt" 10000 ∧
    main ["cpu_mem_sim", "program.txt"] (fun _ => true) ≠
      Startup.started "program.txt" 1000 ∧
    timerFires 10000 { initialState 0 0 0 0 putImage with timer := 999 } = false ∧
    timerFires 1000 { initialState 0 0 0 0 putImage with timer := 999 } = true := by
  refine ⟨by decide, by decide, by decide, by decide⟩

/-! ## C25 -/

/-- C25 (amended): a period argument that `atoi` maps to 0 is not rejected:
`main` starts the processes with period 0 whenever the image file exists, and
fails only on the argument count or a missing file.  With period 0 every step
whose instruction runs through stops in its timer check on the undefined
`timer % 0`, with the instruction's effects in place and the timer
incremented. -/
theorem C25_period_not_validated (prog fileName period : String)
    (fileExists : String → Bool) (hp : atoi period.toList = some 0) :
    (main [prog, fileName, period] fileExists =
      if fileExists fileName then Startup.started fileName 0
      else Startup.errorExit "wrong file name or no file") ∧
    (∀ (r : Nat) (s s1 : State), fetchExecute r s = Outcome.ok s1 →
      step 0 r s =
        Outcome.fault Fault.divideFault { s1 with timer := wrap32 (s1.timer + 1) }) := by
  constructor
  · have hd : atoi period.data = some 0 := hp
    simp [main, hd]
  · intro r s s1 hfe
    rw [step_eq_timerCheck 0 r s s1 hfe]
    exact timerCheck_of_undefined 0 s1 (by simp [validateTimerInterrupt])

theorem C25_witness :
    (main ["cpu_mem_sim", "program.txt", "abc"] (fun _ => true) =
      if (fun _ => true) "program.txt" then Startup.started "program.txt" 0
      else Startup.errorExit "wrong file name or no file") ∧
    (∀ (r : Nat) (s s1 : State), fetchExecute r s = Outcome.ok s1 →
      step 0 r s =
        Outcome.fault Fault.divideFault { s1 with timer := wrap32 (s1.timer + 1) }) :=
  C25_period_not_validated "cpu_mem_sim" "program.txt" "abc" (fun _ => true) (by decide)

/-- C25 as stated fails: the argument `abc` is accepted, the CPU is started
with period 0, and the first instruction of the image 1, 42, 9, 1, 50 ends in
the division by zero of the timer check. -/
theorem C25_counterexample :
    atoi "abc".toList = some 0 ∧
    main ["cpu_mem_sim", "program.txt", "abc"] (fun _ => true) =
      Startup.started "program.txt" 0 ∧
    ∃ s, cpuProcess 0 (fun _ => 0) 1 0 0 0 0 putImage = Outcome.fault Fault.divideFault s ∧
      s.AC = 42 ∧ s.timer = 1 :=
  ⟨by decide, by decide, _, rfl, rfl, rfl⟩

/-! ## C26 -/

/-- C26 (amended): for every program image given as a list of lines, none
taking more than 254 bytes and none holding a newline, on which the reference
loader `loadSpec` is defined (every line is blank, begins with a space, is `.K`
with `K` spelling an `int`, or begins with a digit or `-` and its first token
spells an `int`; every deposit finds the cursor in 0..1999), loading the file
that holds these lines, each ended by a newline, into 2000 zero cells ends at
end of file with exactly the store of the reference. -/
theorem C26_loader_refines (lines : List (List Char)) (memory : Int → Int)
    (hshort : ∀ l ∈ lines, byteLength l ≤ 254 ∧ '\n' ∉ l)
    (hspec : loadSpec lines = some memory) :
    validateFile (fun _ => 0) (some (fileText lines)) = LoadResult.loaded memory := by
  unfold loadSpec at hspec
  cases hst : loadSpecFrom (fun _ => 0, 0) lines with
  | none => rw [hst] at hspec; cases hspec
  | some st1 =>
    rw [hst] at hspec
    injection hspec with hspec
    subst hspec
    exact processFileInputLoop_refines lines (fun _ => 0, 0) st1 _ hshort hst
      (Nat.lt_succ_self _)

/-- C26 on an image with every kind of line: cells 0, 1, 5 and 1000 receive
1, 42, 50 and -30. -/
theorem C26_witness :
    validateFile (fun _ => 0) (some (fileText sampleImage)) =
      LoadResult.loaded ((loadSpec sampleImage).getD (fun _ => 0)) :=
  C26_loader_refines sampleImage ((loadSpec sampleImage).getD (fun _ => 0))
    (by decide) rfl

set_option maxRecDepth 100000 in
/-- C26 as stated fails on a line that takes more than the 255 bytes `fgets`
stores at once: the rest of the line is taken for a line of its own.  On the
first image, whose first line has 261 one-byte characters, the loader deposits
5, 9, 7 in cells 0, 1, 2 where the reference deposits 5, 7 in cells 0, 1.  On
the second, whose first line has 134 characters in 265 bytes, the loader
deposits 5, 0, 7 where the reference deposits 5, 7. -/
theorem C26_counterexample :
    (∃ m r, validateFile (fun _ => 0) (some (fileText longLineImage)) = LoadResult.loaded m ∧
      loadSpec longLineImage = some r ∧
      m 1 = 9 ∧ r 1 = 7 ∧ m 2 = 7 ∧ r 2 = 0) ∧
    (∃ m r, validateFile (fun _ => 0) (some (fileText wideLineImage)) = LoadResult.loaded m ∧
      loadSpec wideLineImage = some r ∧
      (wideLineImage.map List.length, wideLineImage.map byteLength) = ([134, 1], [265, 1]) ∧
      m 0 = 5 ∧ m 1 = 0 ∧ m 2 = 7 ∧ r 0 = 5 ∧ r 1 = 7 ∧ r 2 = 0) :=
  ⟨⟨_, _, rfl, rfl, rfl, rfl, rfl, rfl⟩, ⟨_, _, rfl, rfl, rfl, rfl, rfl, rfl, rfl, rfl, rfl⟩⟩

/-! ## C27 -/

/-- C27 (amended): the loader makes no range check and has no error exit of its
own; the only loader error is the file failing to open.  A data line met with
the load address outside 0..1999 executes the store `memory[i] = value` outside
the array; in particular a directive `.K` with `K` outside 0..1999 is accepted,
and the data line after it stores at index `K`.  On every text the loop ends
within one iteration more than the text has characters. -/
theorem C27_no_range_check (memory : Int → Int) :
    (∀ text msg, validateFile memory (some text) ≠ LoadResult.errorExit msg) ∧
    (∀ text, validateFile memory (some text) ≠ LoadResult.outOfFuel) ∧
    validateFile memory none = LoadResult.errorExit "File failed to open" ∧
    (∀ (fuel : Nat) (vtok rest : List Char) (i v : Int), vtok.length ≤ 254 →
      specInteger vtok = some v → intMin ≤ v ∧ v ≤ intMax → ¬ (0 ≤ i ∧ i ≤ 1999) →
      processFileInputLoop (fuel + 1) (vtok ++ '\n' :: rest) memory i =
        LoadResult.outsideArray i v) ∧
    (∀ (ktok vtok rest : List Char) (K v : Int), ktok.length ≤ 253 → vtok.length ≤ 254 →
      specInteger ktok = some K → intMin ≤ K ∧ K ≤ intMax →
      specInteger vtok = some v → intMin ≤ v ∧ v ≤ intMax → ¬ (0 ≤ K ∧ K ≤ 1999) →
      validateFile memory (some (('.' :: ktok) ++ '\n' :: (vtok ++ '\n' :: rest))) =
        LoadResult.outsideArray K v) := by
  refine ⟨?_, ?_, rfl, ?_, ?_⟩
  · intro text msg
    exact (processFileInputLoop_ends _ text memory 0).1 msg
  · intro text
    exact (processFileInputLoop_ends _ text memory 0).2 (Nat.lt_succ_self _)
  · intro fuel vtok rest i v hlen hv hfit hi
    exact processFileInputLoop_outside vtok rest fuel memory i v hlen hv hfit hi
  · intro ktok vtok rest K v hk hl hK hKfit hv hfit hout
    obtain ⟨htok, hnl⟩ := specToken_of_specInteger ktok K hK
    have hline : loadSpecLine (memory, 0) ('.' :: ktok) = some (memory, K) := by
      simp [loadSpecLine, htok, hK, hKfit]
    have hnl2 : '\n' ∉ '.' :: ktok := by
      intro h
      rcases List.mem_cons.1 h with h | h
      · revert h; decide
      · exact hnl h
    have hbytes : byteLength ('.' :: ktok) ≤ 254 := by
      show ('.' : Char).utf8Size + byteLength ktok ≤ 254
      rw [byteLength_of_specInteger ktok K hK, show ('.' : Char).utf8Size = 1 by decide]
      omega
    obtain ⟨f, hf⟩ : ∃ f,
        (('.' :: ktok) ++ '\n' :: (vtok ++ '\n' :: rest)).length + 1 = f + 1 + 1 :=
      ⟨(ktok ++ '\n' :: (vtok ++ '\n' :: rest)).length, rfl⟩
    show processFileInputLoop _ _ memory 0 = _
    rw [hf, processFileInputLoop_line ('.' :: ktok) _ (f + 1) memory 0 (memory, K)
      hbytes hnl2 hline]
    exact processFileInputLoop_outside vtok rest f memory K v hl hv hfit hout

/-- C27 at the image `.2000`, `5`. -/
theorem C27_witness :
    validateFile (fun _ => 0)
        (some (('.' :: "2000".toList) ++ '\n' :: ("5".toList ++ '\n' :: []))) =
      LoadResult.outsideArray 2000 5 :=
  (C27_no_range_check (fun _ => 0)).2.2.2.2 "2000".toList "5".toList [] 2000 5
    (by decide) (by decide) rfl (by decide) rfl (by decide) (by decide)

/-- C27 as stated fails: the images `.2000`, `5` and `.-1`, `5` and the image
`.1999`, `1`, `2`, whose cursor reaches 2000, are loaded without an error
exit, and each executes a store outside the array. -/
theorem C27_counterexample :
    validateFile (fun _ => 0) (some ".2000\n5\n".toList) = LoadResult.outsideArray 2000 5 ∧
    validateFile (fun _ => 0) (some ".-1\n5\n".toList) = LoadResult.outsideArray (-1) 5 ∧
    validateFile (fun _ => 0) (some ".1999\n1\n2\n".toList) = LoadResult.outsideArray 2000 2 ∧
    ∀ msg, validateFile (fun _ => 0) (some ".2000\n5\n".toList) ≠ LoadResult.errorExit msg :=
  ⟨rfl, rfl, rfl, fun _ h => LoadResult.noConfusion h⟩

/-! ## C28 -/

/-- C28: a Put (opcode 9) whose opcode and port cells pass the address check,
run with a positive interrupt period, runs through; `AC` is unchanged; with
port 1 the output grows by exactly the bytes of `AC` in decimal, with port 2 by
exactly the one byte `AC mod 256`, and with any other port by nothing.  The
image 1, 42, 9, 1, 50 reaches opcode 50 after three iterations having printed
"42" (bytes 52, 50).  When the second write of its exit call is delivered the
process returns with output "42"; when that write raises SIGPIPE the process is
killed with the two bytes still in the buffer, and nothing is output. -/
theorem C28_put (N : Int) (r : Nat) (s : State) (hN : 1 ≤ N)
    (hv : validateAddressAccess s.PC s.kernelMode = true)
    (hop : s.memoryArray s.PC = 9)
    (h1 : validateAddressAccess (s.PC + 1) s.kernelMode = true) :
    (∃ s2, step N r s = Outcome.ok s2 ∧ s2.AC = s.AC ∧
      (s.memoryArray (s.PC + 1) = 1 → s2.stdout = s.stdout ++ decimalBytes s.AC) ∧
      (s.memoryArray (s.PC + 1) = 2 → s2.stdout = s.stdout ++ [(s.AC % 256).toNat]) ∧
      (s.memoryArray (s.PC + 1) ≠ 1 → s.memoryArray (s.PC + 1) ≠ 2 →
        s2.stdout = s.stdout)) ∧
    (∃ s3, cpuProcess 10000 (fun _ => 0) 3 0 0 0 0 putImage = Outcome.ok s3 ∧
      s3.IR = 50 ∧ s3.stdout = "42".toList.map Char.toNat ∧ s3.stdout = [52, 50] ∧
      (∀ flushed, cpuProcessEnd ExitWrite.delivered flushed s3 =
        ProcessEnd.returned [52, 50]) ∧
      cpuProcessEnd ExitWrite.sigpipe 0 s3 = ProcessEnd.killed []) := by
  constructor
  · have hw : wrap32 (s.PC + 1) = s.PC + 1 := wrap32_succ_of_valid hv
    have hfe : fetchExecute r s = Outcome.ok
        { (showAC
            { s with IR := 9, PC := s.PC + 1,
                     cpuToMemory := s.cpuToMemory ++
                       [Event.statusPtr getReadStatus s.PC s.kernelMode,
                        Event.statusPtr getReadStatus (s.PC + 1) s.kernelMode] }
            (s.memoryArray (s.PC + 1)) s.AC) with PC := wrap32 (s.PC + 1 + 1) } := by
      rw [fetchExecute_of_fetch r s hv]
      simp [execute, fetched, pipeReadStatusAndPTR, hop, case9, checkedRead_eq, hw, h1]
    rw [step_eq_timerCheck N r s _ hfe]
    rcases timerCheck_cases N _ with ⟨_, ht⟩ | ⟨_, ht⟩ | ⟨_, ht⟩
    · rw [ht]
      refine ⟨_, rfl, ?_, ?_, ?_, ?_⟩
      · simp
      · intro hp; simp [showAC, hp]
      · intro hp; simp [showAC, hp]
      · intro hp1 hp2; simp [showAC, hp1, hp2]
    · rw [ht]
      refine ⟨_, rfl, ?_, ?_, ?_, ?_⟩
      · simp
      · intro hp; simp [showAC, hp]
      · intro hp; simp [showAC, hp]
      · intro hp1 hp2; simp [showAC, hp1, hp2]
    · exfalso
      have hn := ((timerCheck_eq_fault_iff N _ _).1 ht).1
      rw [validateTimerInterrupt_pos hN] at hn
      cases hn
  · exact ⟨_, rfl, rfl, rfl, rfl, fun _ => rfl, rfl⟩

theorem C28_witness :
    (∃ s2, step 10000 0 { initialState 0 42 0 0 putImage with PC := 2 } = Outcome.ok s2 ∧
      s2.AC = 42 ∧
      (putImage (2 + 1) = 1 → s2.stdout = [] ++ decimalBytes 42) ∧
      (putImage (2 + 1) = 2 → s2.stdout = [] ++ [((42 : Int) % 256).toNat]) ∧
      (putImage (2 + 1) ≠ 1 → putImage (2 + 1) ≠ 2 → s2.stdout = [])) ∧
    (∃ s3, cpuProcess 10000 (fun _ => 0) 3 0 0 0 0 putImage = Outcome.ok s3 ∧
      s3.IR = 50 ∧ s3.stdout = "42".toList.map Char.toNat ∧ s3.stdout = [52, 50] ∧
      (∀ flushed, cpuProcessEnd ExitWrite.delivered flushed s3 =
        ProcessEnd.returned [52, 50]) ∧
      cpuProcessEnd ExitWrite.sigpipe 0 s3 = ProcessEnd.killed []) :=
  C28_put 10000 0 { initialState 0 42 0 0 putImage with PC := 2 } (by decide) (by decide)
    (by decide) (by decide)

/-! ## C29 -/

/-- C29: for a step that runs through without the timer interrupt firing, with
`op` the fetched opcode: Store (7) changes no cell other than the one addressed
by its immediate; Call (23) and PushAC (27) change no cell other than the one at
the decremented `SP`; SysCall (29) changes no cell other than 1998 and 1999; and
for every other opcode the memory is unchanged and none of the commands the step
put on the channel is a WRITE. -/
theorem C29_memory_frame (N : Int) (r : Nat) (s s2 : State)
    (h : step N r s = Outcome.ok s2)
    (hq : timerFires N (fetchExecute r s).state = false) :
    (s.memoryArray s.PC = 7 →
      ∀ a, a ≠ s.memoryArray (s.PC + 1) → s2.memoryArray a = s.memoryArray a) ∧
    (s.memoryArray s.PC = 23 ∨ s.memoryArray s.PC = 27 →
      s2.SP = wrap32 (s.SP - 1) ∧
      ∀ a, a ≠ s2.SP → s2.memoryArray a = s.memoryArray a) ∧
    (s.memoryArray s.PC = 29 →
      ∀ a, a ≠ 1998 → a ≠ 1999 → s2.memoryArray a = s.memoryArray a) ∧
    (s.memoryArray s.PC ≠ 7 → s.memoryArray s.PC ≠ 23 → s.memoryArray s.PC ≠ 27 →
      s.memoryArray s.PC ≠ 29 →
      s2.memoryArray = s.memoryArray ∧
      ∃ new, s2.cpuToMemory = s.cpuToMemory ++ new ∧
        ∀ e ∈ new, e.status ≠ getWriteStatus) := by
  by_cases h50 : s.memoryArray s.PC = 50
  · obtain ⟨hv, ⟨_, h2⟩ | ⟨hn, _⟩⟩ := step_ok N r s s2 h
    · subst h2
      refine ⟨fun c => ?_, fun c => ?_, fun c => ?_, fun _ _ _ _ => ⟨rfl,
        [Event.statusPtr getReadStatus s.PC s.kernelMode,
          Event.statusPtr exitStatus 0 s.kernelMode], ?_, ?_⟩⟩
      · rw [h50] at c; cases c
      · rw [h50] at c; rcases c with c | c <;> cases c
      · rw [h50] at c; cases c
      · show s.cpuToMemory ++ [Event.statusPtr getReadStatus s.PC s.kernelMode] ++
          [Event.statusPtr exitStatus 0 s.kernelMode] = s.cpuToMemory ++ _
        rw [List.append_assoc]
        rfl
      · intro e he
        simp only [List.mem_cons, List.mem_singleton, List.not_mem_nil, or_false] at he
        rcases he with he | he <;> subst he <;>
          simp [Event.status, getReadStatus, getWriteStatus, exitStatus]
    · exact absurd h50 hn
  · obtain ⟨hv, s1, he, h2⟩ := step_ok_quiet N r s s2 h h50 hq
    obtain ⟨m7, m23, m29, mo⟩ := execute_memory r (fetched s) s1 he
    have hpc : wrap32 (s.PC + 1) = s.PC + 1 := wrap32_succ_of_valid hv
    subst h2
    refine ⟨fun c => ?_, fun c => ?_, fun c => ?_, fun c1 c2 c3 c4 => ?_⟩
    · obtain ⟨t, _, ht, hf⟩ := m7 c
      intro a ha
      refine hf a ?_
      rw [ht]
      show a ≠ s.memoryArray (wrap32 (s.PC + 1))
      rw [hpc]
      exact ha
    · obtain ⟨hsp, hf⟩ := m23 c
      refine ⟨hsp, fun a ha => hf a ?_⟩
      intro hc
      exact ha (hc.trans hsp.symm)
    · exact m29 c
    · obtain ⟨hm, new, hn, hr⟩ := mo c1 c2 c3 c4
      refine ⟨hm, [Event.statusPtr getReadStatus s.PC s.kernelMode] ++ new, ?_, ?_⟩
      · show s1.cpuToMemory = _
        rw [hn, ← List.append_assoc]
        rfl
      · intro e he
        simp only [List.mem_append, List.mem_singleton] at he
        rcases he with he | he
        · subst he; simp [Event.status, getReadStatus, getWriteStatus]
        · rw [hr e he]; decide

theorem C29_witness :
    (storeLoadState.memoryArray storeLoadState.PC = 7 →
      ∀ a, a ≠ storeLoadState.memoryArray (storeLoadState.PC + 1) →
        (step 10000 0 storeLoadState).state.memoryArray a = storeLoadState.memoryArray a) ∧
    (storeLoadState.memoryArray storeLoadState.PC = 23 ∨
        storeLoadState.memoryArray storeLoadState.PC = 27 →
      (step 10000 0 storeLoadState).state.SP = wrap32 (storeLoadState.SP - 1) ∧
      ∀ a, a ≠ (step 10000 0 storeLoadState).state.SP →
        (step 10000 0 storeLoadState).state.memoryArray a = storeLoadState.memoryArray a) ∧
    (storeLoadState.memoryArray storeLoadState.PC = 29 →
      ∀ a, a ≠ 1998 → a ≠ 1999 →
        (step 10000 0 storeLoadState).state.memoryArray a = storeLoadState.memoryArray a) ∧
    (storeLoadState.memoryArray storeLoadState.PC ≠ 7 →
      storeLoadState.memoryArray storeLoadState.PC ≠ 23 →
      storeLoadState.memoryArray storeLoadState.PC ≠ 27 →
      storeLoadState.memoryArray storeLoadState.PC ≠ 29 →
      (step 10000 0 storeLoadState).state.memoryArray = storeLoadState.memoryArray ∧
      ∃ new, (step 10000 0 storeLoadState).state.cpuToMemory =
          storeLoadState.cpuToMemory ++ new ∧
        ∀ e ∈ new, e.status ≠ getWriteStatus) :=
  C29_memory_frame 10000 0 storeLoadState (step 10000 0 storeLoadState).state rfl (by decide)

end CpuMemSim
